import Mathlib

/-! nfstest: cache-coherency test harness

A shallow embedding of `src/nfstest.c`.  Pure computations of the program are
Lean functions; results of system calls are inputs of the functions that
inspect them; the two test processes are resumption trees over the control
socket, executed by a deterministic scheduler over two FIFO byte queues.
-/

namespace NfsTest

/-! ## The flush-method catalog (`enum nfs_cache_flush_method`) -/

/-- Preprocessor configuration that decides which enum members exist:
`HAVE_FLOCK` (line 21) and whether `<fcntl.h>` defines `O_DIRECT`. -/
structure Build where
  have_flock : Bool
  have_o_direct : Bool
  deriving DecidableEq, Repr

/-- Every member that `enum nfs_cache_flush_method` can have, less the final
`NFS_CACHE_FLUSH_METHOD_COUNT`; the common prefix `NFS_CACHE_FLUSH_METHOD_` of
the names is dropped. -/
inductive Method where
  | NONE
  | OPEN_CLOSE
  | CLOSE_OPEN
  | FCHOWN_1_1
  | FCHOWN_UID
  | FCHMOD
  | CHOWN_1_1
  | CHOWN_UID
  | CHMOD
  | RMDIR
  | RMDIR_PARENT
  | DUP_CLOSE
  | FCNTL_SHARED
  | FCNTL_EXCL
  | FLOCK_SHARED
  | FLOCK_EXCL
  | FSYNC
  | O_SYNC
  | O_DIRECT
  deriving DecidableEq, Repr

open Method

/-- The members of `enum nfs_cache_flush_method` in declaration order (lines
57-83) for a build; the position in this list is the enumerator's value. -/
def enum_members (b : Build) : List Method :=
  [NONE, OPEN_CLOSE, CLOSE_OPEN, FCHOWN_1_1, FCHOWN_UID, FCHMOD, CHOWN_1_1,
   CHOWN_UID, CHMOD, RMDIR, RMDIR_PARENT, DUP_CLOSE, FCNTL_SHARED, FCNTL_EXCL]
  ++ (if b.have_flock then [FLOCK_SHARED, FLOCK_EXCL] else [])
  ++ [FSYNC, O_SYNC]
  ++ (if b.have_o_direct then [O_DIRECT] else [])

/-- Value of `NFS_CACHE_FLUSH_METHOD_COUNT`: the enumerator after the last
method. -/
def NFS_CACHE_FLUSH_METHOD_COUNT (b : Build) : Nat :=
  (enum_members b).length

/-- Enumerator value of a method in a build, `none` when the build does not
declare it. -/
def ordinal (b : Build) (m : Method) : Option Nat :=
  if (enum_members b).indexOf m < (enum_members b).length then
    some ((enum_members b).indexOf m)
  else none

/-- The method whose enumerator value is `n` (`none` for `n` at or beyond
`NFS_CACHE_FLUSH_METHOD_COUNT`). -/
def method_of (b : Build) (n : Nat) : Option Method :=
  (enum_members b).get? n

/-- The table `nfs_cache_flush_method_names` (lines 84-109). -/
def nfs_cache_flush_method_names (b : Build) : List String :=
  ["no caching", "open+close", "close+open", "fchown(-1, -1)",
   "fchown(uid, -1)", "fchmod(mode)", "chown(-1, -1)", "chown(uid, -1)",
   "chmod(mode)", "rmdir()", "rmdir(parent dir)", "dup+close",
   "fcntl(shared)", "fcntl(exclusive)"]
  ++ (if b.have_flock then ["flock(shared)", "flock(exclusive)"] else [])
  ++ ["fsync()", "fcntl(O_SYNC)"]
  ++ (if b.have_o_direct then ["O_DIRECT"] else [])

/-- Lookup `nfs_cache_flush_method_names[method]`. -/
def method_name (b : Build) (n : Nat) : String :=
  (nfs_cache_flush_method_names b).getD n ""

/-! ## Verification of the partially written file
(`nfs_test_write_partial_client`, lines 1193-1209) -/

/-- The constant `PARTIAL_TOTSIZE`. -/
def PARTIAL_TOTSIZE : Nat := 16384

/-- The constant `PARTIAL_BLOCKIZE`. -/
def PARTIAL_BLOCKIZE : Nat := 16

/-- Outcome `memcmp(data + off, pat, n) == 0` where `pat` holds `n` copies of
the byte `c` (both patterns of the client are `memset` buffers).  A buffer is
a function from byte index to byte. -/
def memcmp_eq (data : Nat → Char) (off : Nat) (c : Char) (n : Nat) : Bool :=
  (List.range n).all (fun j => data (off + j) == c)

/-- The verification loop
`for (i = 0; i < sizeof(data)/sizeof(b); i += sizeof(b))` with its two
`break`s; returns the value of `i` after the loop.  `fuel` bounds the number of
iterations. -/
def verify_loop (data : Nat → Char) : Nat → Nat → Nat
  | 0, i => i
  | fuel + 1, i =>
    if i < PARTIAL_TOTSIZE / PARTIAL_BLOCKIZE then
      if !memcmp_eq data i 'S' (PARTIAL_BLOCKIZE / 2) then i
      else if !memcmp_eq data (i + PARTIAL_BLOCKIZE / 2) 'C' (PARTIAL_BLOCKIZE / 2) then i
      else verify_loop data fuel (i + PARTIAL_BLOCKIZE)
    else i

/-- Value of `i` when the loop of the client ends.  `i` grows by 16 in every
iteration, so `PARTIAL_TOTSIZE / PARTIAL_BLOCKIZE` iterations are more than the
loop can make. -/
def verify_index (data : Nat → Char) : Nat :=
  verify_loop data (PARTIAL_TOTSIZE / PARTIAL_BLOCKIZE) 0

/-- What the client prints after the loop. -/
inductive Report where
  | ok
  | failed_at (i : Nat)
  deriving DecidableEq, Repr

/-- The `if (i == sizeof(data)/sizeof(b))` after the loop: `printf("OK\n")` or
`printf("Failed at [%d]\n", i)`. -/
def verify_report (data : Nat → Char) : Report :=
  if verify_index data = PARTIAL_TOTSIZE / PARTIAL_BLOCKIZE then Report.ok
  else Report.failed_at (verify_index data)

/-- Text of a report line. -/
def Report.text : Report → String
  | Report.ok => "OK\n"
  | Report.failed_at i => "Failed at [" ++ toString i ++ "]\n"

/-- Block `k` of the buffer holds the expected pattern: bytes `[16k, 16k+8)`
are `S` and bytes `[16k+8, 16k+16)` are `C`. -/
def block_ok (data : Nat → Char) (k : Nat) : Prop :=
  (∀ j, j < 8 → data (16 * k + j) = 'S') ∧ (∀ j, j < 8 → data (16 * k + 8 + j) = 'C')

instance (data : Nat → Char) (k : Nat) : Decidable (block_ok data k) := by
  unfold block_ok; infer_instance

/-- A buffer whose first 64 blocks hold the expected pattern and whose other
bytes are all `X`. -/
def buf_first64 : Nat → Char :=
  fun j => if j < 1024 then (if j % 16 < 8 then 'S' else 'C') else 'X'

/-- A buffer that holds the expected pattern everywhere but in byte 16, the
first byte of block 1. -/
def buf_bad1 : Nat → Char :=
  fun j => if j = 16 then 'X' else (if j % 16 < 8 then 'S' else 'C')

/-! ## System-call level model of the flush actions
(`fcntl_lock`, `nfs_cache_flush_before`, `nfs_cache_flush_after`, lines 149-347)

The state of the descriptor `*fd_p` is explicit.  The result of every system
call that the code inspects is an input (`SysResults`); a successful call has
its POSIX effect on the descriptor state and a failed call has none. -/

/-- Values of `errno` that the program tests for, and all others. -/
inductive Errno where
  | ENOTEMPTY
  | ENOTDIR
  | EBUSY
  | EEXIST
  | EPERM
  | ESTALE
  | ENOENT
  | EIO
  | other (n : Nat)
  deriving DecidableEq, Repr

/-- Kind of an advisory lock: `F_RDLCK` / `LOCK_SH`, or `F_WRLCK` / `LOCK_EX`. -/
inductive LockKind where
  | shared
  | exclusive
  deriving DecidableEq, Repr

/-- State of an open descriptor: the file status flags that
`fcntl(fd, F_GETFL)` returns, the whole-file record lock that the process holds
on the file through `fcntl`, the lock that the open file holds through `flock`,
and the file offset. -/
structure FdState where
  flags : Nat
  fcntl_lock : Option LockKind
  flock_lock : Option LockKind
  offset : Nat
  deriving DecidableEq, Repr

/-- Values of the flag constants `O_SYNC` and `O_DIRECT` of `<fcntl.h>`. -/
structure FlagConsts where
  O_SYNC : Nat
  O_DIRECT : Nat
  deriving DecidableEq, Repr

/-- The values of Linux on x86: `O_SYNC` is `04010000` and `O_DIRECT` is
`040000`. -/
def linux_flags : FlagConsts := ⟨1052672, 16384⟩

/-- The C expression `x & ~m` on non-negative `int`s: the bits of `m` removed
from `x`. -/
def clear_bits (x m : Nat) : Nat :=
  x ^^^ (x &&& m)

/-- A system call made by a flush action (arguments that the model does not
need are left out). -/
inductive Call where
  | open_path (path : List Char)
  | close_fd
  | lseek_cur (off : Nat)
  | fcntl_getfl
  | fcntl_setfl (flags : Nat)
  | fcntl_setlk (l_type : Option LockKind)
  | fchown_fd
  | fstat_fd
  | fchmod_fd
  | chown_path (path : List Char)
  | stat_path (path : List Char)
  | chmod_path (path : List Char)
  | rmdir_path (path : List Char)
  | dup_fd
  | close_dup
  | flock_fd (op : Option LockKind)
  | fsync_fd
  deriving DecidableEq, Repr

/-- Return values (and `errno` where the code reads it) of the system calls of
one flush action. -/
structure SysResults where
  open_ret : Int
  fcntl_setfl_ret : Int
  fcntl_setlk_ret : Int
  fchown_ret : Int
  fchown_errno : Errno
  fstat_ret : Int
  fchmod_ret : Int
  chown_ret : Int
  stat_ret : Int
  chmod_ret : Int
  rmdir_ret : Int
  rmdir_errno : Errno
  dup_ret : Int
  close_dup_ret : Int
  flock_ret : Int
  fsync_ret : Int
  deriving DecidableEq, Repr

/-- What a flush action works on and leaves behind: the descriptor behind
`fd_p` (`none` when `fd_p` is `NULL` or `*fd_p` is -1), the system calls made so
far and the lines printed so far (a message is recorded as its format
string). -/
structure World where
  fd : Option FdState
  calls : List Call
  out : List String
  deriving DecidableEq, Repr

/-- How a function ends: it returns to its caller, or `i_fatal` has ended the
process with `exit(1)`. -/
inductive Flow where
  | returned (w : World)
  | exited (w : World)
  deriving DecidableEq, Repr

/-- Sequencing: what follows runs only when the first part has returned. -/
def Flow.andThen (f : Flow) (k : World → Flow) : Flow :=
  match f with
  | Flow.returned w => k w
  | Flow.exited w => Flow.exited w

/-- The world in which a function ended. -/
def Flow.world : Flow → World
  | Flow.returned w => w
  | Flow.exited w => w

/-- Whether `i_fatal` has ended the process. -/
def Flow.exits : Flow → Bool
  | Flow.returned _ => false
  | Flow.exited _ => true

/-- Record a system call. -/
def World.call (w : World) (c : Call) : World :=
  { w with calls := w.calls ++ [c] }

/-- The function `i_error`: print the message, return. -/
def i_error (w : World) (msg : String) : World :=
  { w with out := w.out ++ [msg] }

/-- The function `i_fatal`: print the message, `exit(1)`. -/
def i_fatal (w : World) (msg : String) : Flow :=
  Flow.exited { w with out := w.out ++ [msg] }

/-- The library function `strrchr(s, c)`: index of the last occurrence of `c`. -/
def strrchr : List Char → Char → Option Nat
  | [], _ => none
  | x :: xs, c =>
    match strrchr xs c with
    | some i => some (i + 1)
    | none => if x = c then some 0 else none

/-- Directory of the target path as lines 248-252 derive it (and again lines
670-674, 749-753, 867-871): `"."` when there is no slash, otherwise
`snprintf(dir, p - path + 1, "%s", path)`, the `p - path` bytes before the last
slash. -/
def parent_dir (path : List Char) : List Char :=
  match strrchr path '/' with
  | none => ['.']
  | some i => path.take i

/-- The function `fcntl_lock(fd, lock_type)` on an open descriptor;
`lock_type` is `none` for `F_UNLCK`.  A successful `F_SETLK` over the whole
file replaces the lock that the process holds. -/
def fcntl_lock (r : SysResults) (w : World) (s : FdState) (lock_type : Option LockKind) :
    World :=
  let w1 := w.call (Call.fcntl_setlk lock_type)
  if r.fcntl_setlk_ret < 0 then
    i_error w1 "fcntl(setlk, %s) failed: %m"
  else
    { w1 with fd := some { s with fcntl_lock := lock_type } }

/-- The `rmdir` case of `nfs_cache_flush_before` (lines 255-261). -/
def flush_rmdir (r : SysResults) (path : List Char) (w : World) : Flow :=
  let w1 := w.call (Call.rmdir_path path)
  if r.rmdir_ret = 0 then
    i_fatal w1 "Oops, rmdir(%s) actually worked"
  else if r.rmdir_errno ≠ Errno.ENOTEMPTY ∧ r.rmdir_errno ≠ Errno.ENOTDIR ∧
      r.rmdir_errno ≠ Errno.EBUSY ∧ r.rmdir_errno ≠ Errno.EEXIST then
    Flow.returned (i_error w1 "rmdir(%s) failed: %m")
  else
    Flow.returned w1

/-- The function `nfs_cache_flush_before(path, fd_p, method)` (lines 165-304).
A method that the build does not declare has no `case` and is never passed.
Closing a descriptor of the file releases the record locks that the process
holds on it (POSIX `fcntl`), closing the only descriptor of an open file
releases its `flock` lock as well; in every caller that passes a descriptor,
`path` names the file of that descriptor. -/
def nfs_cache_flush_before (b : Build) (fc : FlagConsts) (r : SysResults)
    (path : List Char) (method : Method) (w : World) : Flow :=
  if method ∉ enum_members b then Flow.returned w else
  match method with
  | NONE => Flow.returned w
  | OPEN_CLOSE =>
    let w1 := w.call (Call.open_path path)
    if r.open_ret ≠ -1 then
      Flow.returned
        { w1.call Call.close_dup with fd := w.fd.map (fun s => { s with fcntl_lock := none }) }
    else Flow.returned w1
  | CLOSE_OPEN =>
    match w.fd with
    | none => Flow.returned w
    | some s =>
      let w1 := (((w.call (Call.lseek_cur 0)).call Call.fcntl_getfl).call
        Call.close_fd).call (Call.open_path path)
      if r.open_ret = -1 then
        i_fatal { w1 with fd := none } "flush reopen: open(%s) failed: %m"
      else
        Flow.returned
          { w1.call (Call.lseek_cur s.offset) with
            fd := some { flags := s.flags, fcntl_lock := none, flock_lock := none,
                         offset := 0 + s.offset } }
  | O_DIRECT =>
    match w.fd with
    | none => Flow.returned w
    | some s =>
      let w1 := (w.call Call.fcntl_getfl).call (Call.fcntl_setfl (s.flags ||| fc.O_DIRECT))
      if r.fcntl_setfl_ret < 0 then
        Flow.returned (i_error w1 "fcntl(%s, O_DIRECT) failed: %m")
      else
        Flow.returned { w1 with fd := some { s with flags := s.flags ||| fc.O_DIRECT } }
  | O_SYNC =>
    match w.fd with
    | none => Flow.returned w
    | some s =>
      let w1 := (w.call Call.fcntl_getfl).call (Call.fcntl_setfl (s.flags ||| fc.O_SYNC))
      if r.fcntl_setfl_ret < 0 then
        Flow.returned (i_error w1 "fcntl(%s, O_SYNC) failed: %m")
      else
        Flow.returned { w1 with fd := some { s with flags := s.flags ||| fc.O_SYNC } }
  | FCHOWN_1_1 =>
    match w.fd with
    | none => Flow.returned w
    | some _ =>
      let w1 := w.call Call.fchown_fd
      if r.fchown_ret < 0 then i_fatal w1 "fchown(-1, -1) failed: %m"
      else Flow.returned w1
  | FCHOWN_UID =>
    match w.fd with
    | none => Flow.returned w
    | some _ =>
      let w1 := w.call Call.fstat_fd
      if r.fstat_ret < 0 then i_fatal w1 "fstat() failed: %m"
      else
        let w2 := w1.call Call.fchown_fd
        if r.fchown_ret < 0 ∧ r.fchown_errno ≠ Errno.EPERM then
          i_fatal w2 "fchown() failed: %m"
        else Flow.returned w2
  | FCHMOD =>
    match w.fd with
    | none => Flow.returned w
    | some _ =>
      let w1 := w.call Call.fstat_fd
      if r.fstat_ret < 0 then i_fatal w1 "fstat() failed: %m"
      else
        let w2 := w1.call Call.fchmod_fd
        if r.fchmod_ret < 0 then i_fatal w2 "fchmod() failed: %m"
        else Flow.returned w2
  | CHOWN_1_1 =>
    let w1 := w.call (Call.chown_path path)
    if r.chown_ret < 0 then i_fatal w1 "chown(-1, -1) failed: %m"
    else Flow.returned w1
  | CHOWN_UID =>
    let w1 := w.call (Call.stat_path path)
    if r.stat_ret < 0 then i_fatal w1 "stat(%s) failed: %m"
    else
      let w2 := w1.call (Call.chown_path path)
      if r.chown_ret < 0 then i_fatal w2 "chown() failed: %m"
      else Flow.returned w2
  | CHMOD =>
    let w1 := w.call (Call.stat_path path)
    if r.stat_ret < 0 then i_fatal w1 "stat(%s) failed: %m"
    else
      let w2 := w1.call (Call.chmod_path path)
      if r.chmod_ret < 0 then i_fatal w2 "chmod() failed: %m"
      else Flow.returned w2
  | RMDIR_PARENT => flush_rmdir r (parent_dir path) w
  | RMDIR => flush_rmdir r path w
  | DUP_CLOSE =>
    match w.fd with
    | none => Flow.returned w
    | some s =>
      let w1 := w.call Call.dup_fd
      if r.dup_ret < 0 then i_fatal w1 "dup() failed: %m"
      else
        let w2 := w1.call Call.close_dup
        if r.close_dup_ret < 0 then i_fatal w2 "close(duped) failed: %m"
        else Flow.returned { w2 with fd := some { s with fcntl_lock := none } }
  | FCNTL_SHARED =>
    match w.fd with
    | none => Flow.returned w
    | some s => Flow.returned (fcntl_lock r w s (some LockKind.shared))
  | FCNTL_EXCL =>
    match w.fd with
    | none => Flow.returned w
    | some s => Flow.returned (fcntl_lock r w s (some LockKind.exclusive))
  | FLOCK_SHARED =>
    match w.fd with
    | none => Flow.returned w
    | some s =>
      let w1 := w.call (Call.flock_fd (some LockKind.shared))
      if r.flock_ret < 0 then Flow.returned (i_error w1 "flock() failed: %m")
      else Flow.returned { w1 with fd := some { s with flock_lock := some LockKind.shared } }
  | FLOCK_EXCL =>
    match w.fd with
    | none => Flow.returned w
    | some s =>
      let w1 := w.call (Call.flock_fd (some LockKind.exclusive))
      if r.flock_ret < 0 then Flow.returned (i_error w1 "flock() failed: %m")
      else Flow.returned { w1 with fd := some { s with flock_lock := some LockKind.exclusive } }
  | FSYNC =>
    match w.fd with
    | none => Flow.returned w
    | some _ =>
      let w1 := w.call Call.fsync_fd
      if r.fsync_ret < 0 then i_fatal w1 "fsync() failed: %m"
      else Flow.returned w1

/-- The function `nfs_cache_flush_after(path, fd_p, method)` (lines 306-347).
The result of `flock(fd, LOCK_UN)` is not inspected; `old_flags &= ~O_DIRECT`
is compiled only where `O_DIRECT` is defined. -/
def nfs_cache_flush_after (b : Build) (fc : FlagConsts) (r : SysResults)
    (path : List Char) (method : Method) (w : World) : Flow :=
  if method ∉ enum_members b then nfs_cache_flush_before b fc r path method w else
  match method with
  | FCNTL_SHARED | FCNTL_EXCL =>
    match w.fd with
    | none => Flow.returned w
    | some s => Flow.returned (fcntl_lock r w s none)
  | FLOCK_SHARED | FLOCK_EXCL =>
    match w.fd with
    | none => Flow.returned w
    | some s =>
      let w1 := w.call (Call.flock_fd none)
      if r.flock_ret < 0 then Flow.returned w1
      else Flow.returned { w1 with fd := some { s with flock_lock := none } }
  | O_SYNC | O_DIRECT =>
    match w.fd with
    | none => Flow.returned w
    | some s =>
      let old_flags := clear_bits s.flags fc.O_SYNC
      let old_flags := if b.have_o_direct then clear_bits old_flags fc.O_DIRECT else old_flags
      let w1 := (w.call Call.fcntl_getfl).call (Call.fcntl_setfl old_flags)
      if r.fcntl_setfl_ret < 0 then
        Flow.returned (i_error w1 "fcntl(%s, restore flags) failed: %m")
      else
        Flow.returned { w1 with fd := some { s with flags := old_flags } }
  | _ => nfs_cache_flush_before b fc r path method w

/-- A flush action of a scenario round: `nfs_cache_flush_before`, then (when it
has returned) `nfs_cache_flush_after`, each with the results of its own system
calls, with no write between them. -/
def flush_before_after (b : Build) (fc : FlagConsts) (r1 r2 : SysResults)
    (path : List Char) (method : Method) (w : World) : Flow :=
  (nfs_cache_flush_before b fc r1 path method w).andThen
    (nfs_cache_flush_after b fc r2 path method)

/-- Every system call of a flush action ends as the code expects it to: the
calls that should succeed succeed and `rmdir` fails with one of the four error
codes that the code accepts. -/
def SysResults.as_expected (r : SysResults) : Prop :=
  r.open_ret ≠ -1 ∧ 0 ≤ r.fcntl_setfl_ret ∧ 0 ≤ r.fcntl_setlk_ret ∧
  0 ≤ r.fchown_ret ∧ 0 ≤ r.fstat_ret ∧ 0 ≤ r.fchmod_ret ∧ 0 ≤ r.chown_ret ∧
  0 ≤ r.stat_ret ∧ 0 ≤ r.chmod_ret ∧ r.rmdir_ret ≠ 0 ∧
  (r.rmdir_errno = Errno.ENOTEMPTY ∨ r.rmdir_errno = Errno.ENOTDIR ∨
    r.rmdir_errno = Errno.EBUSY ∨ r.rmdir_errno = Errno.EEXIST) ∧
  0 ≤ r.dup_ret ∧ 0 ≤ r.close_dup_ret ∧ 0 ≤ r.flock_ret ∧ 0 ≤ r.fsync_ret

instance (r : SysResults) : Decidable r.as_expected := by
  unfold SysResults.as_expected; infer_instance

/-- Results with which every call ends as expected: descriptors 3, zero for
success, `rmdir` failing with `ENOTEMPTY`. -/
def sys_ok : SysResults :=
  { open_ret := 3, fcntl_setfl_ret := 0, fcntl_setlk_ret := 0, fchown_ret := 0,
    fchown_errno := Errno.other 0, fstat_ret := 0, fchmod_ret := 0, chown_ret := 0,
    stat_ret := 0, chmod_ret := 0, rmdir_ret := -1, rmdir_errno := Errno.ENOTEMPTY,
    dup_ret := 4, close_dup_ret := 0, flock_ret := 0, fsync_ret := 0 }

/-- The path `/mnt/nfs/test` as bytes. -/
def sample_path : List Char :=
  ['/', 'm', 'n', 't', '/', 'n', 'f', 's', '/', 't', 'e', 's', 't']

/-- A world with an open descriptor in the given state, no call made and
nothing printed. -/
def world_of (s : FdState) : World :=
  { fd := some s, calls := [], out := [] }

/-- Results as `sys_ok`, but `rmdir` fails with `EACCES` (13), none of the four
accepted codes. -/
def sys_rmdir_eacces : SysResults :=
  { sys_ok with rmdir_errno := Errno.other 13 }

/-- Results as `sys_ok`, but `rmdir` succeeds. -/
def sys_rmdir_works : SysResults :=
  { sys_ok with rmdir_ret := 0 }

/-! ## The control protocol and the two processes

A process is a resumption tree over the control socket: it writes a byte,
reads a byte, prints lines, or ends.  Results of file operations are inputs
(observation records) of the procedures; a file operation whose failure the
code answers with `i_fatal` turns into `Proc.exit (Fatal.fs _)`. -/

/-- Place from which `i_fatal` was called. -/
inductive Fatal where
  /-- The `wait_cmd` abort `"Unexpected command: %c != %c"` with `cmd`,
  `wanted_cmd`. -/
  | unexpected (cmd wanted_cmd : Char)
  /-- The `read_cmd` abort `"Connection lost"`. -/
  | connection_lost
  /-- The `read_cmd` abort `"read(cmd) failed: %m"`. -/
  | read_failed
  /-- The `send_cmd` abort `"write(cmd) failed: %m"`. -/
  | write_failed
  /-- The abort `"expected '4'"` after the loop of a server procedure. -/
  | expected_4
  /-- A file operation ended in a way that the scenario does not go on from;
  the argument is the format string of the message. -/
  | fs (msg : String)
  deriving DecidableEq, Repr

/-- A process as a tree of its socket and output actions. -/
inductive Proc where
  /-- The call `write(fd, &cmd, 1)` on the socket; continues with its result. -/
  | write (cmd : Char) (k : Int → Proc)
  /-- The call `read(fd, &cmd, 1)` on the socket; continues with its result
  and the byte read. -/
  | read (k : Int → Char → Proc)
  /-- Lines printed with `printf` or `i_error`. -/
  | out (lines : List String) (k : Proc)
  /-- The function `i_fatal`: the process has ended. -/
  | exit (why : Fatal)
  /-- Control has returned to the caller of the procedure at the root. -/
  | ret
  /-- A loop of the model has used up its iteration bound. -/
  | nofuel

/-- The function `send_cmd(fd, cmd)` (lines 349-353). -/
def send_cmd (cmd : Char) (k : Proc) : Proc :=
  Proc.write cmd (fun r => if r ≠ 1 then Proc.exit Fatal.write_failed else k)

/-- The function `read_cmd(fd)` (lines 355-367). -/
def read_cmd (k : Char → Proc) : Proc :=
  Proc.read (fun r cmd =>
    if r ≤ 0 then
      (if r = 0 then Proc.exit Fatal.connection_lost else Proc.exit Fatal.read_failed)
    else k cmd)

/-- The function `wait_cmd(fd, wanted_cmd)` (lines 369-376). -/
def wait_cmd (wanted_cmd : Char) (k : Proc) : Proc :=
  read_cmd (fun cmd =>
    if wanted_cmd ≠ cmd then Proc.exit (Fatal.unexpected cmd wanted_cmd) else k)

/-- The pattern `if (<call failed>) i_fatal(msg);`. -/
def fs_check (failed : Prop) [Decidable failed] (msg : String) (k : Proc) : Proc :=
  if failed then Proc.exit (Fatal.fs msg) else k

/-- What a call of `nfs_cache_flush_before` or `nfs_cache_flush_after` inside a
scenario shows: the lines it printed and whether it ended in `i_fatal`.  The
flush actions never touch the socket. -/
structure FlushObs where
  lines : List String
  fatal : Bool
  deriving DecidableEq, Repr

/-- A call of a flush action inside a scenario. -/
def flush (f : FlushObs) (k : Proc) : Proc :=
  Proc.out f.lines (if f.fatal then Proc.exit (Fatal.fs "flush") else k)

/-- The statement `++chr` on a `char` (no overflow for the values reached). -/
def next_char (c : Char) : Char :=
  Char.ofNat (c.toNat + 1)

/-! ### stale-handle scenario (lines 402-452) -/

/-- File observations of `nfs_test_estale_server`. -/
structure EstaleServerObs where
  create_fd : Int
  unlink_ret : Int

/-- The procedure `nfs_test_estale_server`. -/
def nfs_test_estale_server (o : EstaleServerObs) (k : Proc) : Proc :=
  fs_check (o.create_fd < 0) "creat(%s) failed: %m" <|
  send_cmd '1' <|
  wait_cmd '2' <|
  Proc.out (if o.unlink_ret < 0 then ["unlink(%s) failed: %m"] else []) <|
  send_cmd '3' k

/-- File observations of `nfs_test_estale_client`. -/
structure EstaleClientObs where
  open_fd : Int
  read_ret : Int
  read_errno : Errno
  fchown_ret : Int
  fchown_errno : Errno

/-- The procedure `nfs_test_estale_client`. -/
def nfs_test_estale_client (o : EstaleClientObs) (k : Proc) : Proc :=
  send_cmd 'S' <|
  wait_cmd '1' <|
  fs_check (o.open_fd < 0) "creat(%s) failed: %m" <|
  send_cmd '2' <|
  wait_cmd '3' <|
  (if o.read_ret < 0 then
    (if o.read_errno = Errno.ESTALE then
      Proc.out ["ESTALE errors happen on read()\n"]
    else if o.read_errno = Errno.EIO then
      Proc.out
        ("EIO errors happen on read()\n" ::
          (if o.fchown_ret = 0 then [" - fchown() succeeded..\n"]
           else if o.fchown_errno = Errno.ESTALE then [" - fchown() returned ESTALE\n"]
           else [" - fchown() failed: %m"]))
    else fun _ => Proc.exit (Fatal.fs "read(%s) failed: %m"))
  else if o.read_ret ≠ 5 then
    Proc.out ["read(%s) returned %d bytes instead of 5"]
  else
    Proc.out ["ESTALE errors don't happen\n"]) <|
  wait_cmd '!' k

/-! ### exclusive-create scenario (lines 454-496) -/

/-- File observations of `nfs_test_oexcl_server`. -/
structure OexclServerObs where
  create_fd : Int

/-- The procedure `nfs_test_oexcl_server`. -/
def nfs_test_oexcl_server (o : OexclServerObs) (k : Proc) : Proc :=
  wait_cmd '1' <|
  fs_check (o.create_fd < 0) "open(%s, O_CREAT) failed: %m" <|
  send_cmd '2' k

/-- File observations of `nfs_test_oexcl_client`. -/
structure OexclClientObs where
  unlink_ret : Int
  unlink_errno : Errno
  stat_ret : Int
  stat_errno : Errno
  create_fd : Int
  create_errno : Errno

/-- The procedure `nfs_test_oexcl_client`. -/
def nfs_test_oexcl_client (o : OexclClientObs) (k : Proc) : Proc :=
  send_cmd 'E' <|
  fs_check (o.unlink_ret < 0 ∧ o.unlink_errno ≠ Errno.ENOENT) "unlink(%s) failed: %m" <|
  fs_check (o.stat_ret < 0 ∧ o.stat_errno ≠ Errno.ENOENT) "stat(%s) failed: %m" <|
  send_cmd '1' <|
  wait_cmd '2' <|
  Proc.out
    (if o.create_fd < 0 then
      (if o.create_errno = Errno.EEXIST then
        ["O_EXCL appears to be working, but this could be just faked by NFS client\n"]
       else ["open(%s) failed: %m"])
     else ["O_EXCL doesn't work\n"]) <|
  wait_cmd '!' k

/-! ### timestamp-resolution scenario (lines 498-568) -/

/-- File observations of `nfs_test_nsecs_server`; the fields with an index are
those of the rounds of its loop. -/
structure NsecsServerObs where
  create_fd : Int
  utimes_ret : Int
  write_ret : Nat → Int
  fsync_ret : Nat → Int

/-- The loop `while ((cmd = read_cmd(socket_fd)) != '2')` of
`nfs_test_nsecs_server`, from round `i` on. -/
def nsecs_server_loop (o : NsecsServerObs) (k : Proc) : Nat → Nat → Proc
  | 0, _ => Proc.nofuel
  | fuel + 1, i =>
    read_cmd (fun cmd =>
      if cmd ≠ '2' then
        fs_check (o.write_ret i < 0) "write(%s) failed: %m" <|
        fs_check (o.fsync_ret i < 0) "fsync(%s) failed: %m" <|
        send_cmd '3' (nsecs_server_loop o k fuel (i + 1))
      else k)

/-- The procedure `nfs_test_nsecs_server`. -/
def nfs_test_nsecs_server (o : NsecsServerObs) (fuel : Nat) (k : Proc) : Proc :=
  fs_check (o.create_fd < 0) "open(%s, O_CREAT) failed: %m" <|
  fs_check (o.utimes_ret < 0) "utimes(%s) failed: %m" <|
  send_cmd '1' <|
  nsecs_server_loop o k fuel 0

/-- File observations of `nfs_test_nsecs_client`: sample 0 is the first `stat`,
sample `i + 1` the `stat` of loop iteration `i`. -/
structure NsecsClientObs where
  stat_ret : Nat → Int
  st_mtime : Int
  st_nsec : Nat → Nat

/-- The macro `ST_NSECS(st)` (lines 25-33): the nanoseconds field of the
`stat` result where the platform has one (`HAVE_ST_NSECS`), otherwise 0. -/
def ST_NSECS (have_st_nsecs : Bool) (st_nsec : Nat) : Nat :=
  if have_st_nsecs then st_nsec else 0

/-- The loop `for (i = 0; i < 10 && ST_NSECS(st) % 1000 == 0; i++)`; the first
argument counts the iterations that `i < 10` still allows, `st` is sample `i`. -/
def nsecs_client_loop (h : Bool) (o : NsecsClientObs) (k : Proc) : Nat → Nat → Proc
  | 0, i =>
    Proc.out [if ST_NSECS h (o.st_nsec i) % 1000 = 0 then "timestamps resolution: microseconds\n"
      else "timestamps resolution: nanoseconds\n"] k
  | n + 1, i =>
    if ST_NSECS h (o.st_nsec i) % 1000 = 0 then
      send_cmd 'x' <|
      wait_cmd '3' <|
      fs_check (o.stat_ret (i + 1) < 0) "stat(%s) failed: %m" <|
      nsecs_client_loop h o k n (i + 1)
    else
      Proc.out [if ST_NSECS h (o.st_nsec i) % 1000 = 0 then "timestamps resolution: microseconds\n"
        else "timestamps resolution: nanoseconds\n"] k

/-- The procedure `nfs_test_nsecs_client`; `h` tells whether the platform
defines `HAVE_ST_NSECS`.  The `OPEN_CLOSE` flush that precedes every `stat`
prints nothing and cannot end the process. -/
def nfs_test_nsecs_client (h : Bool) (o : NsecsClientObs) (k : Proc) : Proc :=
  send_cmd 'N' <|
  wait_cmd '1' <|
  fs_check (o.stat_ret 0 < 0) "stat(%s) failed: %m" <|
  (if o.st_mtime ≠ 123456789 then
    Proc.out ["mtime test failed, timestamp %u != 123456789"]
  else if ST_NSECS h (o.st_nsec 0) / 1000 = 123456 then
    (fun k1 => nsecs_client_loop h o k1 10 0)
  else if ST_NSECS h (o.st_nsec 0) ≠ 0 then
    Proc.out ["timestamps resolution: other (%u)\n"]
  else
    Proc.out [if h then "timestamps resolution: seconds\n"
      else "timestamps resolution: unknown, don't know how to get nanoseconds from stat()\n"]) <|
  send_cmd '2' <|
  wait_cmd '!' k

/-! ### attribute-cache scenario (lines 570-658) -/

/-- File observations of `nfs_test_fattrcache_server`. -/
structure FattrServerObs where
  unlink_ret : Int
  unlink_errno : Errno
  create_fd : Int
  utimes_ret : Int
  write_ret : Nat → Int
  flush : Nat → FlushObs
  utimes_round : Nat → Int

/-- The `do ... while (cmd == '2')` loop of `nfs_test_fattrcache_server` and
the check after it, from round `i` on. -/
def fattrcache_server_loop (o : FattrServerObs) (k : Proc) : Nat → Nat → Proc
  | 0, _ => Proc.nofuel
  | fuel + 1, i =>
    fs_check (o.write_ret i ≠ 5) "write(%s) failed: %m" <|
    flush (o.flush i) <|
    fs_check (o.utimes_round i < 0) "utimes(%s) failed: %m" <|
    send_cmd '3' <|
    read_cmd (fun cmd =>
      if cmd = '2' then fattrcache_server_loop o k fuel (i + 1)
      else if cmd ≠ '4' then Proc.exit Fatal.expected_4
      else k)

/-- The procedure `nfs_test_fattrcache_server`. -/
def nfs_test_fattrcache_server (o : FattrServerObs) (fuel : Nat) (k : Proc) : Proc :=
  fs_check (o.unlink_ret < 0 ∧ o.unlink_errno ≠ Errno.ENOENT) "unlink(%s) failed: %m" <|
  fs_check (o.create_fd < 0) "creat(%s) failed: %m" <|
  fs_check (o.utimes_ret < 0) "utimes(%s) failed: %m" <|
  send_cmd '1' <|
  wait_cmd '2' <|
  fattrcache_server_loop o k fuel 0

/-- File observations of `nfs_test_fattrcache_client`; round `r` is the `r`-th
pass through the loop body.  `st2_mtime` is the value after the first
`fstat(fd, &st2)` and `st3_mtime` the value after the one that follows the
before-action. -/
structure FattrClientObs where
  open_fd : Int
  fstat1_ret : Nat → Int
  st1_mtime : Nat → Int
  fstat2_ret : Nat → Int
  st2_mtime : Nat → Int
  flush_before : Nat → FlushObs
  fstat3_ret : Nat → Int
  st3_mtime : Nat → Int
  flush_after : Nat → FlushObs

/-- The loop `for (method = 1; method < NFS_CACHE_FLUSH_METHOD_COUNT; )` of
`nfs_test_fattrcache_client` with the statements after it, in round `r` with
the given `method` and `fails`. -/
def fattrcache_client_loop (b : Build) (o : FattrClientObs) (k : Proc) :
    Nat → Nat → Nat → Nat → Proc
  | 0, _, _, _ => Proc.nofuel
  | fuel + 1, method, fails, r =>
    if method < NFS_CACHE_FLUSH_METHOD_COUNT b then
      fs_check (o.fstat1_ret r < 0) "fstat(%s) failed: %m" <|
      send_cmd '2' <|
      wait_cmd '3' <|
      fs_check (o.fstat2_ret r < 0) "fstat(%s) failed: %m" <|
      if o.st1_mtime r = o.st2_mtime r then
        flush (o.flush_before r) <|
        fs_check (o.fstat3_ret r < 0) "fstat(%s) failed: %m" <|
        flush (o.flush_after r) <|
        Proc.out ["Attr cache flush " ++ method_name b method ++ ": " ++
          (if o.st1_mtime r = o.st3_mtime r then "failed" else "OK") ++ "\n"] <|
        fattrcache_client_loop b o k fuel (method + 1) 0 (r + 1)
      else if fails + 1 = 3 then
        Proc.out ["NFS attribute cache seems to be disabled\n"] <|
        send_cmd '4' <|
        wait_cmd '!' k
      else
        fattrcache_client_loop b o k fuel method (fails + 1) (r + 1)
    else
      send_cmd '4' <|
      wait_cmd '!' k

/-- The procedure `nfs_test_fattrcache_client`.  Every round either advances
`method` or increments `fails` below 3, so `3 * NFS_CACHE_FLUSH_METHOD_COUNT`
bounds the number of rounds. -/
def nfs_test_fattrcache_client (b : Build) (o : FattrClientObs) (k : Proc) : Proc :=
  Proc.out ["\nTesting file attribute cache..\n"] <|
  send_cmd 'F' <|
  wait_cmd '1' <|
  fs_check (o.open_fd < 0) "open(%s) failed: %m" <|
  fattrcache_client_loop b o k (3 * NFS_CACHE_FLUSH_METHOD_COUNT b) 1 0 0

/-! ### file-handle-cache scenario (lines 660-822) -/

/-- The two temp files `path.1` and `path.2` that the server creates. -/
inductive TempFile where
  | temp1
  | temp2
  deriving DecidableEq, Repr

/-- The statement `if (cmd == 'b') link(temp_path1, path) else link(temp_path2,
path)` in the loop of `nfs_test_fhandlecache_server`: the temp file that the
server links under the path in a round in which it has read `cmd`. -/
def fhandlecache_server_link (cmd : Char) : TempFile :=
  if cmd = 'b' then TempFile.temp1 else TempFile.temp2

/-- File observations of `nfs_test_fhandlecache_server`. -/
structure FhandleServerObs where
  unlink_ret : Int
  unlink_errno : Errno
  create1_fd : Int
  create2_fd : Int
  link_ret : Int
  utimes_path_ret : Int
  utimes_dir_ret : Int
  link_round : Nat → TempFile → Int
  utimes_path_round : Nat → Int
  utimes_dir_round : Nat → Int

/-- The loop `while ((cmd = read_cmd(socket_fd)) != '4')` of
`nfs_test_fhandlecache_server`, from round `i` on.  The body calls
`link(temp_path1, path)` when `cmd == 'b'` and `link(temp_path2, path)`
otherwise, each followed by the same `i_fatal`; `o.link_round i t` is the
result of linking the temp file `t` under the path in round `i`.  The result
of the `unlink(path)` before it is not looked at. -/
def fhandlecache_server_loop (o : FhandleServerObs) (k : Proc) : Nat → Nat → Proc
  | 0, _ => Proc.nofuel
  | fuel + 1, i =>
    read_cmd (fun cmd =>
      if cmd ≠ '4' then
        (if cmd = 'b' then
          fs_check (o.link_round i TempFile.temp1 < 0) "link(%s, %s) failed: %m"
         else
          fs_check (o.link_round i TempFile.temp2 < 0) "link(%s, %s) failed: %m") <|
        fs_check (o.utimes_path_round i < 0) "utimes(%s) failed: %m" <|
        fs_check (o.utimes_dir_round i < 0) "utimes(%s) failed: %m" <|
        send_cmd '3' (fhandlecache_server_loop o k fuel (i + 1))
      else if cmd ≠ '4' then Proc.exit Fatal.expected_4
      else k)

/-- The procedure `nfs_test_fhandlecache_server`. -/
def nfs_test_fhandlecache_server (o : FhandleServerObs) (fuel : Nat) (k : Proc) : Proc :=
  fs_check (o.unlink_ret < 0 ∧ o.unlink_errno ≠ Errno.ENOENT) "unlink(%s) failed: %m" <|
  fs_check (o.create1_fd < 0) "creat(%s) failed: %m" <|
  fs_check (o.create2_fd < 0) "creat(%s) failed: %m" <|
  fs_check (o.link_ret < 0) "link(%s, %s) failed: %m" <|
  fs_check (o.utimes_path_ret < 0) "utimes(%s) failed: %m" <|
  fs_check (o.utimes_dir_ret < 0) "utimes(%s) failed: %m" <|
  send_cmd '1' <|
  fhandlecache_server_loop o k fuel 0

/-- File observations of `nfs_test_fhandlecache_client`; the fields with an
index are those of the round that tests the method with that ordinal. -/
structure FhandleClientObs where
  open_dir_fd : Int
  stat_temp1_ret : Int
  stat_temp2_ret : Int
  ino1 : Nat
  ino2 : Nat
  create_fd : Int
  stat_a_ret : Nat → Int
  stat_b_ret : Nat → Int
  st1_ino : Nat → Nat
  flush_before : Nat → FlushObs
  stat2_ret : Nat → Int
  st2_ino : Nat → Nat
  st2_mtime : Nat → Int
  flush_after : Nat → FlushObs

/-- The lines that one round of `nfs_test_fhandlecache_client` prints after its
flush; `expected_mtime` starts at 1 and grows by one per round. -/
def fhandlecache_lines (b : Build) (o : FhandleClientObs) (method : Nat) : List String :=
  ["File handle cache flush " ++ method_name b method ++ ": " ++
    (if o.st1_ino method = o.st2_ino method then "failed" else "OK") ++ "\n"] ++
  (if o.st1_ino method = o.st2_ino method ∧ o.st2_mtime method = 1 + (method : Int) then
    [" - inode didn't change, but mtime did\n"]
   else if o.st1_ino method ≠ o.st2_ino method ∧ o.st2_mtime method ≠ 1 + (method : Int) then
    [" - inode changed, but mtime is wrong\n"]
   else []) ++
  (if o.st1_ino method ≠ o.ino1 ∧ o.st1_ino method ≠ o.ino2 then
    [" - inode is neither temp1 nor temp2 file's\n"]
   else [])

/-- The loop `for (method = 0; method < NFS_CACHE_FLUSH_METHOD_COUNT; )` of
`nfs_test_fhandlecache_client`; the first argument counts the methods left,
`success` is the flag of that name. -/
def fhandlecache_client_loop (b : Build) (o : FhandleClientObs) (k : Bool → Proc) :
    Nat → Nat → Bool → Proc
  | 0, _, success => k success
  | n + 1, method, success =>
    fs_check (o.stat_a_ret method < 0 ∨ o.stat_b_ret method < 0) "stat(%s) failed: %m" <|
    (if o.st1_ino method = o.ino1 then send_cmd 'a'
     else if o.st1_ino method = o.ino2 then send_cmd 'b'
     else fun _ => Proc.exit (Fatal.fs "%s has unexpected inode")) <|
    wait_cmd '3' <|
    flush (o.flush_before method) <|
    fs_check (o.stat2_ret method < 0) "stat(%s) failed: %m" <|
    flush (o.flush_after method) <|
    Proc.out (fhandlecache_lines b o method) <|
    fhandlecache_client_loop b o k n (method + 1)
      (if o.st1_ino method ≠ o.st2_ino method then true else success)

/-- The procedure `nfs_test_fhandlecache_client`. -/
def nfs_test_fhandlecache_client (b : Build) (o : FhandleClientObs) (k : Proc) : Proc :=
  Proc.out ["\nTesting file handle cache..\n"] <|
  send_cmd 'H' <|
  wait_cmd '1' <|
  fs_check (o.open_dir_fd = -1) "open(%s) failed: %m" <|
  Proc.out
    ((if o.stat_temp1_ret < 0 then ["stat(%s) failed: %m"] else []) ++
     (if o.stat_temp2_ret < 0 then ["stat(%s) failed: %m"] else []) ++
     (if o.ino1 = o.ino2 then ["Temp files' inodes are the same.."] else [])) <|
  fs_check (o.create_fd = -1) "open(%s) failed: %m" <|
  fhandlecache_client_loop b o
    (fun success =>
      send_cmd '4' <|
      Proc.out (if success then []
        else ["Looks like there's no way to flush directory's attribute cache\n"]) <|
      wait_cmd '!' k)
    (NFS_CACHE_FLUSH_METHOD_COUNT b) 0 false

/-! ### negative-handle-cache scenario (lines 824-923) -/

/-- File observations of `nfs_test_neg_fhandlecache_server`. -/
structure NegServerObs where
  unlink_ret : Int
  unlink_errno : Errno
  open_fd : Nat → Int
  utimes_ret : Nat → Int
  unlink_round_ret : Nat → Int
  unlink_round_errno : Nat → Errno

/-- The loop `while ((cmd = read_cmd(socket_fd)) == '2')` of
`nfs_test_neg_fhandlecache_server`, from round `i` on. -/
def neg_fhandlecache_server_loop (o : NegServerObs) (k : Proc) : Nat → Nat → Proc
  | 0, _ => Proc.nofuel
  | fuel + 1, i =>
    read_cmd (fun cmd =>
      if cmd = '2' then
        fs_check (o.open_fd i = -1) "creat(%s) failed: %m" <|
        fs_check (o.utimes_ret i < 0) "utimes(%s) failed: %m" <|
        send_cmd '3' <|
        wait_cmd '4' <|
        fs_check (o.unlink_round_ret i < 0 ∧ o.unlink_round_errno i ≠ Errno.ENOENT)
          "unlink(%s) failed: %m" <|
        send_cmd '5' (neg_fhandlecache_server_loop o k fuel (i + 1))
      else k)

/-- The procedure `nfs_test_neg_fhandlecache_server`. -/
def nfs_test_neg_fhandlecache_server (o : NegServerObs) (fuel : Nat) (k : Proc) : Proc :=
  fs_check (o.unlink_ret < 0 ∧ o.unlink_errno ≠ Errno.ENOENT) "unlink(%s) failed: %m" <|
  send_cmd '1' <|
  neg_fhandlecache_server_loop o k fuel 0

/-- File observations of `nfs_test_neg_fhandlecache_client`; the fields with an
index are those of the round that tests the method with that ordinal. -/
structure NegClientObs where
  open_dir_fd : Int
  unlink_ret : Int
  unlink_errno : Errno
  stat_a_ret : Nat → Int
  stat_b_ret : Nat → Int
  stat_c_ret : Nat → Int
  flush_before : Nat → FlushObs
  stat_ret : Nat → Int
  stat_errno : Nat → Errno
  st_mtime : Nat → Int
  flush_after : Nat → FlushObs
  unlink_round_ret : Nat → Int
  unlink_round_errno : Nat → Errno

/-- The loop `for (method = 0; method < NFS_CACHE_FLUSH_METHOD_COUNT; )` of
`nfs_test_neg_fhandlecache_client`; the first argument counts the methods left;
`expected_mtime` starts at 0 and grows by one per round. -/
def neg_fhandlecache_client_loop (b : Build) (o : NegClientObs) (k : Proc) :
    Nat → Nat → Proc
  | 0, _ => k
  | n + 1, method =>
    if o.stat_a_ret method = 0 ∨ o.stat_b_ret method = 0 ∨ o.stat_c_ret method = 0 then
      Proc.out ["stat() succeeded, can't continue this test"] k
    else
      send_cmd '2' <|
      wait_cmd '3' <|
      flush (o.flush_before method) <|
      fs_check (¬ o.stat_ret method = 0 ∧ o.stat_errno method ≠ Errno.ENOENT)
        "stat(%s) failed: %m" <|
      flush (o.flush_after method) <|
      Proc.out
        (["Negative file handle cache flush " ++ method_name b method ++ ": " ++
          (if ¬ o.stat_ret method = 0 then "failed" else "OK") ++ "\n"] ++
         (if o.stat_ret method = 0 ∧ o.st_mtime method ≠ (method : Int) then
           [" - mtime is wrong though\n"] else [])) <|
      fs_check (o.unlink_round_ret method < 0 ∧ o.unlink_round_errno method ≠ Errno.ENOENT)
        "unlink(%s) failed: %m" <|
      send_cmd '4' <|
      wait_cmd '5' <|
      neg_fhandlecache_client_loop b o k n (method + 1)

/-- The procedure `nfs_test_neg_fhandlecache_client`. -/
def nfs_test_neg_fhandlecache_client (b : Build) (o : NegClientObs) (k : Proc) : Proc :=
  Proc.out ["\nTesting negative file handle cache..\n"] <|
  send_cmd 'G' <|
  wait_cmd '1' <|
  fs_check (o.open_dir_fd = -1) "open(%s) failed: %m" <|
  fs_check (o.unlink_ret < 0 ∧ o.unlink_errno ≠ Errno.ENOENT) "unlink(%s) failed: %m" <|
  neg_fhandlecache_client_loop b o
    (send_cmd '6' <| wait_cmd '!' k)
    (NFS_CACHE_FLUSH_METHOD_COUNT b) 0

/-! ### data-cache scenario (lines 925-1073) -/

/-- File observations of `nfs_test_data_cache_server`. -/
structure DataServerObs where
  create_fd : Int
  write_ret : Int
  flush_first : FlushObs
  utimes1_ret : Nat → Int
  lseek_ret : Nat → Int
  write_round_ret : Nat → Int
  flush : Nat → FlushObs
  utimes2_ret : Nat → Int

/-- The `do ... while (cmd != '5')` loop of `nfs_test_data_cache_server`, in
round `i` with the given value of `cmd`. -/
def data_cache_server_loop (o : DataServerObs) (k : Proc) : Nat → Nat → Char → Proc
  | 0, _, _ => Proc.nofuel
  | fuel + 1, i, cmd =>
    fs_check (o.utimes1_ret i < 0) "utimes(%s) failed: %m" <|
    send_cmd '3' <|
    wait_cmd '4' <|
    fs_check (o.lseek_ret i < 0) "lseek() failed: %m" <|
    fs_check (o.write_round_ret i ≠ 1) "write(%s) failed: %m" <|
    flush (o.flush i) <|
    fs_check (o.utimes2_ret i < 0) "utimes(%s) failed: %m" <|
    send_cmd cmd <|
    read_cmd (fun c =>
      if c ≠ '5' then data_cache_server_loop o k fuel (i + 1) c else k)

/-- The procedure `nfs_test_data_cache_server`. -/
def nfs_test_data_cache_server (o : DataServerObs) (fuel : Nat) (k : Proc) : Proc :=
  fs_check (o.create_fd < 0) "creat(%s) failed: %m" <|
  fs_check (o.write_ret ≠ 1024) "write(%s) failed: %m" <|
  flush o.flush_first <|
  send_cmd '1' <|
  wait_cmd '2' <|
  data_cache_server_loop o k fuel 0 'b'

/-- File observations of `nfs_test_data_cache_client`; the fields with an index
are those of the round that tests the method with that ordinal; `buf m` is the
content of `buf` after the second `read` of round `m`. -/
structure DataClientObs where
  open_fd : Int
  flush_open : FlushObs
  read0_ret : Int
  buf0 : Nat → Char
  flush_attr : Nat → FlushObs
  fstat1_ret : Nat → Int
  mtime1 : Nat → Int
  nsec1 : Nat → Nat
  lseek1_ret : Nat → Int
  read1_ret : Nat → Int
  flush_before : Nat → FlushObs
  lseek2_ret : Nat → Int
  read2_ret : Nat → Int
  buf : Nat → Nat → Char
  fstat2_ret : Nat → Int
  mtime2 : Nat → Int
  nsec2 : Nat → Nat
  flush_after : Nat → FlushObs

/-- The lines of the pattern `if (ret != sizeof(buf)) { ... i_error ... }` after
a `read` into `buf[1024]`. -/
def read_lines (ret : Int) : List String :=
  if ret ≠ 1024 then
    (if ret < 0 then ["read(%s) failed: %m"] else ["read(%s) returned partial data"])
  else []

/-- The initial read of the data-cache client returned at least one byte and
only bytes `a`. -/
def DataClientObs.initial_read_ok (o : DataClientObs) : Prop :=
  ¬ o.read0_ret = 0 ∧ (List.range o.read0_ret.toNat).all (fun i => o.buf0 i == 'a') = true

instance (o : DataClientObs) : Decidable o.initial_read_ok := by
  unfold DataClientObs.initial_read_ok; infer_instance

/-- The loop `for (method = 0;;)` of `nfs_test_data_cache_client` in the round
of `method` with the given value of `chr`; `h` is `HAVE_ST_NSECS`. -/
def data_cache_client_loop (b : Build) (h : Bool) (o : DataClientObs) (k : Proc) :
    Nat → Nat → Char → Proc
  | 0, _, _ => Proc.nofuel
  | fuel + 1, method, chr =>
    wait_cmd '3' <|
    flush (o.flush_attr method) <|
    fs_check (o.fstat1_ret method < 0) "fstat() failed: %m" <|
    fs_check (o.lseek1_ret method < 0) "lseek() failed: %m" <|
    Proc.out (read_lines (o.read1_ret method)) <|
    send_cmd '4' <|
    wait_cmd chr <|
    flush (o.flush_before method) <|
    fs_check (o.lseek2_ret method < 0) "lseek() failed: %m" <|
    Proc.out (read_lines (o.read2_ret method)) <|
    fs_check (o.fstat2_ret method < 0) "fstat() failed: %m" <|
    flush (o.flush_after method) <|
    fs_check (o.buf method 511 ≠ 'a') "data cache: [511] != 'a'" <|
    Proc.out
      (["Data cache flush " ++ method_name b method ++ ": " ++
        (if o.buf method 512 = chr then "OK" else "failed") ++ "\n"] ++
       (if o.mtime2 method ≠ o.mtime1 method ∨
           ST_NSECS h (o.nsec2 method) ≠ ST_NSECS h (o.nsec1 method) then
         [" - mtime changed! %ld.%ld -> %ld.%ld\n"] else [])) <|
    if method + 1 = NFS_CACHE_FLUSH_METHOD_COUNT b then k
    else send_cmd (next_char chr) (data_cache_client_loop b h o k fuel (method + 1) (next_char chr))

/-- The procedure `nfs_test_data_cache_client`.  Its two early `return`s hand
control back to the caller at once.  The loop ends in the round of the last
method, the `NFS_CACHE_FLUSH_METHOD_COUNT`-th. -/
def nfs_test_data_cache_client (b : Build) (h : Bool) (o : DataClientObs) (k : Proc) : Proc :=
  Proc.out ["\nTesting data cache..\n"] <|
  send_cmd 'D' <|
  wait_cmd '1' <|
  fs_check (o.open_fd < 0) "open(%s) failed: %m" <|
  flush o.flush_open <|
  fs_check (o.read0_ret < 0) "read(%s) failed: %m" <|
  if o.read0_ret = 0 then
    Proc.out ["data cache: Initial read failed to return everything"] k
  else if (List.range o.read0_ret.toNat).all (fun i => o.buf0 i == 'a') = false then
    Proc.out ["Invalid data read, [%d] != 'a'"] k
  else
    send_cmd '2' <|
    data_cache_client_loop b h o
      (send_cmd '5' <| wait_cmd '!' k)
      (NFS_CACHE_FLUSH_METHOD_COUNT b) 0 'b'

/-! ### write-visibility scenario (lines 1075-1131) -/

/-- File observations of `nfs_test_write_flush_server`. -/
structure WriteFlushServerObs where
  open_fd : Int
  flush : Nat → FlushObs
  fstat_ret : Nat → Int
  st_size : Nat → Int

/-- The loop `while ((cmd = read_cmd(socket_fd)) == '2')` of
`nfs_test_write_flush_server`, from round `i` on; `size` is `1 + i`. -/
def write_flush_server_loop (o : WriteFlushServerObs) (k : Proc) : Nat → Nat → Proc
  | 0, _ => Proc.nofuel
  | fuel + 1, i =>
    read_cmd (fun cmd =>
      if cmd = '2' then
        flush (o.flush i) <|
        fs_check (o.fstat_ret i < 0) "fstat(%s) failed: %m" <|
        send_cmd (if o.st_size i = 1 + (i : Int) then 'O' else 'E')
          (write_flush_server_loop o k fuel (i + 1))
      else k)

/-- The procedure `nfs_test_write_flush_server`. -/
def nfs_test_write_flush_server (o : WriteFlushServerObs) (fuel : Nat) (k : Proc) : Proc :=
  wait_cmd '1' <|
  fs_check (o.open_fd < 0) "open(%s) failed: %m" <|
  write_flush_server_loop o k fuel 0

/-- File observations of `nfs_test_write_flush_client`. -/
structure WriteFlushClientObs where
  create_fd : Int
  flush_before : Nat → FlushObs
  write_ret : Nat → Int
  flush_after : Nat → FlushObs

/-- The loop `for (method = 0; method < NFS_CACHE_FLUSH_METHOD_COUNT; method++)`
of `nfs_test_write_flush_client`; the first argument counts the methods left. -/
def write_flush_client_loop (b : Build) (o : WriteFlushClientObs) (k : Proc) :
    Nat → Nat → Proc
  | 0, _ => k
  | n + 1, method =>
    flush (o.flush_before method) <|
    Proc.out (if o.write_ret method ≠ 1 then ["write(%s) failed, method=%s: %m"] else []) <|
    flush (o.flush_after method) <|
    send_cmd '2' <|
    read_cmd (fun cmd =>
      Proc.out ["Write flush " ++ method_name b method ++ ": " ++
        (if cmd = 'O' then "OK" else "failed") ++ "\n"] <|
      write_flush_client_loop b o k n (method + 1))

/-- The procedure `nfs_test_write_flush_client`. -/
def nfs_test_write_flush_client (b : Build) (o : WriteFlushClientObs) (k : Proc) : Proc :=
  send_cmd 'W' <|
  Proc.out ["\nTesting write flushing..\n"] <|
  fs_check (o.create_fd < 0) "creat(%s) failed: %m" <|
  send_cmd '1' <|
  write_flush_client_loop b o
    (send_cmd '3' <| wait_cmd '!' k)
    (NFS_CACHE_FLUSH_METHOD_COUNT b) 0

/-! ### partial-write-interleaving scenario (lines 1133-1213) -/

/-- File observations of `nfs_test_write_partial_server`. -/
structure WritePartialServerObs where
  create_fd : Int

/-- The procedure `nfs_test_write_partial_server`; the results of its `lseek`
and `write` calls are not inspected. -/
def nfs_test_write_partial_server (o : WritePartialServerObs) (k : Proc) : Proc :=
  fs_check (o.create_fd < 0) "creat(%s) failed: %m" <|
  send_cmd '1' <|
  wait_cmd '2' <|
  wait_cmd '3' <|
  send_cmd '4' k

/-- File observations of `nfs_test_write_partial_client`; `data` is the buffer
that the final `read` filled. -/
structure WritePartialClientObs where
  open_fd : Int
  reopen_fd : Int
  flush_before : FlushObs
  flush_after : FlushObs
  read_ret : Int
  data : Nat → Char

/-- The procedure `nfs_test_write_partial_client`. -/
def nfs_test_write_partial_client (o : WritePartialClientObs) (k : Proc) : Proc :=
  send_cmd 'P' <|
  Proc.out ["\nTesting partial writing..\n"] <|
  wait_cmd '1' <|
  fs_check (o.open_fd < 0) "open(%s) failed: %m" <|
  send_cmd '2' <|
  send_cmd '3' <|
  wait_cmd '4' <|
  fs_check (o.reopen_fd < 0) "open(%s) failed: %m" <|
  flush o.flush_before <|
  flush o.flush_after <|
  fs_check (o.read_ret < 0) "read(%s) failed: %m" <|
  fs_check (o.read_ret ≠ 16384) "read(%s) returned %d" <|
  Proc.out [(verify_report o.data).text] <|
  wait_cmd '!' k

/-! ### The command table and the two roles (lines 1215-1286) -/

/-- File observations of one pass through the server's dispatch loop: those of
the server procedure that the pass calls. -/
structure ServerObs where
  estale : EstaleServerObs
  oexcl : OexclServerObs
  nsecs : NsecsServerObs
  fattrcache : FattrServerObs
  data_cache : DataServerObs
  write_flush : WriteFlushServerObs
  write_partial : WritePartialServerObs
  fhandlecache : FhandleServerObs
  neg_fhandlecache : NegServerObs

/-- File observations of the client procedures. -/
structure ClientObs where
  estale : EstaleClientObs
  oexcl : OexclClientObs
  nsecs : NsecsClientObs
  fattrcache : FattrClientObs
  data_cache : DataClientObs
  write_flush : WriteFlushClientObs
  write_partial : WritePartialClientObs
  fhandlecache : FhandleClientObs
  neg_fhandlecache : NegClientObs

/-- The type `struct command`: the identifying byte and the two procedures.
The server procedure gets the iteration bound of the model's loops; the client
procedure gets the build and `HAVE_ST_NSECS`. -/
structure command where
  cmd : Char
  server : ServerObs → Nat → Proc → Proc
  client : Build → Bool → ClientObs → Proc → Proc

/-- The table `commands` (lines 1224-1235). -/
def commands : List command :=
  [ ⟨'S', fun o _ => nfs_test_estale_server o.estale,
          fun _ _ o => nfs_test_estale_client o.estale⟩,
    ⟨'E', fun o _ => nfs_test_oexcl_server o.oexcl,
          fun _ _ o => nfs_test_oexcl_client o.oexcl⟩,
    ⟨'N', fun o fuel => nfs_test_nsecs_server o.nsecs fuel,
          fun _ h o => nfs_test_nsecs_client h o.nsecs⟩,
    ⟨'F', fun o fuel => nfs_test_fattrcache_server o.fattrcache fuel,
          fun b _ o => nfs_test_fattrcache_client b o.fattrcache⟩,
    ⟨'D', fun o fuel => nfs_test_data_cache_server o.data_cache fuel,
          fun b h o => nfs_test_data_cache_client b h o.data_cache⟩,
    ⟨'W', fun o fuel => nfs_test_write_flush_server o.write_flush fuel,
          fun b _ o => nfs_test_write_flush_client b o.write_flush⟩,
    ⟨'P', fun o _ => nfs_test_write_partial_server o.write_partial,
          fun _ _ o => nfs_test_write_partial_client o.write_partial⟩,
    ⟨'H', fun o fuel => nfs_test_fhandlecache_server o.fhandlecache fuel,
          fun b _ o => nfs_test_fhandlecache_client b o.fhandlecache⟩,
    ⟨'G', fun o fuel => nfs_test_neg_fhandlecache_server o.neg_fhandlecache fuel,
          fun b _ o => nfs_test_neg_fhandlecache_client b o.neg_fhandlecache⟩ ]

/-- The function `command_find(cmd)`: the first entry of the table with that
byte, `none` for `NULL`. -/
def command_find (cmd : Char) : Option command :=
  commands.find? (fun c => c.cmd == cmd)

/-- The dispatch loop `for (;;)` of `nfs_test_server` (lines 1259-1266); pass
`j` of the loop uses the observations `o j`, and `k` is what follows the
`break`. -/
def server_dispatch (o : Nat → ServerObs) (k : Proc) : Nat → Proc
  | 0 => Proc.nofuel
  | fuel + 1 =>
    read_cmd (fun c =>
      match command_find c with
      | none => k
      | some cmd =>
        cmd.server (o 0) fuel <|
        send_cmd '!' <|
        server_dispatch (fun j => o (j + 1)) k fuel)

/-- The procedure `nfs_test_server`. -/
def nfs_test_server (unlink_ret : Int) (unlink_errno : Errno) (o : Nat → ServerObs)
    (fuel : Nat) (k : Proc) : Proc :=
  fs_check (unlink_ret < 0 ∧ unlink_errno ≠ Errno.ENOENT) "unlink(%s) failed: %m" <|
  send_cmd 'S' <|
  wait_cmd 'C' <|
  Proc.out ["Connected: Acting as test server\n"] <|
  server_dispatch o k fuel

/-- The test `cmdstr == NULL || strchr(cmdstr, cmd) != NULL` of
`nfs_test_client`; `cmdstr` is `none` for `NULL`. -/
def selected (cmdstr : Option (List Char)) (cmd : Char) : Bool :=
  match cmdstr with
  | none => true
  | some s => s.contains cmd

/-- The loop `for (i = 0; i < N_COMMANDS; i++)` of `nfs_test_client` over the
rest of the table; `cmdstr` is `none` for `NULL`. -/
def client_commands (b : Build) (h : Bool) (o : ClientObs) (cmdstr : Option (List Char))
    (k : Proc) : List command → Proc
  | [] => k
  | c :: cs =>
    if selected cmdstr c.cmd then
      c.client b h o (client_commands b h o cmdstr k cs)
    else client_commands b h o cmdstr k cs

/-- The procedure `nfs_test_client`. -/
def nfs_test_client (b : Build) (h : Bool) (unlink_ret : Int) (unlink_errno : Errno)
    (o : ClientObs) (cmdstr : Option (List Char)) (k : Proc) : Proc :=
  fs_check (unlink_ret < 0 ∧ unlink_errno ≠ Errno.ENOENT) "unlink(%s) failed: %m" <|
  send_cmd 'C' <|
  wait_cmd 'S' <|
  Proc.out ["Connected: Acting as test client\n"] <|
  client_commands b h o cmdstr (send_cmd 'X' k) commands

/-! ### Execution of the two processes over the socket

The socket is a pair of FIFO byte queues.  A `write` appends to the queue of
its direction and returns 1; a `read` takes the first byte of the queue and
returns 1, blocks while the queue is empty, and returns 0 once the queue is
empty and the peer process has ended.  The scheduler lets the client run while
it can and the server otherwise; since every process is sequential with
blocking reads, the bytes a process reads do not depend on the schedule. -/

/-- Whether the process has ended through `i_fatal` (its socket is closed). -/
def Proc.gone : Proc → Bool
  | Proc.exit _ => true
  | _ => false

/-- One action of a process whose inbox is `inbox`: the process after it, the
inbox after it, the bytes sent and the lines printed; `none` when the process
cannot move. -/
def Proc.step (p : Proc) (inbox : List Char) (peer_gone : Bool) :
    Option (Proc × List Char × List Char × List String) :=
  match p with
  | Proc.write c k => some (k 1, inbox, [c], [])
  | Proc.read k =>
    match inbox with
    | c :: rest => some (k 1 c, rest, [], [])
    | [] => if peer_gone then some (k 0 (Char.ofNat 0), [], [], []) else none
  | Proc.out lines k => some (k, inbox, [], lines)
  | Proc.exit _ => none
  | Proc.ret => none
  | Proc.nofuel => none

/-- The two processes, the bytes in flight in each direction and the lines
printed so far by each process. -/
structure Config where
  client : Proc
  server : Proc
  c2s : List Char
  s2c : List Char
  client_out : List String
  server_out : List String

/-- One step of the system: the client moves when it can, otherwise the server;
`none` when neither can move. -/
def Config.step (c : Config) : Option Config :=
  match c.client.step c.s2c c.server.gone with
  | some (p, inbox, sent, printed) =>
    some { c with client := p, s2c := inbox, c2s := c.c2s ++ sent,
                  client_out := c.client_out ++ printed }
  | none =>
    match c.server.step c.c2s c.client.gone with
    | some (p, inbox, sent, printed) =>
      some { c with server := p, c2s := inbox, s2c := c.s2c ++ sent,
                    server_out := c.server_out ++ printed }
    | none => none

/-- At most `n` steps of the system, stopping when neither process can move. -/
def Config.run : Nat → Config → Config
  | 0, c => c
  | n + 1, c =>
    match c.step with
    | none => c
    | some c1 => Config.run n c1

/-- A client procedure against the dispatch loop of the server: the client
side is the procedure followed by the return to its caller, the server is at
the top of its loop, nothing is in flight. -/
def scenario_start (client : Proc → Proc) (o : Nat → ServerObs) (fuel : Nat) : Config :=
  { client := client Proc.ret, server := server_dispatch o Proc.ret fuel,
    c2s := [], s2c := [], client_out := [], server_out := [] }

/-- Some process has called `i_fatal` for a file operation. -/
def Config.fs_fatal (c : Config) : Prop :=
  (∃ msg, c.client = Proc.exit (Fatal.fs msg)) ∨ (∃ msg, c.server = Proc.exit (Fatal.fs msg))

/-- Some process has ended through `i_fatal`, or a loop of the model has used
up its bound. -/
def Config.aborted (c : Config) : Prop :=
  (∃ f, c.client = Proc.exit f) ∨ (∃ f, c.server = Proc.exit f) ∨
  c.client = Proc.nofuel ∨ c.server = Proc.nofuel

/-- The client procedure has returned to its caller, both directions of the
socket are empty, and the server is at the top of its dispatch loop with
iterations left. -/
def Config.in_sync (c : Config) : Prop :=
  c.client = Proc.ret ∧ c.c2s = [] ∧ c.s2c = [] ∧
  ∃ o fuel, c.server = server_dispatch o Proc.ret (fuel + 1)

/-- The system reaches, after some number of steps, a configuration with the
property `P`. -/
def Ev (P : Config → Prop) (c : Config) : Prop :=
  ∃ n, P (Config.run n c)

/-- What the run of a scenario is to reach: a process has called `i_fatal` for
a file operation, or the two processes are in step again. -/
def Config.settled (c : Config) : Prop :=
  c.fs_fatal ∨ c.in_sync

/-! ### Socket actions of one process -/

/-- A socket action of a process: a byte sent with `send_cmd`, or a byte taken
by `read_cmd` / `wait_cmd`. -/
inductive Action where
  | sent (c : Char)
  | received (c : Char)
  deriving DecidableEq, Repr

/-- The socket actions that a process performs, in order, when the bytes of
`inbox` arrive for it, and the process where it stops: at its end, or at a
`read` with nothing left to read. -/
def Proc.trace : Proc → List Char → List Action × Proc
  | Proc.write c k, inbox =>
    ((Action.sent c) :: ((k 1).trace inbox).1, ((k 1).trace inbox).2)
  | Proc.read k, c :: rest =>
    ((Action.received c) :: ((k 1 c).trace rest).1, ((k 1 c).trace rest).2)
  | Proc.read k, [] => ([], Proc.read k)
  | Proc.out _ k, inbox => k.trace inbox
  | Proc.exit f, _ => ([], Proc.exit f)
  | Proc.ret, _ => ([], Proc.ret)
  | Proc.nofuel, _ => ([], Proc.nofuel)

/-- Whether control has returned to the caller of the procedure. -/
def Proc.returned : Proc → Bool
  | Proc.ret => true
  | _ => false

/-! ### Sample observations -/

/-- A flush action that prints nothing and returns. -/
def flush_quiet : FlushObs := ⟨[], false⟩

/-- Observations of the data-cache client in which every call succeeds and the
initial `read` returns 0 bytes. -/
def data_obs_empty_read : DataClientObs :=
  { open_fd := 3, flush_open := flush_quiet, read0_ret := 0, buf0 := fun _ => 'a',
    flush_attr := fun _ => flush_quiet, fstat1_ret := fun _ => 0, mtime1 := fun _ => 0,
    nsec1 := fun _ => 0, lseek1_ret := fun _ => 0, read1_ret := fun _ => 1024,
    flush_before := fun _ => flush_quiet, lseek2_ret := fun _ => 0,
    read2_ret := fun _ => 1024, buf := fun _ _ => 'a', fstat2_ret := fun _ => 0,
    mtime2 := fun _ => 0, nsec2 := fun _ => 0, flush_after := fun _ => flush_quiet }

/-- Observations of the exclusive-create client: the path did not exist, and
the exclusive create after the server's create fails with `EEXIST`. -/
def oexcl_obs_ok : OexclClientObs :=
  { unlink_ret := -1, unlink_errno := Errno.ENOENT, stat_ret := -1,
    stat_errno := Errno.ENOENT, create_fd := -1, create_errno := Errno.EEXIST }

/-- Observations of the other client procedures in which every call returns 0,
for use where those procedures do not run. -/
def client_obs_ok : ClientObs :=
  { estale := ⟨3, 5, Errno.other 0, 0, Errno.other 0⟩,
    oexcl := oexcl_obs_ok,
    nsecs := ⟨fun _ => 0, 123456789, fun _ => 0⟩,
    fattrcache := ⟨3, fun _ => 0, fun _ => 0, fun _ => 0, fun _ => 0, fun _ => flush_quiet,
      fun _ => 0, fun _ => 0, fun _ => flush_quiet⟩,
    data_cache := data_obs_empty_read,
    write_flush := ⟨3, fun _ => flush_quiet, fun _ => 1, fun _ => flush_quiet⟩,
    write_partial := ⟨3, 3, flush_quiet, flush_quiet, 16384, buf_first64⟩,
    fhandlecache := ⟨3, 0, 0, 1, 2, 3, fun _ => 0, fun _ => 0, fun _ => 1,
      fun _ => flush_quiet, fun _ => 0, fun _ => 2, fun _ => 0, fun _ => flush_quiet⟩,
    neg_fhandlecache := ⟨3, 0, Errno.other 0, fun _ => -1, fun _ => -1, fun _ => -1,
      fun _ => flush_quiet, fun _ => 0, fun _ => Errno.other 0, fun _ => 0,
      fun _ => flush_quiet, fun _ => 0, fun _ => Errno.other 0⟩ }

/-- Observations of the server procedures in which every call succeeds. -/
def server_obs_ok : ServerObs :=
  { estale := ⟨3, 0⟩,
    oexcl := ⟨3⟩,
    nsecs := ⟨3, 0, fun _ => 1, fun _ => 0⟩,
    fattrcache := ⟨0, Errno.other 0, 3, 0, fun _ => 5, fun _ => flush_quiet, fun _ => 0⟩,
    data_cache := ⟨3, 1024, flush_quiet, fun _ => 0, fun _ => 512, fun _ => 1,
      fun _ => flush_quiet, fun _ => 0⟩,
    write_flush := ⟨3, fun _ => flush_quiet, fun _ => 0, fun i => 1 + (i : Int)⟩,
    write_partial := ⟨3⟩,
    fhandlecache := ⟨0, Errno.other 0, 3, 3, 0, 0, 0, fun _ _ => 0, fun _ => 0, fun _ => 0⟩,
    neg_fhandlecache := ⟨0, Errno.other 0, fun _ => 3, fun _ => 0, fun _ => 0,
      fun _ => Errno.other 0⟩ }

/-- The entry `ENTRY('E', oexcl)` of the table. -/
def entry_oexcl : command :=
  ⟨'E', fun o _ => nfs_test_oexcl_server o.oexcl, fun _ _ o => nfs_test_oexcl_client o.oexcl⟩

/-! ### Definitions for the command table, retry and role properties -/

/-! ### Lines printed by one process -/

/-- The lines that a process prints, in order, when the bytes of `inbox` arrive
for it, up to the point where `Proc.trace` stops. -/
def Proc.printed : Proc → List Char → List String
  | Proc.write _ k, inbox => (k 1).printed inbox
  | Proc.read k, c :: rest => (k 1 c).printed rest
  | Proc.read _, [] => []
  | Proc.out lines k, inbox => lines ++ k.printed inbox
  | Proc.exit _, _ => []
  | Proc.ret, _ => []
  | Proc.nofuel, _ => []

/-! ### Bounded retry of `open` (lines 378-400; `src/nfstest2.c` lines 61-83) -/

/-- What one call of `open` leaves: the descriptor (-1 on failure) and `errno`. -/
structure OpenResult where
  fd : Int
  errno : Errno
  deriving DecidableEq, Repr

/-- The loop `for (i = 0; i < 10; i++) { fd = open(...); if (fd != -1 || errno
!= ESTALE) break; }` of `nfs_safe_open` and `nfs_safe_create`, entered with the
given `i`; the first argument counts the iterations that `i < 10` still allows
and `last` is what the previous call left.  Returns what the last call left
and the value of `i` counted up to and including the last call, the number of
calls made. -/
def safe_open_loop (open_call : Nat → OpenResult) : Nat → Nat → OpenResult → OpenResult × Nat
  | 0, i, last => (last, i)
  | n + 1, i, _ =>
    if (open_call i).fd ≠ -1 ∨ (open_call i).errno ≠ Errno.ESTALE then (open_call i, i + 1)
    else safe_open_loop open_call n (i + 1) (open_call i)

/-- The function `nfs_safe_open(path, flags)`: `open_call i` is what the
`i`-th call of `open` leaves.  The loop body runs at least once, so the value
that the model gives the uninitialised `fd` is never returned. -/
def nfs_safe_open (open_call : Nat → OpenResult) : OpenResult × Nat :=
  safe_open_loop open_call 10 0 ⟨-1, Errno.other 0⟩

/-- The function `nfs_safe_create(path, flags, mode)`, the same loop around
`open(path, flags, mode)`. -/
def nfs_safe_create (open_call : Nat → OpenResult) : OpenResult × Nat :=
  safe_open_loop open_call 10 0 ⟨-1, Errno.other 0⟩

/-- A call of `open` that failed with `ESTALE`. -/
def OpenResult.stale (r : OpenResult) : Prop :=
  r.fd = -1 ∧ r.errno = Errno.ESTALE

instance (r : OpenResult) : Decidable r.stale := by
  unfold OpenResult.stale; infer_instance

/-- Observations of the attribute-cache client in which every call succeeds
and every second `fstat` already shows an mtime one second later than the
first: the change is seen without any flush. -/
def fattr_obs_changed : FattrClientObs :=
  ⟨3, fun _ => 0, fun _ => 0, fun _ => 0, fun _ => 1, fun _ => flush_quiet,
    fun _ => 0, fun _ => 1, fun _ => flush_quiet⟩

/-- The concatenation `block m ++ block (m + 1) ++ ... ++ block (m + n - 1)`:
what `n` consecutive rounds, the first of them round `m`, contribute in
order. -/
def concat_from {α : Type} (block : Nat → List α) : Nat → Nat → List α
  | 0, _ => []
  | n + 1, m => block m ++ concat_from block n (m + 1)

/-- The lines that the round of `method` of `nfs_test_data_cache_client`
prints, in order: those of the three flush actions and of the two `read`
checks, the result line and the remark on a changed mtime; `chr` is the byte
that the round expects at offset 512. -/
def data_round_lines (b : Build) (h : Bool) (o : DataClientObs) (method : Nat) (chr : Char) :
    List String :=
  (o.flush_attr method).lines ++ read_lines (o.read1_ret method) ++
  (o.flush_before method).lines ++ read_lines (o.read2_ret method) ++
  (o.flush_after method).lines ++
  (["Data cache flush " ++ method_name b method ++ ": " ++
    (if o.buf method 512 = chr then "OK" else "failed") ++ "\n"] ++
   (if o.mtime2 method ≠ o.mtime1 method ∨
       ST_NSECS h (o.nsec2 method) ≠ ST_NSECS h (o.nsec1 method) then
     [" - mtime changed! %ld.%ld -> %ld.%ld\n"] else []))

/-- The lines that round `r` of `nfs_test_fattrcache_client` prints when the
round applies the flush method `method`. -/
def fattr_round_lines (b : Build) (o : FattrClientObs) (method r : Nat) : List String :=
  (o.flush_before r).lines ++ (o.flush_after r).lines ++
  ["Attr cache flush " ++ method_name b method ++ ": " ++
    (if o.st1_mtime r = o.st3_mtime r then "failed" else "OK") ++ "\n"]

/-- The lines that the round of `method` of `nfs_test_fhandlecache_client`
prints. -/
def fhandle_round_lines (b : Build) (o : FhandleClientObs) (method : Nat) : List String :=
  (o.flush_before method).lines ++ (o.flush_after method).lines ++ fhandlecache_lines b o method

/-- The lines that the round of `method` of `nfs_test_neg_fhandlecache_client`
prints. -/
def neg_round_lines (b : Build) (o : NegClientObs) (method : Nat) : List String :=
  (o.flush_before method).lines ++ (o.flush_after method).lines ++
  (["Negative file handle cache flush " ++ method_name b method ++ ": " ++
    (if ¬ o.stat_ret method = 0 then "failed" else "OK") ++ "\n"] ++
   (if o.stat_ret method = 0 ∧ o.st_mtime method ≠ (method : Int) then
     [" - mtime is wrong though\n"] else []))

/-- The lines that the round of `method` of `nfs_test_write_flush_client`
prints when the server's answer of the round is `cmd`. -/
def write_flush_round_lines (b : Build) (o : WriteFlushClientObs) (method : Nat) (cmd : Char) :
    List String :=
  (o.flush_before method).lines ++
  (if o.write_ret method ≠ 1 then ["write(%s) failed, method=%s: %m"] else []) ++
  (o.flush_after method).lines ++
  ["Write flush " ++ method_name b method ++ ": " ++
    (if cmd = 'O' then "OK" else "failed") ++ "\n"]

/-- No call of the attribute-cache client ends in `i_fatal`, and in every round
the mtime seen before the flush is the one seen before the remote change, so
that every round applies its flush method. -/
def FattrClientObs.steady (o : FattrClientObs) : Prop :=
  ¬ o.open_fd < 0 ∧ (∀ r, ¬ o.fstat1_ret r < 0) ∧ (∀ r, ¬ o.fstat2_ret r < 0) ∧
  (∀ r, ¬ o.fstat3_ret r < 0) ∧ (∀ r, o.st1_mtime r = o.st2_mtime r) ∧
  (∀ r, (o.flush_before r).fatal = false) ∧ (∀ r, (o.flush_after r).fatal = false)

/-- No call of the file-handle-cache client ends in `i_fatal`. -/
def FhandleClientObs.steady (o : FhandleClientObs) : Prop :=
  ¬ o.open_dir_fd = -1 ∧ ¬ o.create_fd = -1 ∧
  (∀ m, ¬ (o.stat_a_ret m < 0 ∨ o.stat_b_ret m < 0)) ∧
  (∀ m, o.st1_ino m = o.ino1 ∨ o.st1_ino m = o.ino2) ∧ (∀ m, ¬ o.stat2_ret m < 0) ∧
  (∀ m, (o.flush_before m).fatal = false) ∧ (∀ m, (o.flush_after m).fatal = false)

/-- No call of the negative-handle-cache client ends in `i_fatal`, and no
round finds the path existing before the server has created it (the early
end of the loop). -/
def NegClientObs.steady (o : NegClientObs) : Prop :=
  ¬ o.open_dir_fd = -1 ∧ ¬ (o.unlink_ret < 0 ∧ o.unlink_errno ≠ Errno.ENOENT) ∧
  (∀ m, ¬ (o.stat_a_ret m = 0 ∨ o.stat_b_ret m = 0 ∨ o.stat_c_ret m = 0)) ∧
  (∀ m, ¬ (¬ o.stat_ret m = 0 ∧ o.stat_errno m ≠ Errno.ENOENT)) ∧
  (∀ m, ¬ (o.unlink_round_ret m < 0 ∧ o.unlink_round_errno m ≠ Errno.ENOENT)) ∧
  (∀ m, (o.flush_before m).fatal = false) ∧ (∀ m, (o.flush_after m).fatal = false)

/-- No call of the data-cache client ends in `i_fatal`, and the initial read
returns at least one byte and only bytes `a`. -/
def DataClientObs.steady (o : DataClientObs) : Prop :=
  ¬ o.open_fd < 0 ∧ o.flush_open.fatal = false ∧ ¬ o.read0_ret < 0 ∧ o.initial_read_ok ∧
  (∀ m, ¬ o.fstat1_ret m < 0) ∧ (∀ m, ¬ o.lseek1_ret m < 0) ∧ (∀ m, ¬ o.lseek2_ret m < 0) ∧
  (∀ m, ¬ o.fstat2_ret m < 0) ∧ (∀ m, ¬ o.buf m 511 ≠ 'a') ∧
  (∀ m, (o.flush_before m).fatal = false) ∧ (∀ m, (o.flush_after m).fatal = false) ∧
  (∀ m, (o.flush_attr m).fatal = false)

/-- No call of the write-visibility client ends in `i_fatal`. -/
def WriteFlushClientObs.steady (o : WriteFlushClientObs) : Prop :=
  ¬ o.create_fd < 0 ∧
  (∀ m, (o.flush_before m).fatal = false) ∧ (∀ m, (o.flush_after m).fatal = false)

/-- Observations of the data-cache client in which every call succeeds, every
`read` returns 1024 bytes `a` and the server's byte is never seen at offset
512. -/
def data_obs_ok : DataClientObs :=
  { data_obs_empty_read with read0_ret := 1024 }

/-- Sample observations in which every client procedure runs to its end. -/
def client_obs_steady : ClientObs :=
  { client_obs_ok with data_cache := data_obs_ok }

/-- No call of the write-visibility server ends in `i_fatal`. -/
def WriteFlushServerObs.steady (o : WriteFlushServerObs) : Prop :=
  ¬ o.open_fd < 0 ∧ (∀ i, (o.flush i).fatal = false) ∧ (∀ i, ¬ o.fstat_ret i < 0)

/-! ### Roles of the two processes (lines 1288-1351) -/

/-- Results of the socket calls of `nfs_listen`. -/
structure ListenObs where
  listen_fd : Int
  bind_ret : Int
  listen_ret : Int
  accept_fd : Int

/-- Results of the calls of `nfs_connect` before the test: `host_found` is
`hp != NULL && hp->h_addr_list[0] != NULL`. -/
structure ConnectObs where
  host_found : Bool
  socket_fd : Int
  connect_ret : Int

/-- What one process brings to `nfs_test_server` or `nfs_test_client`: its
build, the result of its `unlink(path)`, the file observations of its
procedures, its command string and the bound of its dispatch loop. -/
structure RoleEnv where
  build : Build
  have_st_nsecs : Bool
  unlink_ret : Int
  unlink_errno : Errno
  server_obs : Nat → ServerObs
  client_obs : ClientObs
  cmdstr : Option (List Char)
  fuel : Nat

/-- The function `nfs_listen` up to the end of its first connection; `k` stands
for `close(fd)` and what follows it (with `reverse` off, the next round of the
`do ... while (!reverse)` loop, which waits in `accept`). -/
def nfs_listen (reverse : Bool) (l : ListenObs) (e : RoleEnv) (k : Proc) : Proc :=
  fs_check (l.listen_fd = -1) "socket() failed: %m" <|
  fs_check (l.bind_ret < 0) "bind() failed: %m" <|
  fs_check (l.listen_ret < 0) "listen() failed: %m" <|
  Proc.out ["Listening for client on port %u..\n"] <|
  fs_check (l.accept_fd < 0) "accept() failed: %m" <|
  if !reverse then
    nfs_test_server e.unlink_ret e.unlink_errno e.server_obs e.fuel k
  else
    nfs_test_client e.build e.have_st_nsecs e.unlink_ret e.unlink_errno e.client_obs e.cmdstr k

/-- The function `nfs_connect`; `k` stands for `close(fd)` and the return. -/
def nfs_connect (reverse : Bool) (c : ConnectObs) (e : RoleEnv) (k : Proc) : Proc :=
  fs_check (c.host_found = false) "gethostbyname(%s) failed" <|
  fs_check (c.socket_fd < 0) "socket() failed: %m" <|
  fs_check (c.connect_ret < 0) "connect() failed: %m" <|
  if !reverse then
    nfs_test_client e.build e.have_st_nsecs e.unlink_ret e.unlink_errno e.client_obs e.cmdstr k
  else
    nfs_test_server e.unlink_ret e.unlink_errno e.server_obs e.fuel k

/-- The socket calls of `nfs_listen` succeed. -/
def ListenObs.ok (l : ListenObs) : Prop :=
  ¬ l.listen_fd = -1 ∧ ¬ l.bind_ret < 0 ∧ ¬ l.listen_ret < 0 ∧ ¬ l.accept_fd < 0

instance (l : ListenObs) : Decidable l.ok := by
  unfold ListenObs.ok; infer_instance

/-- The calls of `nfs_connect` before the test succeed. -/
def ConnectObs.ok (c : ConnectObs) : Prop :=
  c.host_found = true ∧ ¬ c.socket_fd < 0 ∧ ¬ c.connect_ret < 0

instance (c : ConnectObs) : Decidable c.ok := by
  unfold ConnectObs.ok; infer_instance

/-- The `unlink(path)` at the start of `nfs_test_server` / `nfs_test_client`
does not end in `i_fatal`. -/
def RoleEnv.unlink_ok (e : RoleEnv) : Prop :=
  ¬ (e.unlink_ret < 0 ∧ e.unlink_errno ≠ Errno.ENOENT)

instance (e : RoleEnv) : Decidable e.unlink_ok := by
  unfold RoleEnv.unlink_ok; infer_instance

/-- The connecting process and the listening process at the moment the
connection is accepted.  The connecting process is in the field `client`
(its output is `client_out`, its bytes travel in `c2s`) and the listening
process in the field `server`, whatever their roles are; `rl` and `rc` are
the values of `reverse` in the listening and in the connecting process. -/
def session_start (rl rc : Bool) (l : ListenObs) (cn : ConnectObs) (el ec : RoleEnv) : Config :=
  { client := nfs_connect rc cn ec Proc.ret, server := nfs_listen rl l el Proc.ret,
    c2s := [], s2c := [], client_out := [], server_out := [] }

/-- Both processes have got past the `wait_cmd` of the handshake: each has
printed its line `Connected: Acting as test ...`. -/
def Config.handshake_done (c : Config) : Prop :=
  ("Connected: Acting as test client\n" ∈ c.client_out ∨
    "Connected: Acting as test server\n" ∈ c.client_out) ∧
  ("Connected: Acting as test client\n" ∈ c.server_out ∨
    "Connected: Acting as test server\n" ∈ c.server_out)

/-- Sample results of the socket calls of `nfs_listen`. -/
def listen_obs_ok : ListenObs := ⟨3, 0, 0, 4⟩

/-- Sample results of the calls of `nfs_connect`. -/
def connect_obs_ok : ConnectObs := ⟨true, 3, 0⟩

/-- A sample process: the path does not exist yet, every later call succeeds,
no command string is given. -/
def role_env_ok : RoleEnv :=
  { build := ⟨true, true⟩, have_st_nsecs := true, unlink_ret := -1,
    unlink_errno := Errno.ENOENT, server_obs := fun _ => server_obs_ok,
    client_obs := client_obs_ok, cmdstr := none, fuel := 64 }

/-! ## Packed numbers of `squat-dump.c` (lines 26-50) -/

/-- The loop `while (c != end && *c >= 0x80)` of `unpack_num` over the bytes
from `c` to `end`, with the current `value` (`uint32_t`), `bits` (`unsigned
int`) and the number of bytes passed.  Returns the three and the bytes from the
final `c` on (`[]` for `c == end`).  The shift is taken in `uint32_t`; for
`bits` of 32 and more C leaves `(*c & 0x7f) << bits` undefined, and `value` is
then returned only after `bits` has wrapped. -/
def unpack_loop : List Nat → Nat → Nat → Nat → Nat × Nat × Nat × List Nat
  | [], value, bits, n => (value, bits, n, [])
  | c :: rest, value, bits, n =>
    if c ≥ 0x80 then
      unpack_loop rest ((value ||| ((c &&& 0x7f) <<< bits)) % 2 ^ 32) ((bits + 7) % 2 ^ 32)
        (n + 1)
    else (value, bits, n, c :: rest)

/-- The function `unpack_num(p, end)` over the bytes from `*p` to `end`:
the value returned and the number of bytes by which `*p` has moved (0 when it
is left as it was). -/
def unpack_num (input : List Nat) : Nat × Nat :=
  match unpack_loop input 0 0 0 with
  | (_, _, _, []) => (0, 0)
  | (value, bits, n, c :: _) =>
    if bits > 32 - 7 then (0, 0)
    else ((value ||| ((c &&& 0x7f) <<< bits)) % 2 ^ 32, n + 1)

/-- The minimal little-endian base-128 encoding of `v`, as the claim words it:
7 payload bits per byte, lowest group first, the high bit set on every byte
except the last.  (Follows the words of the specification, not code of
`squat-dump.c`, which only decodes.)  The first argument bounds the number of
bytes; `v + 1` is always enough. -/
def base128_digits : Nat → Nat → List Nat
  | 0, _ => []
  | fuel + 1, v => if v < 128 then [v] else (v % 128 + 128) :: base128_digits fuel (v / 128)

/-- The minimal little-endian base-128 encoding of `v`. -/
def base128_encoding (v : Nat) : List Nat :=
  base128_digits (v + 1) v

/-! ### Rounds of a client loop -/

/-- Whatever arrives on the socket, the process sends at most `N` bytes `2`
(one per round of the attribute-cache loop) and does not stop because a loop
of the model has used up its bound. -/
def Proc.rounds_le (N : Nat) (p : Proc) : Prop :=
  ∀ inbox : List Char,
    (p.trace inbox).1.count (Action.sent '2') ≤ N ∧ (p.trace inbox).2 ≠ Proc.nofuel

/-! ### Writes of the partial-write scenario (lines 1148-1153 and 1177-1182) -/

/-- The pair `lseek(fd, offset, SEEK_SET); write(fd, data, len)`: the offset
and the bytes written (the code does not look at the results; a write is taken
to write all its bytes). -/
structure FileWrite where
  offset : Nat
  data : List Char
  deriving DecidableEq, Repr

/-- The byte at `j` lies in the range of the write. -/
def FileWrite.covers (w : FileWrite) (j : Nat) : Prop :=
  w.offset ≤ j ∧ j < w.offset + w.data.length

instance (w : FileWrite) (j : Nat) : Decidable (w.covers j) := by
  unfold FileWrite.covers; infer_instance

/-- The writes of the loop of `nfs_test_write_partial_server`, in order: for
`i` below `PARTIAL_TOTSIZE/sizeof(b)`, the first `sizeof(b)/2` bytes of `b`
(all `S`) at `i*sizeof(b)`. -/
def partial_server_writes : List FileWrite :=
  (List.range (PARTIAL_TOTSIZE / PARTIAL_BLOCKIZE)).map
    (fun i => ⟨i * PARTIAL_BLOCKIZE, List.replicate (PARTIAL_BLOCKIZE / 2) 'S'⟩)

/-- The writes of the loop of `nfs_test_write_partial_client`, in order: for
`i` below `sizeof(data)/sizeof(b)`, the first `sizeof(b)/2` bytes of `b` (all
`C`) at `i*sizeof(b) + sizeof(b)/2`. -/
def partial_client_writes : List FileWrite :=
  (List.range (PARTIAL_TOTSIZE / PARTIAL_BLOCKIZE)).map
    (fun i => ⟨i * PARTIAL_BLOCKIZE + PARTIAL_BLOCKIZE / 2,
      List.replicate (PARTIAL_BLOCKIZE / 2) 'C'⟩)

/-- A file: its size and its bytes. -/
structure FileContent where
  size : Nat
  byte : Nat → Char

/-- The file as `O_CREAT | O_TRUNC` leaves it. -/
def empty_file : FileContent := ⟨0, fun _ => Char.ofNat 0⟩

/-- The file after a write: the bytes of the range are those written, the
others stay, and the file grows to the end of the range when that lies
behind its end. -/
def file_write (f : FileContent) (w : FileWrite) : FileContent :=
  { size := max f.size (w.offset + w.data.length),
    byte := fun j => if w.covers j then w.data.getD (j - w.offset) (Char.ofNat 0) else f.byte j }

/-- The file after the writes of the list, applied from left to right. -/
def file_writes (f : FileContent) (ws : List FileWrite) : FileContent :=
  ws.foldl file_write f

/-- A sample order of the 2048 writes: server and client take turns. -/
def partial_alternating_writes : List FileWrite :=
  ((List.range (PARTIAL_TOTSIZE / PARTIAL_BLOCKIZE)).map
    (fun i => [⟨i * PARTIAL_BLOCKIZE, List.replicate (PARTIAL_BLOCKIZE / 2) 'S'⟩,
      ⟨i * PARTIAL_BLOCKIZE + PARTIAL_BLOCKIZE / 2,
        List.replicate (PARTIAL_BLOCKIZE / 2) 'C'⟩])).flatten

/-! ### Relinking in the file-handle-cache scenario (lines 707-716 and 781-787) -/

/-- The temp file whose inode the client finds at the path at the start of
the round of `method` (the tests `st1.st_ino == ino1`, then `st1.st_ino ==
ino2`); `none` where the client ends in `i_fatal("%s has unexpected inode")`. -/
def fhandlecache_client_seen (o : FhandleClientObs) (method : Nat) : Option TempFile :=
  if o.st1_ino method = o.ino1 then some TempFile.temp1
  else if o.st1_ino method = o.ino2 then some TempFile.temp2
  else none

/-- The byte that the client sends for the temp file it has found: `a` for the
first, `b` for the second. -/
def fhandlecache_client_cmd : TempFile → Char
  | TempFile.temp1 => 'a'
  | TempFile.temp2 => 'b'

/-- The inode of a temp file as the client has recorded it in `ino1`, `ino2`. -/
def FhandleClientObs.ino (o : FhandleClientObs) : TempFile → Nat
  | TempFile.temp1 => o.ino1
  | TempFile.temp2 => o.ino2

/-- No call of the data-cache server ends in `i_fatal`. -/
def DataServerObs.steady (o : DataServerObs) : Prop :=
  ¬ o.create_fd < 0 ∧ ¬ o.write_ret ≠ 1024 ∧ o.flush_first.fatal = false ∧
  (∀ i, ¬ o.utimes1_ret i < 0) ∧ (∀ i, ¬ o.lseek_ret i < 0) ∧
  (∀ i, ¬ o.write_round_ret i ≠ 1) ∧ (∀ i, (o.flush i).fatal = false) ∧
  (∀ i, ¬ o.utimes2_ret i < 0)

/-- The two processes of the data-cache scenario at the start of the round of
method `k`, `0 <= k < NFS_CACHE_FLUSH_METHOD_COUNT`: the client is at the top
of its loop with `chr` being `'b' + k`, the server at the top of its loop with
`cmd` being `'b' + k`, nothing is in flight; `F` is the bound of the server
loop at its start. -/
def data_cache_round (b : Build) (h : Bool) (oc : DataClientObs) (os : Nat → ServerObs)
    (F k : Nat) (o1 o2 : List String) : Config :=
  { client := data_cache_client_loop b h oc (send_cmd '5' (wait_cmd '!' Proc.ret))
      (NFS_CACHE_FLUSH_METHOD_COUNT b - k) k (Char.ofNat (98 + k)),
    server := data_cache_server_loop (os 0).data_cache
      (send_cmd '!' (server_dispatch (fun j => os (j + 1)) Proc.ret F)) (F - k) k
      (Char.ofNat (98 + k)),
    c2s := [], s2c := [], client_out := o1, server_out := o2 }

/-! ### Definitions for the flush pair, the retried rounds and the relinking run -/

/-- What the before-action followed by the after-action of a method leaves of
a descriptor state when every system call ends as expected (proved of the two
actions in `flush_pair_spec`): the actions of the method release a lock or
reset flags without looking at the starting state. -/
def flush_pair_state (b : Build) (fc : FlagConsts) (m : Method) (s : FdState) : FdState :=
  if m ∉ enum_members b then s else
  match m with
  | OPEN_CLOSE | DUP_CLOSE | FCNTL_SHARED | FCNTL_EXCL => { s with fcntl_lock := none }
  | CLOSE_OPEN => { s with fcntl_lock := none, flock_lock := none }
  | FLOCK_SHARED | FLOCK_EXCL => { s with flock_lock := none }
  | O_SYNC | O_DIRECT =>
    { s with flags := (if b.have_o_direct
        then clear_bits (clear_bits s.flags fc.O_SYNC) fc.O_DIRECT
        else clear_bits s.flags fc.O_SYNC) }
  | _ => s

/-- No call of the attribute-cache client ends in `i_fatal`. -/
def FattrClientObs.no_fatal (o : FattrClientObs) : Prop :=
  ¬ o.open_fd < 0 ∧ (∀ r, ¬ o.fstat1_ret r < 0) ∧ (∀ r, ¬ o.fstat2_ret r < 0) ∧
  (∀ r, ¬ o.fstat3_ret r < 0) ∧
  (∀ r, (o.flush_before r).fatal = false) ∧ (∀ r, (o.flush_after r).fatal = false)

/-- The lines of the rounds `rs` of the attribute-cache client in which it
applies a flush method: the first of them applies `method`, the next `method +
1`, and so on.  (A round that sees the mtime changed before any flush prints
nothing.) -/
def fattr_result_lines (b : Build) (o : FattrClientObs) : Nat → List Nat → List String
  | _, [] => []
  | method, r :: rs => fattr_round_lines b o method r ++ fattr_result_lines b o (method + 1) rs

/-- Observations of the attribute-cache client in which every call succeeds
and two rounds out of three see the mtime changed before any flush: every
method is reached after two rounds that count as fails. -/
def fattr_obs_retry : FattrClientObs :=
  ⟨3, fun _ => 0, fun _ => 0, fun _ => 0, fun r => if r % 3 = 2 then 0 else 1,
    fun _ => flush_quiet, fun _ => 0, fun _ => 1, fun _ => flush_quiet⟩

/-- Sample observations as `client_obs_steady`, with the retrying
attribute-cache observations. -/
def client_obs_retry : ClientObs :=
  { client_obs_steady with fattrcache := fattr_obs_retry }


/-- No call of `nfs_test_fhandlecache_server` before its loop ends in
`i_fatal`. -/
def FhandleServerObs.setup_ok (o : FhandleServerObs) : Prop :=
  ¬ (o.unlink_ret < 0 ∧ o.unlink_errno ≠ Errno.ENOENT) ∧ ¬ o.create1_fd < 0 ∧
  ¬ o.create2_fd < 0 ∧ ¬ o.link_ret < 0 ∧ ¬ o.utimes_path_ret < 0 ∧ ¬ o.utimes_dir_ret < 0

/-- In the round of `method` the server succeeds in linking under the path the
temp file that `fhandlecache_server_link` gives for the byte of the client, and
in its two `utimes` calls.  Nothing is asked of linking the temp file that the
client has found at the path. -/
def fhandlecache_round_ok (o : FhandleClientObs) (so : FhandleServerObs) (method : Nat) : Prop :=
  (∀ t, fhandlecache_client_seen o method = some t →
    ¬ so.link_round method (fhandlecache_server_link (fhandlecache_client_cmd t)) < 0) ∧
  ¬ so.utimes_path_round method < 0 ∧ ¬ so.utimes_dir_round method < 0

/-- Observations of the server procedures as `server_obs_ok`, but in the loop
of the file-handle-cache server every `link` of the first temp file under the
path fails; only the second temp file can be linked. -/
def server_obs_link2_only : ServerObs :=
  { server_obs_ok with
    fhandlecache := ⟨0, Errno.other 0, 3, 3, 0, 0, 0,
      (fun _ t => if t = TempFile.temp2 then 0 else -1), fun _ => 0, fun _ => 0⟩ }

/-- Observations of the server procedures as `server_obs_ok`, but in the loop
of the file-handle-cache server every `link` of the second temp file under the
path fails; only the first temp file can be linked. -/
def server_obs_link1_only : ServerObs :=
  { server_obs_ok with
    fhandlecache := ⟨0, Errno.other 0, 3, 3, 0, 0, 0,
      (fun _ t => if t = TempFile.temp1 then 0 else -1), fun _ => 0, fun _ => 0⟩ }

/-! # Theorems -/

/-- C5 fails as stated: `FSYNC` is declared both with and without `HAVE_FLOCK`,
and its enumerator value is 16 in the first build and 14 in the second. -/
theorem C5_counterexample :
    FSYNC ∈ enum_members ⟨true, true⟩ ∧ FSYNC ∈ enum_members ⟨false, true⟩ ∧
    ordinal ⟨true, true⟩ FSYNC = some 16 ∧ ordinal ⟨false, true⟩ FSYNC = some 14 ∧
    ordinal ⟨true, true⟩ FSYNC ≠ ordinal ⟨false, true⟩ FSYNC := by
  decide

/-- C5 (amended): every build's catalog is the full catalog with entries left
out and the order kept; a method declared in two builds has the same ordinal in
both when the builds agree on `HAVE_FLOCK` (leaving out `O_DIRECT` removes the
tail entry only) or when the method is declared before the flock entries
(ordinal below 14); between a build with `HAVE_FLOCK` and a build without it,
the methods declared after the flock entries, which are `FSYNC`, `O_SYNC` and
`O_DIRECT`, and only they, change their ordinal: 16, 17, 18 with flock and 14,
15, 16 without, two less. -/
theorem C5_ordinal_stability (b1 b2 : Build) (m : Method)
    (h1 : m ∈ enum_members b1) (h2 : m ∈ enum_members b2) :
    ((b1.have_flock = b2.have_flock ∨ ∃ n, ordinal b1 m = some n ∧ n < 14) →
      ordinal b1 m = ordinal b2 m) ∧
    (b1.have_flock = true → b2.have_flock = false →
      (m = FSYNC ∨ m = O_SYNC ∨ m = O_DIRECT) →
      ordinal b1 m = (ordinal b2 m).map (fun n => n + 2)) ∧
    (b1.have_flock = true → b2.have_flock = false →
      (ordinal b1 m ≠ ordinal b2 m ↔ (m = FSYNC ∨ m = O_SYNC ∨ m = O_DIRECT))) ∧
    (b1.have_flock = true →
      (m = FSYNC → ordinal b1 m = some 16) ∧ (m = O_SYNC → ordinal b1 m = some 17) ∧
      (m = O_DIRECT → ordinal b1 m = some 18)) ∧
    (b2.have_flock = false →
      (m = FSYNC → ordinal b2 m = some 14) ∧ (m = O_SYNC → ordinal b2 m = some 15) ∧
      (m = O_DIRECT → ordinal b2 m = some 16)) ∧
    List.Sublist (enum_members b1) (enum_members ⟨true, true⟩) ∧
    List.Sublist (enum_members b2) (enum_members ⟨true, true⟩) := by
  rcases b1 with ⟨f1, d1⟩
  rcases b2 with ⟨f2, d2⟩
  cases f1 <;> cases d1 <;> cases f2 <;> cases d2 <;> cases m <;>
    first
    | (exfalso; revert h1; decide)
    | (exfalso; revert h2; decide)
    | (refine ⟨?_, by decide, by decide, by decide, by decide, by decide, by decide⟩
       decide)

/-- Witness of C5: `O_SYNC` has the same ordinal in the builds with flock, with
and without `O_DIRECT`, and `O_DIRECT` moves from 18 to 16 when flock is left
out. -/
theorem C5_ordinal_stability_witness :
    ordinal ⟨true, true⟩ O_SYNC = ordinal ⟨true, false⟩ O_SYNC ∧
    ordinal ⟨true, true⟩ O_DIRECT = (ordinal ⟨false, true⟩ O_DIRECT).map (fun n => n + 2) ∧
    ordinal ⟨true, true⟩ O_DIRECT = some 18 ∧ ordinal ⟨false, true⟩ O_DIRECT = some 16 :=
  ⟨(C5_ordinal_stability ⟨true, true⟩ ⟨true, false⟩ O_SYNC (by decide) (by decide)).1
      (Or.inl rfl),
   (C5_ordinal_stability ⟨true, true⟩ ⟨false, true⟩ O_DIRECT (by decide) (by decide)).2.1
      rfl rfl (Or.inr (Or.inr rfl)),
   ((C5_ordinal_stability ⟨true, true⟩ ⟨false, true⟩ O_DIRECT (by decide)
      (by decide)).2.2.2.1 rfl).2.2 rfl,
   ((C5_ordinal_stability ⟨true, true⟩ ⟨false, true⟩ O_DIRECT (by decide)
      (by decide)).2.2.2.2.1 rfl).2.2 rfl⟩

set_option maxRecDepth 100000 in
/-- C3 fails on the code: for a buffer whose first 64 blocks are right and whose
block 64 is not, the client prints `OK`. -/
theorem C3_ok_with_bad_block :
    verify_report buf_first64 = Report.ok ∧ ¬ block_ok buf_first64 64 := by
  decide

set_option maxRecDepth 100000 in
/-- C4 fails on the code: for a buffer whose first deviating block is block 1,
the client prints `Failed at [16]`. -/
theorem C4_reports_byte_offset :
    verify_report buf_bad1 = Report.failed_at 16 ∧ block_ok buf_bad1 0 ∧
    ¬ block_ok buf_bad1 1 := by
  decide

/-! ## Flush actions -/

lemma clear_bits_testBit (x m i : Nat) :
    (clear_bits x m).testBit i = (x.testBit i && !m.testBit i) := by
  simp only [clear_bits, Nat.testBit_xor, Nat.testBit_and]
  cases x.testBit i <;> cases m.testBit i <;> rfl

lemma testBit_of_and_eq_zero {x m : Nat} (h : x &&& m = 0) (i : Nat) :
    (x.testBit i && m.testBit i) = false := by
  rw [← Nat.testBit_and, h, Nat.zero_testBit]

lemma clear_bits_of_disjoint {x m : Nat} (h : x &&& m = 0) : clear_bits x m = x := by
  apply Nat.eq_of_testBit_eq
  intro i
  have := testBit_of_and_eq_zero h i
  rw [clear_bits_testBit]
  cases hx : x.testBit i <;> cases hm : m.testBit i <;> simp_all

lemma clear_bits_or_self {x m : Nat} (h : x &&& m = 0) : clear_bits (x ||| m) m = x := by
  apply Nat.eq_of_testBit_eq
  intro i
  have := testBit_of_and_eq_zero h i
  rw [clear_bits_testBit, Nat.testBit_or]
  cases hx : x.testBit i <;> cases hm : m.testBit i <;> simp_all

lemma clear_bits_or_other {x m n : Nat} (h : x &&& m = 0) (h2 : x &&& n = 0) :
    clear_bits (clear_bits (x ||| n) m) n = x := by
  apply Nat.eq_of_testBit_eq
  intro i
  have := testBit_of_and_eq_zero h i
  have := testBit_of_and_eq_zero h2 i
  rw [clear_bits_testBit, clear_bits_testBit, Nat.testBit_or]
  cases hx : x.testBit i <;> cases hm : m.testBit i <;> cases hn : n.testBit i <;> simp_all

lemma clear_bits_or_first {x m n : Nat} (h : x &&& m = 0) (h2 : x &&& n = 0) :
    clear_bits (clear_bits (x ||| m) m) n = x := by
  rw [clear_bits_or_self h, clear_bits_of_disjoint h2]

lemma clear_bits_or_same (x m : Nat) : clear_bits (x ||| m) m = clear_bits x m := by
  apply Nat.eq_of_testBit_eq
  intro i
  rw [clear_bits_testBit, clear_bits_testBit, Nat.testBit_or]
  cases x.testBit i <;> cases m.testBit i <;> rfl

lemma clear_bits_or_second (x m n : Nat) :
    clear_bits (clear_bits (x ||| n) m) n = clear_bits (clear_bits x m) n := by
  apply Nat.eq_of_testBit_eq
  intro i
  rw [clear_bits_testBit, clear_bits_testBit, clear_bits_testBit, clear_bits_testBit,
    Nat.testBit_or]
  cases x.testBit i <;> cases m.testBit i <;> cases n.testBit i <;> rfl

lemma disjoint_of_clear_bits {x m : Nat} (h : clear_bits x m = x) : x &&& m = 0 := by
  apply Nat.eq_of_testBit_eq
  intro i
  have hi := congrArg (fun y => y.testBit i) h
  simp only [clear_bits_testBit] at hi
  rw [Nat.testBit_and, Nat.zero_testBit]
  cases hx : x.testBit i <;> cases hm : m.testBit i <;> simp_all

lemma disjoint_of_clear_bits_twice {x m n : Nat} (h : clear_bits (clear_bits x m) n = x) :
    x &&& m = 0 ∧ x &&& n = 0 := by
  constructor <;>
  · apply Nat.eq_of_testBit_eq
    intro i
    have hi := congrArg (fun y => y.testBit i) h
    simp only [clear_bits_testBit] at hi
    rw [Nat.testBit_and, Nat.zero_testBit]
    cases hx : x.testBit i <;> cases hm : m.testBit i <;> cases hn : n.testBit i <;> simp_all

theorem flush_pair_spec (b : Build) (fc : FlagConsts) (r1 r2 : SysResults)
    (path : List Char) (m : Method) (w : World)
    (h1 : r1.as_expected) (h2 : r2.as_expected) :
    (flush_before_after b fc r1 r2 path m w).exits = false ∧
    (flush_before_after b fc r1 r2 path m w).world.fd = w.fd.map (flush_pair_state b fc m) := by
  obtain ⟨fd, calls, out⟩ := w
  obtain ⟨bf, bd⟩ := b
  obtain ⟨a1, a2, a3, a4, a5, a6, a7, a8, a9, a10, a11, a12, a13, a14, a15⟩ := h1
  obtain ⟨c1, c2, c3, c4, c5, c6, c7, c8, c9, c10, c11, c12, c13, c14, c15⟩ := h2
  have e1 : ¬ (¬ r1.rmdir_errno = Errno.ENOTEMPTY ∧ ¬ r1.rmdir_errno = Errno.ENOTDIR ∧
      ¬ r1.rmdir_errno = Errno.EBUSY ∧ ¬ r1.rmdir_errno = Errno.EEXIST) := by tauto
  have e2 : ¬ (¬ r2.rmdir_errno = Errno.ENOTEMPTY ∧ ¬ r2.rmdir_errno = Errno.ENOTDIR ∧
      ¬ r2.rmdir_errno = Errno.EBUSY ∧ ¬ r2.rmdir_errno = Errno.EEXIST) := by tauto
  clear a11 c11
  cases fd with
  | none =>
    cases m <;> cases bf <;> cases bd <;>
      simp [flush_before_after, nfs_cache_flush_before, nfs_cache_flush_after, enum_members,
        Flow.andThen, Flow.exits, Flow.world, World.call, flush_rmdir, i_fatal, i_error,
        not_lt.mpr, *]
  | some s =>
    obtain ⟨fl, l1, l2, off⟩ := s
    cases m <;> cases bf <;> cases bd <;>
      simp [flush_before_after, nfs_cache_flush_before, nfs_cache_flush_after, enum_members,
        Flow.andThen, Flow.exits, Flow.world, World.call, flush_rmdir, i_fatal, i_error,
        fcntl_lock, not_lt.mpr, flush_pair_state, clear_bits_or_same, clear_bits_or_second, *]

/-- C7 fails as stated: for `FSYNC`, a method with no residual side effect, the
after-action on an open descriptor calls `fsync`. -/
theorem C7_counterexample :
    (nfs_cache_flush_after ⟨true, true⟩ linux_flags sys_ok sample_path FSYNC
      (world_of ⟨2, none, none, 0⟩)).world.calls = [Call.fsync_fd] ∧
    (nfs_cache_flush_after ⟨true, true⟩ linux_flags sys_ok sample_path FSYNC
      (world_of ⟨2, none, none, 0⟩)).world.calls ≠ (world_of ⟨2, none, none, 0⟩).calls := by
  decide

/-- C7 (amended): for every method other than the `fcntl`/`flock` lock methods
and the `O_SYNC`/`O_DIRECT` flag methods, the after-action does what the
before-action does on the same inputs (it calls it); it is a no-op, returning
with no call made, nothing printed and the descriptor untouched, exactly for
`NONE` and for the descriptor methods `CLOSE_OPEN`, `FCHOWN_1_1`, `FCHOWN_UID`,
`FCHMOD`, `DUP_CLOSE` and `FSYNC` when there is no descriptor; in every other
case it makes a system call. -/
theorem C7_after_repeats_before (b : Build) (fc : FlagConsts) (r : SysResults)
    (path : List Char) (m : Method) (w : World)
    (hm : m ≠ FCNTL_SHARED ∧ m ≠ FCNTL_EXCL ∧ m ≠ FLOCK_SHARED ∧ m ≠ FLOCK_EXCL ∧
      m ≠ O_SYNC ∧ m ≠ O_DIRECT) :
    nfs_cache_flush_after b fc r path m w = nfs_cache_flush_before b fc r path m w ∧
    (nfs_cache_flush_after b fc r path m w = Flow.returned w ↔
      (m = NONE ∨ (w.fd = none ∧
        (m = CLOSE_OPEN ∨ m = FCHOWN_1_1 ∨ m = FCHOWN_UID ∨ m = FCHMOD ∨ m = DUP_CLOSE ∨
          m = FSYNC)))) ∧
    ((nfs_cache_flush_after b fc r path m w).world.calls = w.calls ↔
      (m = NONE ∨ (w.fd = none ∧
        (m = CLOSE_OPEN ∨ m = FCHOWN_1_1 ∨ m = FCHOWN_UID ∨ m = FCHMOD ∨ m = DUP_CLOSE ∨
          m = FSYNC)))) := by
  obtain ⟨fd, calls, out⟩ := w
  obtain ⟨bf, bd⟩ := b
  have hab : nfs_cache_flush_after ⟨bf, bd⟩ fc r path m ⟨fd, calls, out⟩
      = nfs_cache_flush_before ⟨bf, bd⟩ fc r path m ⟨fd, calls, out⟩ := by
    cases m <;> cases bf <;> cases bd <;>
      simp [nfs_cache_flush_after, nfs_cache_flush_before, enum_members] at hm ⊢
  refine ⟨hab, ?_, ?_⟩
  · rw [hab]
    cases fd <;> cases m <;>
      simp [nfs_cache_flush_before, enum_members, flush_rmdir, World.call, i_fatal, i_error]
        at hm ⊢ <;>
      (try split_ifs) <;> simp
  · rw [hab]
    cases fd <;> cases m <;>
      simp [nfs_cache_flush_before, enum_members, flush_rmdir, World.call, i_fatal, i_error,
        Flow.world] at hm ⊢ <;>
      (try split_ifs) <;> simp [Flow.world]

/-- Witness of C7: `FSYNC` with no descriptor, whose after-action is a no-op,
and `CHMOD`, whose after-action does what the before-action does and is not a
no-op: it calls `stat` and `chmod` again. -/
theorem C7_after_repeats_before_witness :
    nfs_cache_flush_after ⟨true, true⟩ linux_flags sys_ok sample_path FSYNC ⟨none, [], []⟩
      = Flow.returned ⟨none, [], []⟩ ∧
    nfs_cache_flush_after ⟨true, true⟩ linux_flags sys_ok sample_path CHMOD
        (world_of ⟨2, none, none, 0⟩)
      = nfs_cache_flush_before ⟨true, true⟩ linux_flags sys_ok sample_path CHMOD
        (world_of ⟨2, none, none, 0⟩) ∧
    nfs_cache_flush_after ⟨true, true⟩ linux_flags sys_ok sample_path CHMOD
        (world_of ⟨2, none, none, 0⟩)
      ≠ Flow.returned (world_of ⟨2, none, none, 0⟩) :=
  ⟨(C7_after_repeats_before ⟨true, true⟩ linux_flags sys_ok sample_path FSYNC ⟨none, [], []⟩
      (by decide)).2.1.mpr (Or.inr ⟨rfl, by decide⟩),
   (C7_after_repeats_before ⟨true, true⟩ linux_flags sys_ok sample_path CHMOD
      (world_of ⟨2, none, none, 0⟩) (by decide)).1,
   fun h => absurd ((C7_after_repeats_before ⟨true, true⟩ linux_flags sys_ok sample_path CHMOD
      (world_of ⟨2, none, none, 0⟩) (by decide)).2.1.mp h) (by decide)⟩

/-- C8: for `RMDIR` and `RMDIR_PARENT` the before-action ends the process when
`rmdir` succeeds; when `rmdir` fails with `ENOTEMPTY`, `ENOTDIR`, `EBUSY` or
`EEXIST` it returns with nothing printed and the descriptor untouched, its only
system call being the `rmdir`. -/
theorem C8_rmdir_success_is_fatal (b : Build) (fc : FlagConsts) (r : SysResults)
    (path : List Char) (m : Method) (w : World) (hm : m = RMDIR ∨ m = RMDIR_PARENT) :
    (r.rmdir_ret = 0 →
      (nfs_cache_flush_before b fc r path m w).exits = true ∧
      (nfs_cache_flush_before b fc r path m w).world.out
        = w.out ++ ["Oops, rmdir(%s) actually worked"]) ∧
    (r.rmdir_ret ≠ 0 →
      r.rmdir_errno = Errno.ENOTEMPTY ∨ r.rmdir_errno = Errno.ENOTDIR ∨
        r.rmdir_errno = Errno.EBUSY ∨ r.rmdir_errno = Errno.EEXIST →
      nfs_cache_flush_before b fc r path m w
        = Flow.returned (w.call (Call.rmdir_path (if m = RMDIR then path else parent_dir path)))) := by
  obtain ⟨bf, bd⟩ := b
  refine ⟨fun h0 => ?_, fun h0 he => ?_⟩
  · rcases hm with rfl | rfl <;> cases bf <;> cases bd <;>
      simp [nfs_cache_flush_before, enum_members, flush_rmdir, i_fatal, Flow.exits,
        Flow.world, World.call, h0]
  · have e1 : ¬ (¬ r.rmdir_errno = Errno.ENOTEMPTY ∧ ¬ r.rmdir_errno = Errno.ENOTDIR ∧
        ¬ r.rmdir_errno = Errno.EBUSY ∧ ¬ r.rmdir_errno = Errno.EEXIST) := by tauto
    rcases hm with rfl | rfl <;> cases bf <;> cases bd <;>
      simp [nfs_cache_flush_before, enum_members, flush_rmdir, h0, e1]

/-- Witness of C8: `RMDIR_PARENT` with `rmdir` failing with `ENOTEMPTY`. -/
theorem C8_rmdir_success_is_fatal_witness :
    (sys_ok.rmdir_ret = 0 →
      (nfs_cache_flush_before ⟨true, true⟩ linux_flags sys_ok sample_path RMDIR_PARENT
        (world_of ⟨2, none, none, 0⟩)).exits = true ∧
      (nfs_cache_flush_before ⟨true, true⟩ linux_flags sys_ok sample_path RMDIR_PARENT
        (world_of ⟨2, none, none, 0⟩)).world.out
        = (world_of ⟨2, none, none, 0⟩).out ++ ["Oops, rmdir(%s) actually worked"]) ∧
    (sys_ok.rmdir_ret ≠ 0 →
      sys_ok.rmdir_errno = Errno.ENOTEMPTY ∨ sys_ok.rmdir_errno = Errno.ENOTDIR ∨
        sys_ok.rmdir_errno = Errno.EBUSY ∨ sys_ok.rmdir_errno = Errno.EEXIST →
      nfs_cache_flush_before ⟨true, true⟩ linux_flags sys_ok sample_path RMDIR_PARENT
          (world_of ⟨2, none, none, 0⟩)
        = Flow.returned ((world_of ⟨2, none, none, 0⟩).call
            (Call.rmdir_path (if RMDIR_PARENT = RMDIR then sample_path
              else parent_dir sample_path)))) :=
  C8_rmdir_success_is_fatal ⟨true, true⟩ linux_flags sys_ok sample_path RMDIR_PARENT
    (world_of ⟨2, none, none, 0⟩) (Or.inr rfl)

/-- C9 fails as stated: when `rmdir` fails with `EACCES`, the before-action of
`RMDIR` prints the error and returns; the process is not ended. -/
theorem C9_counterexample :
    sys_rmdir_eacces.rmdir_ret ≠ 0 ∧
    nfs_cache_flush_before ⟨true, true⟩ linux_flags sys_rmdir_eacces sample_path RMDIR
        (world_of ⟨2, none, none, 0⟩)
      = Flow.returned
          { fd := some ⟨2, none, none, 0⟩, calls := [Call.rmdir_path sample_path],
            out := ["rmdir(%s) failed: %m"] } ∧
    (nfs_cache_flush_before ⟨true, true⟩ linux_flags sys_rmdir_eacces sample_path RMDIR
        (world_of ⟨2, none, none, 0⟩)).exits = false := by
  decide

/-- C9 (amended): for `RMDIR` and `RMDIR_PARENT`, when `rmdir` fails with an
`errno` outside `ENOTEMPTY`, `ENOTDIR`, `EBUSY`, `EEXIST`, the before-action
prints the error through `i_error` and returns to the scenario; the process is
not ended and the descriptor is untouched. -/
theorem C9_rmdir_other_errno_is_reported (b : Build) (fc : FlagConsts) (r : SysResults)
    (path : List Char) (m : Method) (w : World) (hm : m = RMDIR ∨ m = RMDIR_PARENT)
    (h0 : r.rmdir_ret ≠ 0)
    (he : r.rmdir_errno ≠ Errno.ENOTEMPTY ∧ r.rmdir_errno ≠ Errno.ENOTDIR ∧
      r.rmdir_errno ≠ Errno.EBUSY ∧ r.rmdir_errno ≠ Errno.EEXIST) :
    (nfs_cache_flush_before b fc r path m w).exits = false ∧
    (nfs_cache_flush_before b fc r path m w).world.out = w.out ++ ["rmdir(%s) failed: %m"] ∧
    (nfs_cache_flush_before b fc r path m w).world.fd = w.fd := by
  obtain ⟨bf, bd⟩ := b
  obtain ⟨e1, e2, e3, e4⟩ := he
  rcases hm with rfl | rfl <;> cases bf <;> cases bd <;>
    simp [nfs_cache_flush_before, enum_members, flush_rmdir, i_error, Flow.exits,
      Flow.world, World.call, h0, e1, e2, e3, e4]

/-- Witness of C9: `RMDIR` with `rmdir` failing with `EACCES`. -/
theorem C9_rmdir_other_errno_is_reported_witness :
    (nfs_cache_flush_before ⟨true, true⟩ linux_flags sys_rmdir_eacces sample_path RMDIR
      (world_of ⟨2, none, none, 0⟩)).exits = false ∧
    (nfs_cache_flush_before ⟨true, true⟩ linux_flags sys_rmdir_eacces sample_path RMDIR
      (world_of ⟨2, none, none, 0⟩)).world.out
      = (world_of ⟨2, none, none, 0⟩).out ++ ["rmdir(%s) failed: %m"] ∧
    (nfs_cache_flush_before ⟨true, true⟩ linux_flags sys_rmdir_eacces sample_path RMDIR
      (world_of ⟨2, none, none, 0⟩)).world.fd = (world_of ⟨2, none, none, 0⟩).fd :=
  C9_rmdir_other_errno_is_reported ⟨true, true⟩ linux_flags sys_rmdir_eacces sample_path
    RMDIR (world_of ⟨2, none, none, 0⟩) (Or.inl rfl) (by decide) (by decide)

set_option linter.unusedTactic false
set_option linter.unreachableTactic false

/-! ## Execution lemmas -/

theorem ev_now {P : Config → Prop} {c : Config} (h : P c) : Ev P c := ⟨0, h⟩

theorem ev_step {P : Config → Prop} {c c1 : Config} (h : c.step = some c1)
    (h1 : Ev P c1) : Ev P c := by
  obtain ⟨n, hn⟩ := h1
  exact ⟨n + 1, by simpa [Config.run, h] using hn⟩

section client_moves
variable {P : Config → Prop} {s k : Proc} {q1 q2 : List Char} {o1 o2 : List String}

theorem ev_c_send {c : Char} (h : Ev P ⟨k, s, q1 ++ [c], q2, o1, o2⟩) :
    Ev P ⟨send_cmd c k, s, q1, q2, o1, o2⟩ := by
  refine ev_step ?_ h
  simp [Config.step, Proc.step, send_cmd]

theorem ev_c_wait {c : Char} (h : Ev P ⟨k, s, q1, q2, o1, o2⟩) :
    Ev P ⟨wait_cmd c k, s, q1, c :: q2, o1, o2⟩ := by
  refine ev_step ?_ h
  simp [Config.step, Proc.step, wait_cmd, read_cmd]

theorem ev_c_read {c : Char} {kr : Char → Proc} (h : Ev P ⟨kr c, s, q1, q2, o1, o2⟩) :
    Ev P ⟨read_cmd kr, s, q1, c :: q2, o1, o2⟩ := by
  refine ev_step ?_ h
  simp [Config.step, Proc.step, read_cmd]

theorem ev_c_out {ls : List String} (h : Ev P ⟨k, s, q1, q2, o1 ++ ls, o2⟩) :
    Ev P ⟨Proc.out ls k, s, q1, q2, o1, o2⟩ := by
  refine ev_step ?_ h
  simp [Config.step, Proc.step]

theorem ev_c_fs {cond : Prop} [Decidable cond] {msg : String}
    (h : ¬ cond → Ev Config.settled ⟨k, s, q1, q2, o1, o2⟩) :
    Ev Config.settled ⟨fs_check cond msg k, s, q1, q2, o1, o2⟩ := by
  by_cases hc : cond
  · exact ev_now (Or.inl (Or.inl ⟨msg, by simp [fs_check, hc]⟩))
  · simpa [fs_check, hc] using h hc

theorem ev_c_flush {f : FlushObs}
    (h : Ev Config.settled ⟨k, s, q1, q2, o1 ++ f.lines, o2⟩) :
    Ev Config.settled ⟨flush f k, s, q1, q2, o1, o2⟩ := by
  unfold flush
  apply ev_c_out
  cases hf : f.fatal
  · simpa using h
  · exact ev_now (Or.inl (Or.inl ⟨"flush", by simp⟩))

end client_moves

section server_moves
variable {P : Config → Prop} {cl k : Proc} {q1 q2 : List Char} {o1 o2 : List String}

theorem ev_s_send {c : Char} (hb : cl.step q2 false = none)
    (h : Ev P ⟨cl, k, q1, q2 ++ [c], o1, o2⟩) :
    Ev P ⟨cl, send_cmd c k, q1, q2, o1, o2⟩ := by
  refine ev_step ?_ h
  have hg : Proc.gone (send_cmd c k) = false := rfl
  simp only [Config.step, hg, hb]
  simp [Proc.step, send_cmd]

theorem ev_s_wait {c : Char} (hb : cl.step q2 false = none)
    (h : Ev P ⟨cl, k, q1, q2, o1, o2⟩) :
    Ev P ⟨cl, wait_cmd c k, c :: q1, q2, o1, o2⟩ := by
  refine ev_step ?_ h
  have hg : Proc.gone (wait_cmd c k) = false := rfl
  simp only [Config.step, hg, hb]
  simp [Proc.step, wait_cmd, read_cmd]

theorem ev_s_read {c : Char} {kr : Char → Proc} (hb : cl.step q2 false = none)
    (h : Ev P ⟨cl, kr c, q1, q2, o1, o2⟩) :
    Ev P ⟨cl, read_cmd kr, c :: q1, q2, o1, o2⟩ := by
  refine ev_step ?_ h
  have hg : Proc.gone (read_cmd kr) = false := rfl
  simp only [Config.step, hg, hb]
  simp [Proc.step, read_cmd]

theorem ev_s_out {ls : List String} (hb : cl.step q2 false = none)
    (h : Ev P ⟨cl, k, q1, q2, o1, o2 ++ ls⟩) :
    Ev P ⟨cl, Proc.out ls k, q1, q2, o1, o2⟩ := by
  refine ev_step ?_ h
  have hg : Proc.gone (Proc.out ls k) = false := rfl
  simp only [Config.step, hg, hb]
  simp [Proc.step]

theorem ev_s_fs {cond : Prop} [Decidable cond] {msg : String}
    (h : ¬ cond → Ev Config.settled ⟨cl, k, q1, q2, o1, o2⟩) :
    Ev Config.settled ⟨cl, fs_check cond msg k, q1, q2, o1, o2⟩ := by
  by_cases hc : cond
  · exact ev_now (Or.inl (Or.inr ⟨msg, by simp [fs_check, hc]⟩))
  · simpa [fs_check, hc] using h hc

theorem ev_s_flush {f : FlushObs} (hb : cl.step q2 false = none)
    (h : Ev Config.settled ⟨cl, k, q1, q2, o1, o2 ++ f.lines⟩) :
    Ev Config.settled ⟨cl, flush f k, q1, q2, o1, o2⟩ := by
  unfold flush
  apply ev_s_out hb
  cases hf : f.fatal
  · simpa using h
  · exact ev_now (Or.inl (Or.inr ⟨"flush", by simp⟩))

end server_moves

theorem ev_sync {o : Nat → ServerObs} {F : Nat} {o1 o2 : List String} (hF : 0 < F) :
    Ev Config.settled ⟨Proc.ret, server_dispatch o Proc.ret F, [], [], o1, o2⟩ := by
  obtain ⟨f, rfl⟩ := Nat.exists_eq_succ_of_ne_zero (Nat.ne_of_gt hF)
  exact ev_now (Or.inr ⟨rfl, rfl, rfl, o, f, rfl⟩)

theorem ev_c_exit {msg : String} {s : Proc} {q1 q2 : List Char} {o1 o2 : List String} :
    Ev Config.settled ⟨Proc.exit (Fatal.fs msg), s, q1, q2, o1, o2⟩ :=
  ev_now (Or.inl (Or.inl ⟨msg, rfl⟩))

theorem ev_s_exit {msg : String} {cl : Proc} {q1 q2 : List Char} {o1 o2 : List String} :
    Ev Config.settled ⟨cl, Proc.exit (Fatal.fs msg), q1, q2, o1, o2⟩ :=
  ev_now (Or.inl (Or.inr ⟨msg, rfl⟩))

theorem find_S : command_find 'S' = commands.get? 0 := rfl
theorem find_E : command_find 'E' = commands.get? 1 := rfl
theorem find_N : command_find 'N' = commands.get? 2 := rfl
theorem find_F : command_find 'F' = commands.get? 3 := rfl
theorem find_D : command_find 'D' = commands.get? 4 := rfl
theorem find_W : command_find 'W' = commands.get? 5 := rfl
theorem find_P : command_find 'P' = commands.get? 6 := rfl
theorem find_H : command_find 'H' = commands.get? 7 := rfl
theorem find_G : command_find 'G' = commands.get? 8 := rfl

/-! ## Every scenario settles -/

theorem settled_estale (o : EstaleClientObs) (os : Nat → ServerObs) (F : Nat) (hF : 0 < F) :
    Ev Config.settled (scenario_start (nfs_test_estale_client o) os (F + 1)) := by
  unfold scenario_start nfs_test_estale_client
  apply ev_c_send
  refine ev_s_read (by rfl) ?_
  simp only [find_S, commands, List.get?, nfs_test_estale_server]
  repeat (first
      | apply ev_c_send | apply ev_c_wait | apply ev_c_out | apply ev_c_read
      | (apply ev_c_fs; intro _) | apply ev_c_flush
      | refine ev_s_send (by rfl) ?_ | refine ev_s_wait (by rfl) ?_ | refine ev_s_out (by rfl) ?_
      | (apply ev_s_fs; intro _) | refine ev_s_flush (by rfl) ?_)
  split
  · split
    · repeat (first
          | apply ev_c_send | apply ev_c_wait | apply ev_c_out | apply ev_c_read
          | (apply ev_c_fs; intro _) | apply ev_c_flush
          | refine ev_s_send (by rfl) ?_ | refine ev_s_wait (by rfl) ?_ | refine ev_s_out (by rfl) ?_
          | (apply ev_s_fs; intro _) | refine ev_s_flush (by rfl) ?_)
      exact ev_sync hF
    · split
      · repeat (first
            | apply ev_c_send | apply ev_c_wait | apply ev_c_out | apply ev_c_read
            | (apply ev_c_fs; intro _) | apply ev_c_flush
            | refine ev_s_send (by rfl) ?_ | refine ev_s_wait (by rfl) ?_ | refine ev_s_out (by rfl) ?_
            | (apply ev_s_fs; intro _) | refine ev_s_flush (by rfl) ?_)
        exact ev_sync hF
      · exact ev_c_exit
  · split
    · repeat (first
          | apply ev_c_send | apply ev_c_wait | apply ev_c_out | apply ev_c_read
          | (apply ev_c_fs; intro _) | apply ev_c_flush
          | refine ev_s_send (by rfl) ?_ | refine ev_s_wait (by rfl) ?_ | refine ev_s_out (by rfl) ?_
          | (apply ev_s_fs; intro _) | refine ev_s_flush (by rfl) ?_)
      exact ev_sync hF
    · repeat (first
          | apply ev_c_send | apply ev_c_wait | apply ev_c_out | apply ev_c_read
          | (apply ev_c_fs; intro _) | apply ev_c_flush
          | refine ev_s_send (by rfl) ?_ | refine ev_s_wait (by rfl) ?_ | refine ev_s_out (by rfl) ?_
          | (apply ev_s_fs; intro _) | refine ev_s_flush (by rfl) ?_)
      exact ev_sync hF

theorem settled_oexcl (o : OexclClientObs) (os : Nat → ServerObs) (F : Nat) (hF : 0 < F) :
    Ev Config.settled (scenario_start (nfs_test_oexcl_client o) os (F + 1)) := by
  unfold scenario_start nfs_test_oexcl_client
  apply ev_c_send
  repeat (first
      | apply ev_c_send | apply ev_c_wait | apply ev_c_out | apply ev_c_read
      | (apply ev_c_fs; intro _) | apply ev_c_flush
      | refine ev_s_send (by rfl) ?_ | refine ev_s_wait (by rfl) ?_ | refine ev_s_out (by rfl) ?_
      | (apply ev_s_fs; intro _) | refine ev_s_flush (by rfl) ?_)
  refine ev_s_read (by rfl) ?_
  simp only [find_E, commands, List.get?, nfs_test_oexcl_server]
  repeat (first
      | apply ev_c_send | apply ev_c_wait | apply ev_c_out | apply ev_c_read
      | (apply ev_c_fs; intro _) | apply ev_c_flush
      | refine ev_s_send (by rfl) ?_ | refine ev_s_wait (by rfl) ?_ | refine ev_s_out (by rfl) ?_
      | (apply ev_s_fs; intro _) | refine ev_s_flush (by rfl) ?_)
  exact ev_sync hF

theorem settled_write_partial (o : WritePartialClientObs) (os : Nat → ServerObs) (F : Nat)
    (hF : 0 < F) :
    Ev Config.settled (scenario_start (nfs_test_write_partial_client o) os (F + 1)) := by
  unfold scenario_start nfs_test_write_partial_client
  apply ev_c_send
  repeat (first
      | apply ev_c_send | apply ev_c_wait | apply ev_c_out | apply ev_c_read
      | (apply ev_c_fs; intro _) | apply ev_c_flush
      | refine ev_s_send (by rfl) ?_ | refine ev_s_wait (by rfl) ?_ | refine ev_s_out (by rfl) ?_
      | (apply ev_s_fs; intro _) | refine ev_s_flush (by rfl) ?_)
  refine ev_s_read (by rfl) ?_
  simp only [find_P, commands, List.get?, nfs_test_write_partial_server]
  repeat (first
      | apply ev_c_send | apply ev_c_wait | apply ev_c_out | apply ev_c_read
      | (apply ev_c_fs; intro _) | apply ev_c_flush
      | refine ev_s_send (by rfl) ?_ | refine ev_s_wait (by rfl) ?_ | refine ev_s_out (by rfl) ?_
      | (apply ev_s_fs; intro _) | refine ev_s_flush (by rfl) ?_)
  exact ev_sync hF

theorem nsecs_loop (h : Bool) (o : NsecsClientObs) (so : NsecsServerObs)
    (os : Nat → ServerObs) (F : Nat) (hF : 0 < F) :
    ∀ (n i fuel j : Nat) (o1 o2 : List String), n < fuel →
      Ev Config.settled
        ⟨nsecs_client_loop h o (send_cmd '2' (wait_cmd '!' Proc.ret)) n i,
         nsecs_server_loop so (send_cmd '!' (server_dispatch os Proc.ret F)) fuel j,
         [], [], o1, o2⟩ := by
  intro n
  induction n with
  | zero =>
    intro i fuel j o1 o2 hf
    obtain ⟨f, rfl⟩ := Nat.exists_eq_succ_of_ne_zero (Nat.ne_of_gt hf)
    simp only [nsecs_client_loop, nsecs_server_loop]
    repeat (first
        | apply ev_c_send | apply ev_c_wait | apply ev_c_out | apply ev_c_read
        | (apply ev_c_fs; intro _) | apply ev_c_flush
        | refine ev_s_send (by rfl) ?_ | refine ev_s_wait (by rfl) ?_ | refine ev_s_out (by rfl) ?_
        | (apply ev_s_fs; intro _) | refine ev_s_flush (by rfl) ?_)
    refine ev_s_read (by rfl) ?_
    simp only [Char.reduceEq, ne_eq, not_true_eq_false, not_false_eq_true, reduceIte]
    repeat (first
        | apply ev_c_send | apply ev_c_wait | apply ev_c_out | apply ev_c_read
        | (apply ev_c_fs; intro _) | apply ev_c_flush
        | refine ev_s_send (by rfl) ?_ | refine ev_s_wait (by rfl) ?_ | refine ev_s_out (by rfl) ?_
        | (apply ev_s_fs; intro _) | refine ev_s_flush (by rfl) ?_)
    exact ev_sync hF
  | succ n ih =>
    intro i fuel j o1 o2 hf
    obtain ⟨f, rfl⟩ := Nat.exists_eq_succ_of_ne_zero (Nat.ne_of_gt (Nat.lt_of_le_of_lt (Nat.zero_le _) hf))
    simp only [nsecs_client_loop, nsecs_server_loop]
    by_cases hc : ST_NSECS h (o.st_nsec i) % 1000 = 0
    · rw [if_pos hc]
      repeat (first
          | apply ev_c_send | apply ev_c_wait | apply ev_c_out | apply ev_c_read
          | (apply ev_c_fs; intro _) | apply ev_c_flush
          | refine ev_s_send (by rfl) ?_ | refine ev_s_wait (by rfl) ?_ | refine ev_s_out (by rfl) ?_
          | (apply ev_s_fs; intro _) | refine ev_s_flush (by rfl) ?_)
      refine ev_s_read (by rfl) ?_
      simp only [Char.reduceEq, ne_eq, not_true_eq_false, not_false_eq_true, reduceIte]
      repeat (first
          | apply ev_c_send | apply ev_c_wait | apply ev_c_out | apply ev_c_read
          | (apply ev_c_fs; intro _) | apply ev_c_flush
          | refine ev_s_send (by rfl) ?_ | refine ev_s_wait (by rfl) ?_ | refine ev_s_out (by rfl) ?_
          | (apply ev_s_fs; intro _) | refine ev_s_flush (by rfl) ?_)
      exact ih _ _ _ _ _ (by omega)
    · rw [if_neg hc]
      repeat (first
          | apply ev_c_send | apply ev_c_wait | apply ev_c_out | apply ev_c_read
          | (apply ev_c_fs; intro _) | apply ev_c_flush
          | refine ev_s_send (by rfl) ?_ | refine ev_s_wait (by rfl) ?_ | refine ev_s_out (by rfl) ?_
          | (apply ev_s_fs; intro _) | refine ev_s_flush (by rfl) ?_)
      refine ev_s_read (by rfl) ?_
      simp only [Char.reduceEq, ne_eq, not_true_eq_false, not_false_eq_true, reduceIte]
      repeat (first
          | apply ev_c_send | apply ev_c_wait | apply ev_c_out | apply ev_c_read
          | (apply ev_c_fs; intro _) | apply ev_c_flush
          | refine ev_s_send (by rfl) ?_ | refine ev_s_wait (by rfl) ?_ | refine ev_s_out (by rfl) ?_
          | (apply ev_s_fs; intro _) | refine ev_s_flush (by rfl) ?_)
      exact ev_sync hF

theorem settled_nsecs (h : Bool) (o : NsecsClientObs) (os : Nat → ServerObs) (F : Nat)
    (hF : 10 < F) :
    Ev Config.settled (scenario_start (nfs_test_nsecs_client h o) os (F + 1)) := by
  unfold scenario_start nfs_test_nsecs_client
  apply ev_c_send
  refine ev_s_read (by rfl) ?_
  simp only [find_N, commands, List.get?, nfs_test_nsecs_server]
  repeat (first
      | apply ev_c_send | apply ev_c_wait | apply ev_c_out | apply ev_c_read
      | (apply ev_c_fs; intro _) | apply ev_c_flush
      | refine ev_s_send (by rfl) ?_ | refine ev_s_wait (by rfl) ?_ | refine ev_s_out (by rfl) ?_
      | (apply ev_s_fs; intro _) | refine ev_s_flush (by rfl) ?_)
  obtain ⟨f, rfl⟩ := Nat.exists_eq_succ_of_ne_zero (Nat.ne_of_gt (Nat.lt_of_le_of_lt (Nat.zero_le _) hF))
  split
  · repeat (first
        | apply ev_c_send | apply ev_c_wait | apply ev_c_out | apply ev_c_read
        | (apply ev_c_fs; intro _) | apply ev_c_flush
        | refine ev_s_send (by rfl) ?_ | refine ev_s_wait (by rfl) ?_ | refine ev_s_out (by rfl) ?_
        | (apply ev_s_fs; intro _) | refine ev_s_flush (by rfl) ?_)
    simp only [nsecs_server_loop]
    refine ev_s_read (by rfl) ?_
    simp only [Char.reduceEq, ne_eq, not_true_eq_false, not_false_eq_true, reduceIte]
    repeat (first
        | apply ev_c_send | apply ev_c_wait | apply ev_c_out | apply ev_c_read
        | (apply ev_c_fs; intro _) | apply ev_c_flush
        | refine ev_s_send (by rfl) ?_ | refine ev_s_wait (by rfl) ?_ | refine ev_s_out (by rfl) ?_
        | (apply ev_s_fs; intro _) | refine ev_s_flush (by rfl) ?_)
    exact ev_sync (by omega)
  · split
    · exact nsecs_loop h o _ _ _ (by omega) 10 0 _ 0 _ _ (by omega)
    · split
      · repeat (first
            | apply ev_c_send | apply ev_c_wait | apply ev_c_out | apply ev_c_read
            | (apply ev_c_fs; intro _) | apply ev_c_flush
            | refine ev_s_send (by rfl) ?_ | refine ev_s_wait (by rfl) ?_ | refine ev_s_out (by rfl) ?_
            | (apply ev_s_fs; intro _) | refine ev_s_flush (by rfl) ?_)
        simp only [nsecs_server_loop]
        refine ev_s_read (by rfl) ?_
        simp only [Char.reduceEq, ne_eq, not_true_eq_false, not_false_eq_true, reduceIte]
        repeat (first
            | apply ev_c_send | apply ev_c_wait | apply ev_c_out | apply ev_c_read
            | (apply ev_c_fs; intro _) | apply ev_c_flush
            | refine ev_s_send (by rfl) ?_ | refine ev_s_wait (by rfl) ?_ | refine ev_s_out (by rfl) ?_
            | (apply ev_s_fs; intro _) | refine ev_s_flush (by rfl) ?_)
        exact ev_sync (by omega)
      · repeat (first
            | apply ev_c_send | apply ev_c_wait | apply ev_c_out | apply ev_c_read
            | (apply ev_c_fs; intro _) | apply ev_c_flush
            | refine ev_s_send (by rfl) ?_ | refine ev_s_wait (by rfl) ?_ | refine ev_s_out (by rfl) ?_
            | (apply ev_s_fs; intro _) | refine ev_s_flush (by rfl) ?_)
        simp only [nsecs_server_loop]
        refine ev_s_read (by rfl) ?_
        simp only [Char.reduceEq, ne_eq, not_true_eq_false, not_false_eq_true, reduceIte]
        repeat (first
            | apply ev_c_send | apply ev_c_wait | apply ev_c_out | apply ev_c_read
            | (apply ev_c_fs; intro _) | apply ev_c_flush
            | refine ev_s_send (by rfl) ?_ | refine ev_s_wait (by rfl) ?_ | refine ev_s_out (by rfl) ?_
            | (apply ev_s_fs; intro _) | refine ev_s_flush (by rfl) ?_)
        exact ev_sync (by omega)

theorem write_flush_loop (b : Build) (o : WriteFlushClientObs) (so : WriteFlushServerObs)
    (os : Nat → ServerObs) (F : Nat) (hF : 0 < F) :
    ∀ (n method fuel j : Nat) (o1 o2 : List String), n < fuel →
      Ev Config.settled
        ⟨write_flush_client_loop b o (send_cmd '3' (wait_cmd '!' Proc.ret)) n method,
         write_flush_server_loop so (send_cmd '!' (server_dispatch os Proc.ret F)) fuel j,
         [], [], o1, o2⟩ := by
  intro n
  induction n with
  | zero =>
    intro method fuel j o1 o2 hf
    obtain ⟨f, rfl⟩ := Nat.exists_eq_succ_of_ne_zero (Nat.ne_of_gt hf)
    simp only [write_flush_client_loop, write_flush_server_loop]
    repeat (first
        | apply ev_c_send | apply ev_c_wait | apply ev_c_out | apply ev_c_read
        | (apply ev_c_fs; intro _) | apply ev_c_flush
        | refine ev_s_send (by rfl) ?_ | refine ev_s_wait (by rfl) ?_ | refine ev_s_out (by rfl) ?_
        | (apply ev_s_fs; intro _) | refine ev_s_flush (by rfl) ?_)
    refine ev_s_read (by rfl) ?_
    simp only [Char.reduceEq, ne_eq, not_true_eq_false, not_false_eq_true, reduceIte]
    repeat (first
        | apply ev_c_send | apply ev_c_wait | apply ev_c_out | apply ev_c_read
        | (apply ev_c_fs; intro _) | apply ev_c_flush
        | refine ev_s_send (by rfl) ?_ | refine ev_s_wait (by rfl) ?_ | refine ev_s_out (by rfl) ?_
        | (apply ev_s_fs; intro _) | refine ev_s_flush (by rfl) ?_)
    exact ev_sync hF
  | succ n ih =>
    intro method fuel j o1 o2 hf
    obtain ⟨f, rfl⟩ := Nat.exists_eq_succ_of_ne_zero (Nat.ne_of_gt (Nat.lt_of_le_of_lt (Nat.zero_le _) hf))
    simp only [write_flush_client_loop, write_flush_server_loop]
    repeat (first
        | apply ev_c_send | apply ev_c_wait | apply ev_c_out | apply ev_c_read
        | (apply ev_c_fs; intro _) | apply ev_c_flush
        | refine ev_s_send (by rfl) ?_ | refine ev_s_wait (by rfl) ?_ | refine ev_s_out (by rfl) ?_
        | (apply ev_s_fs; intro _) | refine ev_s_flush (by rfl) ?_)
    refine ev_s_read (by rfl) ?_
    simp only [Char.reduceEq, ne_eq, not_true_eq_false, not_false_eq_true, reduceIte]
    repeat (first
        | apply ev_c_send | apply ev_c_wait | apply ev_c_out | apply ev_c_read
        | (apply ev_c_fs; intro _) | apply ev_c_flush
        | refine ev_s_send (by rfl) ?_ | refine ev_s_wait (by rfl) ?_ | refine ev_s_out (by rfl) ?_
        | (apply ev_s_fs; intro _) | refine ev_s_flush (by rfl) ?_)
    exact ih _ _ _ _ _ (by omega)

theorem count_bounds (b : Build) :
    16 ≤ NFS_CACHE_FLUSH_METHOD_COUNT b ∧ NFS_CACHE_FLUSH_METHOD_COUNT b ≤ 19 := by
  obtain ⟨f, d⟩ := b
  cases f <;> cases d <;> decide

theorem settled_write_flush (b : Build) (o : WriteFlushClientObs) (os : Nat → ServerObs)
    (F : Nat) (hF : 19 < F) :
    Ev Config.settled (scenario_start (nfs_test_write_flush_client b o) os (F + 1)) := by
  have hb := count_bounds b
  unfold scenario_start nfs_test_write_flush_client
  obtain ⟨n, hN⟩ : ∃ n, NFS_CACHE_FLUSH_METHOD_COUNT b = n + 1 :=
    Nat.exists_eq_succ_of_ne_zero (by omega)
  obtain ⟨f, rfl⟩ : ∃ f, F = f + 1 := Nat.exists_eq_succ_of_ne_zero (by omega)
  rw [hN]
  simp only [write_flush_client_loop]
  apply ev_c_send
  repeat (first
      | apply ev_c_send | apply ev_c_wait | apply ev_c_out | apply ev_c_read
      | (apply ev_c_fs; intro _) | apply ev_c_flush
      | refine ev_s_send (by rfl) ?_ | refine ev_s_wait (by rfl) ?_ | refine ev_s_out (by rfl) ?_
      | (apply ev_s_fs; intro _) | refine ev_s_flush (by rfl) ?_)
  refine ev_s_read (by rfl) ?_
  simp only [find_W, commands, List.get?, nfs_test_write_flush_server, write_flush_server_loop]
  repeat (first
      | apply ev_c_send | apply ev_c_wait | apply ev_c_out | apply ev_c_read
      | (apply ev_c_fs; intro _) | apply ev_c_flush
      | refine ev_s_send (by rfl) ?_ | refine ev_s_wait (by rfl) ?_ | refine ev_s_out (by rfl) ?_
      | (apply ev_s_fs; intro _) | refine ev_s_flush (by rfl) ?_)
  refine ev_s_read (by rfl) ?_
  simp only [Char.reduceEq, ne_eq, not_true_eq_false, not_false_eq_true, reduceIte]
  repeat (first
      | apply ev_c_send | apply ev_c_wait | apply ev_c_out | apply ev_c_read
      | (apply ev_c_fs; intro _) | apply ev_c_flush
      | refine ev_s_send (by rfl) ?_ | refine ev_s_wait (by rfl) ?_ | refine ev_s_out (by rfl) ?_
      | (apply ev_s_fs; intro _) | refine ev_s_flush (by rfl) ?_)
  refine write_flush_loop b o _ _ _ ?_ _ _ _ _ _ _ ?_ <;> omega

theorem neg_fhandlecache_loop (b : Build) (o : NegClientObs) (so : NegServerObs)
    (os : Nat → ServerObs) (F : Nat) (hF : 0 < F) :
    ∀ (n method fuel j : Nat) (o1 o2 : List String), n < fuel →
      Ev Config.settled
        ⟨neg_fhandlecache_client_loop b o (send_cmd '6' (wait_cmd '!' Proc.ret)) n method,
         neg_fhandlecache_server_loop so (send_cmd '!' (server_dispatch os Proc.ret F)) fuel j,
         [], [], o1, o2⟩ := by
  intro n
  induction n with
  | zero =>
    intro method fuel j o1 o2 hf
    obtain ⟨f, rfl⟩ := Nat.exists_eq_succ_of_ne_zero (Nat.ne_of_gt hf)
    simp only [neg_fhandlecache_client_loop, neg_fhandlecache_server_loop]
    repeat (first
        | apply ev_c_send | apply ev_c_wait | apply ev_c_out | apply ev_c_read
        | (apply ev_c_fs; intro _) | apply ev_c_flush
        | refine ev_s_send (by rfl) ?_ | refine ev_s_wait (by rfl) ?_ | refine ev_s_out (by rfl) ?_
        | (apply ev_s_fs; intro _) | refine ev_s_flush (by rfl) ?_)
    refine ev_s_read (by rfl) ?_
    simp only [Char.reduceEq, ne_eq, not_true_eq_false, not_false_eq_true, reduceIte]
    repeat (first
        | apply ev_c_send | apply ev_c_wait | apply ev_c_out | apply ev_c_read
        | (apply ev_c_fs; intro _) | apply ev_c_flush
        | refine ev_s_send (by rfl) ?_ | refine ev_s_wait (by rfl) ?_ | refine ev_s_out (by rfl) ?_
        | (apply ev_s_fs; intro _) | refine ev_s_flush (by rfl) ?_)
    exact ev_sync hF
  | succ n ih =>
    intro method fuel j o1 o2 hf
    obtain ⟨f, rfl⟩ := Nat.exists_eq_succ_of_ne_zero (Nat.ne_of_gt (Nat.lt_of_le_of_lt (Nat.zero_le _) hf))
    simp only [neg_fhandlecache_client_loop, neg_fhandlecache_server_loop]
    split
    · repeat (first
          | apply ev_c_send | apply ev_c_wait | apply ev_c_out | apply ev_c_read
          | (apply ev_c_fs; intro _) | apply ev_c_flush
          | refine ev_s_send (by rfl) ?_ | refine ev_s_wait (by rfl) ?_ | refine ev_s_out (by rfl) ?_
          | (apply ev_s_fs; intro _) | refine ev_s_flush (by rfl) ?_)
      refine ev_s_read (by rfl) ?_
      simp only [Char.reduceEq, ne_eq, not_true_eq_false, not_false_eq_true, reduceIte]
      repeat (first
          | apply ev_c_send | apply ev_c_wait | apply ev_c_out | apply ev_c_read
          | (apply ev_c_fs; intro _) | apply ev_c_flush
          | refine ev_s_send (by rfl) ?_ | refine ev_s_wait (by rfl) ?_ | refine ev_s_out (by rfl) ?_
          | (apply ev_s_fs; intro _) | refine ev_s_flush (by rfl) ?_)
      exact ev_sync hF
    · repeat (first
          | apply ev_c_send | apply ev_c_wait | apply ev_c_out | apply ev_c_read
          | (apply ev_c_fs; intro _) | apply ev_c_flush
          | refine ev_s_send (by rfl) ?_ | refine ev_s_wait (by rfl) ?_ | refine ev_s_out (by rfl) ?_
          | (apply ev_s_fs; intro _) | refine ev_s_flush (by rfl) ?_)
      refine ev_s_read (by rfl) ?_
      simp only [Char.reduceEq, ne_eq, not_true_eq_false, not_false_eq_true, reduceIte]
      repeat (first
          | apply ev_c_send | apply ev_c_wait | apply ev_c_out | apply ev_c_read
          | (apply ev_c_fs; intro _) | apply ev_c_flush
          | refine ev_s_send (by rfl) ?_ | refine ev_s_wait (by rfl) ?_ | refine ev_s_out (by rfl) ?_
          | (apply ev_s_fs; intro _) | refine ev_s_flush (by rfl) ?_)
      exact ih _ _ _ _ _ (by omega)

theorem settled_neg_fhandlecache (b : Build) (o : NegClientObs) (os : Nat → ServerObs)
    (F : Nat) (hF : 19 < F) :
    Ev Config.settled (scenario_start (nfs_test_neg_fhandlecache_client b o) os (F + 1)) := by
  have hb := count_bounds b
  unfold scenario_start nfs_test_neg_fhandlecache_client
  obtain ⟨N, hN⟩ : ∃ N, N = NFS_CACHE_FLUSH_METHOD_COUNT b := ⟨_, rfl⟩
  rw [← hN]
  apply ev_c_out
  apply ev_c_send
  refine ev_s_read (by rfl) ?_
  simp only [find_G, commands, List.get?, nfs_test_neg_fhandlecache_server]
  repeat (first
      | apply ev_c_send | apply ev_c_wait | apply ev_c_out | apply ev_c_read
      | (apply ev_c_fs; intro _) | apply ev_c_flush
      | refine ev_s_send (by rfl) ?_ | refine ev_s_wait (by rfl) ?_ | refine ev_s_out (by rfl) ?_
      | (apply ev_s_fs; intro _) | refine ev_s_flush (by rfl) ?_)
  refine neg_fhandlecache_loop b o _ _ _ ?_ _ 0 _ 0 _ _ ?_ <;> omega

theorem fhandlecache_loop (b : Build) (o : FhandleClientObs) (so : FhandleServerObs)
    (os : Nat → ServerObs) (F : Nat) (hF : 0 < F) :
    ∀ (n method : Nat) (success : Bool) (fuel j : Nat) (o1 o2 : List String), n < fuel →
      Ev Config.settled
        ⟨fhandlecache_client_loop b o
          (fun success =>
            send_cmd '4' <|
            Proc.out (if success then []
              else ["Looks like there's no way to flush directory's attribute cache\n"]) <|
            wait_cmd '!' Proc.ret) n method success,
         fhandlecache_server_loop so (send_cmd '!' (server_dispatch os Proc.ret F)) fuel j,
         [], [], o1, o2⟩ := by
  intro n
  induction n with
  | zero =>
    intro method success fuel j o1 o2 hf
    obtain ⟨f, rfl⟩ := Nat.exists_eq_succ_of_ne_zero (Nat.ne_of_gt hf)
    simp only [fhandlecache_client_loop, fhandlecache_server_loop]
    repeat (first
        | apply ev_c_send | apply ev_c_wait | apply ev_c_out | apply ev_c_read
        | (apply ev_c_fs; intro _) | apply ev_c_flush
        | refine ev_s_send (by rfl) ?_ | refine ev_s_wait (by rfl) ?_ | refine ev_s_out (by rfl) ?_
        | (apply ev_s_fs; intro _) | refine ev_s_flush (by rfl) ?_)
    refine ev_s_read (by rfl) ?_
    simp only [Char.reduceEq, ne_eq, not_true_eq_false, not_false_eq_true, reduceIte]
    repeat (first
        | apply ev_c_send | apply ev_c_wait | apply ev_c_out | apply ev_c_read
        | (apply ev_c_fs; intro _) | apply ev_c_flush
        | refine ev_s_send (by rfl) ?_ | refine ev_s_wait (by rfl) ?_ | refine ev_s_out (by rfl) ?_
        | (apply ev_s_fs; intro _) | refine ev_s_flush (by rfl) ?_)
    exact ev_sync hF
  | succ n ih =>
    intro method success fuel j o1 o2 hf
    obtain ⟨f, rfl⟩ := Nat.exists_eq_succ_of_ne_zero (Nat.ne_of_gt (Nat.lt_of_le_of_lt (Nat.zero_le _) hf))
    simp only [fhandlecache_client_loop, fhandlecache_server_loop]
    repeat (first
        | apply ev_c_send | apply ev_c_wait | apply ev_c_out | apply ev_c_read
        | (apply ev_c_fs; intro _) | apply ev_c_flush
        | refine ev_s_send (by rfl) ?_ | refine ev_s_wait (by rfl) ?_ | refine ev_s_out (by rfl) ?_
        | (apply ev_s_fs; intro _) | refine ev_s_flush (by rfl) ?_)
    split
    · repeat (first
          | apply ev_c_send | apply ev_c_wait | apply ev_c_out | apply ev_c_read
          | (apply ev_c_fs; intro _) | apply ev_c_flush
          | refine ev_s_send (by rfl) ?_ | refine ev_s_wait (by rfl) ?_ | refine ev_s_out (by rfl) ?_
          | (apply ev_s_fs; intro _) | refine ev_s_flush (by rfl) ?_)
      refine ev_s_read (by rfl) ?_
      simp only [Char.reduceEq, ne_eq, not_true_eq_false, not_false_eq_true, reduceIte]
      repeat (first
          | apply ev_c_send | apply ev_c_wait | apply ev_c_out | apply ev_c_read
          | (apply ev_c_fs; intro _) | apply ev_c_flush
          | refine ev_s_send (by rfl) ?_ | refine ev_s_wait (by rfl) ?_ | refine ev_s_out (by rfl) ?_
          | (apply ev_s_fs; intro _) | refine ev_s_flush (by rfl) ?_)
      exact ih _ _ _ _ _ _ (by omega)
    · split
      · repeat (first
            | apply ev_c_send | apply ev_c_wait | apply ev_c_out | apply ev_c_read
            | (apply ev_c_fs; intro _) | apply ev_c_flush
            | refine ev_s_send (by rfl) ?_ | refine ev_s_wait (by rfl) ?_ | refine ev_s_out (by rfl) ?_
            | (apply ev_s_fs; intro _) | refine ev_s_flush (by rfl) ?_)
        refine ev_s_read (by rfl) ?_
        simp only [Char.reduceEq, ne_eq, not_true_eq_false, not_false_eq_true, reduceIte]
        repeat (first
            | apply ev_c_send | apply ev_c_wait | apply ev_c_out | apply ev_c_read
            | (apply ev_c_fs; intro _) | apply ev_c_flush
            | refine ev_s_send (by rfl) ?_ | refine ev_s_wait (by rfl) ?_ | refine ev_s_out (by rfl) ?_
            | (apply ev_s_fs; intro _) | refine ev_s_flush (by rfl) ?_)
        exact ih _ _ _ _ _ _ (by omega)
      · exact ev_c_exit

theorem settled_fhandlecache (b : Build) (o : FhandleClientObs) (os : Nat → ServerObs)
    (F : Nat) (hF : 19 < F) :
    Ev Config.settled (scenario_start (nfs_test_fhandlecache_client b o) os (F + 1)) := by
  have hb := count_bounds b
  unfold scenario_start nfs_test_fhandlecache_client
  obtain ⟨N, hN⟩ : ∃ N, N = NFS_CACHE_FLUSH_METHOD_COUNT b := ⟨_, rfl⟩
  rw [← hN]
  apply ev_c_out
  apply ev_c_send
  refine ev_s_read (by rfl) ?_
  simp only [find_H, commands, List.get?, nfs_test_fhandlecache_server]
  repeat (first
      | apply ev_c_send | apply ev_c_wait | apply ev_c_out | apply ev_c_read
      | (apply ev_c_fs; intro _) | apply ev_c_flush
      | refine ev_s_send (by rfl) ?_ | refine ev_s_wait (by rfl) ?_ | refine ev_s_out (by rfl) ?_
      | (apply ev_s_fs; intro _) | refine ev_s_flush (by rfl) ?_)
  refine fhandlecache_loop b o _ _ _ ?_ _ 0 _ _ 0 _ _ ?_ <;> omega

theorem next_char_spec (m : Nat) (hm : m < 19) :
    next_char (Char.ofNat (98 + m)) = Char.ofNat (98 + (m + 1)) ∧
    Char.ofNat (98 + (m + 1)) ≠ '5' := by
  interval_cases m <;> decide

theorem data_cache_loop (b : Build) (h : Bool) (o : DataClientObs) (so : DataServerObs)
    (os : Nat → ServerObs) (F : Nat) (hF : 0 < F) :
    ∀ (c method sf j : Nat) (o1 o2 : List String),
      method + (c + 1) = NFS_CACHE_FLUSH_METHOD_COUNT b → c < sf →
      Ev Config.settled
        ⟨data_cache_client_loop b h o (send_cmd '5' (wait_cmd '!' Proc.ret)) (c + 1) method
          (Char.ofNat (98 + method)),
         data_cache_server_loop so (send_cmd '!' (server_dispatch os Proc.ret F)) sf j
          (Char.ofNat (98 + method)),
         [], [], o1, o2⟩ := by
  have hb := count_bounds b
  intro c
  induction c with
  | zero =>
    intro method sf j o1 o2 hm hf
    obtain ⟨f, rfl⟩ := Nat.exists_eq_succ_of_ne_zero (Nat.ne_of_gt hf)
    simp only [data_cache_client_loop, data_cache_server_loop]
    repeat (first
        | apply ev_c_send | apply ev_c_wait | apply ev_c_out | apply ev_c_read
        | (apply ev_c_fs; intro _) | apply ev_c_flush
        | refine ev_s_send (by rfl) ?_ | refine ev_s_wait (by rfl) ?_ | refine ev_s_out (by rfl) ?_
        | (apply ev_s_fs; intro _) | refine ev_s_flush (by rfl) ?_)
    rw [if_pos (by omega)]
    repeat (first
        | apply ev_c_send | apply ev_c_wait | apply ev_c_out | apply ev_c_read
        | (apply ev_c_fs; intro _) | apply ev_c_flush
        | refine ev_s_send (by rfl) ?_ | refine ev_s_wait (by rfl) ?_ | refine ev_s_out (by rfl) ?_
        | (apply ev_s_fs; intro _) | refine ev_s_flush (by rfl) ?_)
    refine ev_s_read (by rfl) ?_
    simp only [Char.reduceEq, ne_eq, not_true_eq_false, not_false_eq_true, reduceIte]
    repeat (first
        | apply ev_c_send | apply ev_c_wait | apply ev_c_out | apply ev_c_read
        | (apply ev_c_fs; intro _) | apply ev_c_flush
        | refine ev_s_send (by rfl) ?_ | refine ev_s_wait (by rfl) ?_ | refine ev_s_out (by rfl) ?_
        | (apply ev_s_fs; intro _) | refine ev_s_flush (by rfl) ?_)
    exact ev_sync hF
  | succ c ih =>
    intro method sf j o1 o2 hm hf
    obtain ⟨f, rfl⟩ := Nat.exists_eq_succ_of_ne_zero (Nat.ne_of_gt (Nat.lt_of_le_of_lt (Nat.zero_le _) hf))
    obtain ⟨hn1, hn2⟩ := next_char_spec method (by omega)
    rw [data_cache_client_loop, data_cache_server_loop]
    repeat (first
        | apply ev_c_send | apply ev_c_wait | apply ev_c_out | apply ev_c_read
        | (apply ev_c_fs; intro _) | apply ev_c_flush
        | refine ev_s_send (by rfl) ?_ | refine ev_s_wait (by rfl) ?_ | refine ev_s_out (by rfl) ?_
        | (apply ev_s_fs; intro _) | refine ev_s_flush (by rfl) ?_)
    rw [if_neg (by omega), hn1]
    apply ev_c_send
    refine ev_s_read (by rfl) ?_
    simp only [hn2, ne_eq, not_true_eq_false, not_false_eq_true, reduceIte]
    exact ih _ _ _ _ _ (by omega) (by omega)

theorem settled_data_cache (b : Build) (h : Bool) (o : DataClientObs) (os : Nat → ServerObs)
    (F : Nat) (hF : 19 < F) (hd : o.initial_read_ok) :
    Ev Config.settled (scenario_start (nfs_test_data_cache_client b h o) os (F + 1)) := by
  have hb := count_bounds b
  obtain ⟨hd1, hd2⟩ := hd
  unfold scenario_start nfs_test_data_cache_client
  obtain ⟨n, hN⟩ : ∃ n, NFS_CACHE_FLUSH_METHOD_COUNT b = n + 1 :=
    Nat.exists_eq_succ_of_ne_zero (by omega)
  rw [hN, if_neg hd1, if_neg (by simp [hd2])]
  apply ev_c_out
  apply ev_c_send
  refine ev_s_read (by rfl) ?_
  simp only [find_D, commands, List.get?, nfs_test_data_cache_server]
  repeat (first
      | apply ev_c_send | apply ev_c_wait | apply ev_c_out | apply ev_c_read
      | (apply ev_c_fs; intro _) | apply ev_c_flush
      | refine ev_s_send (by rfl) ?_ | refine ev_s_wait (by rfl) ?_ | refine ev_s_out (by rfl) ?_
      | (apply ev_s_fs; intro _) | refine ev_s_flush (by rfl) ?_)
  exact data_cache_loop b h o _ _ _ (by omega) n 0 F 0 _ _ (by omega) (by omega)

theorem fattrcache_loop (b : Build) (o : FattrClientObs) (so : FattrServerObs)
    (os : Nat → ServerObs) (F : Nat) (hF : 0 < F) :
    ∀ (cf method fails r sf i : Nat) (o1 o2 : List String),
      fails < 3 → (NFS_CACHE_FLUSH_METHOD_COUNT b ≤ method → fails = 0) →
      3 * (NFS_CACHE_FLUSH_METHOD_COUNT b - method) < cf + fails →
      3 * (NFS_CACHE_FLUSH_METHOD_COUNT b - method) ≤ sf + fails →
      Ev Config.settled
        ⟨fattrcache_client_loop b o Proc.ret cf method fails r,
         read_cmd (fun cmd =>
           if cmd = '2' then
             fattrcache_server_loop so (send_cmd '!' (server_dispatch os Proc.ret F)) sf i
           else if cmd ≠ '4' then Proc.exit Fatal.expected_4
           else send_cmd '!' (server_dispatch os Proc.ret F)),
         [], [], o1, o2⟩ := by
  intro cf
  induction cf with
  | zero =>
    intro method fails r sf i o1 o2 h1 h2 h3 h4
    omega
  | succ c ih =>
    intro method fails r sf i o1 o2 h1 h2 h3 h4
    rw [fattrcache_client_loop]
    by_cases hm : method < NFS_CACHE_FLUSH_METHOD_COUNT b
    · rw [if_pos hm]
      obtain ⟨f, rfl⟩ : ∃ f, sf = f + 1 := Nat.exists_eq_succ_of_ne_zero (by omega)
      repeat (first
          | apply ev_c_send | apply ev_c_wait | apply ev_c_out | apply ev_c_read
          | (apply ev_c_fs; intro _) | apply ev_c_flush
          | refine ev_s_send (by rfl) ?_ | refine ev_s_wait (by rfl) ?_ | refine ev_s_out (by rfl) ?_
          | (apply ev_s_fs; intro _) | refine ev_s_flush (by rfl) ?_)
      refine ev_s_read (by rfl) ?_
      simp only [Char.reduceEq, ne_eq, not_true_eq_false, not_false_eq_true, reduceIte,
        fattrcache_server_loop]
      repeat (first
          | apply ev_c_send | apply ev_c_wait | apply ev_c_out | apply ev_c_read
          | (apply ev_c_fs; intro _) | apply ev_c_flush
          | refine ev_s_send (by rfl) ?_ | refine ev_s_wait (by rfl) ?_ | refine ev_s_out (by rfl) ?_
          | (apply ev_s_fs; intro _) | refine ev_s_flush (by rfl) ?_)
      by_cases hs : o.st1_mtime r = o.st2_mtime r
      · rw [if_pos hs]
        repeat (first
            | apply ev_c_send | apply ev_c_wait | apply ev_c_out | apply ev_c_read
            | (apply ev_c_fs; intro _) | apply ev_c_flush
            | refine ev_s_send (by rfl) ?_ | refine ev_s_wait (by rfl) ?_ | refine ev_s_out (by rfl) ?_
            | (apply ev_s_fs; intro _) | refine ev_s_flush (by rfl) ?_)
        exact ih _ _ _ _ _ _ _ (by omega) (by omega) (by omega) (by omega)
      · rw [if_neg hs]
        by_cases h3f : fails + 1 = 3
        · rw [if_pos h3f]
          repeat (first
              | apply ev_c_send | apply ev_c_wait | apply ev_c_out | apply ev_c_read
              | (apply ev_c_fs; intro _) | apply ev_c_flush
              | refine ev_s_send (by rfl) ?_ | refine ev_s_wait (by rfl) ?_ | refine ev_s_out (by rfl) ?_
              | (apply ev_s_fs; intro _) | refine ev_s_flush (by rfl) ?_)
          refine ev_s_read (by rfl) ?_
          simp only [Char.reduceEq, ne_eq, not_true_eq_false, not_false_eq_true, reduceIte]
          repeat (first
              | apply ev_c_send | apply ev_c_wait | apply ev_c_out | apply ev_c_read
              | (apply ev_c_fs; intro _) | apply ev_c_flush
              | refine ev_s_send (by rfl) ?_ | refine ev_s_wait (by rfl) ?_ | refine ev_s_out (by rfl) ?_
              | (apply ev_s_fs; intro _) | refine ev_s_flush (by rfl) ?_)
          exact ev_sync hF
        · rw [if_neg h3f]
          exact ih _ _ _ _ _ _ _ (by omega) (by omega) (by omega) (by omega)
    · rw [if_neg hm]
      repeat (first
          | apply ev_c_send | apply ev_c_wait | apply ev_c_out | apply ev_c_read
          | (apply ev_c_fs; intro _) | apply ev_c_flush
          | refine ev_s_send (by rfl) ?_ | refine ev_s_wait (by rfl) ?_ | refine ev_s_out (by rfl) ?_
          | (apply ev_s_fs; intro _) | refine ev_s_flush (by rfl) ?_)
      refine ev_s_read (by rfl) ?_
      simp only [Char.reduceEq, ne_eq, not_true_eq_false, not_false_eq_true, reduceIte]
      repeat (first
          | apply ev_c_send | apply ev_c_wait | apply ev_c_out | apply ev_c_read
          | (apply ev_c_fs; intro _) | apply ev_c_flush
          | refine ev_s_send (by rfl) ?_ | refine ev_s_wait (by rfl) ?_ | refine ev_s_out (by rfl) ?_
          | (apply ev_s_fs; intro _) | refine ev_s_flush (by rfl) ?_)
      exact ev_sync hF

theorem settled_fattrcache (b : Build) (o : FattrClientObs) (os : Nat → ServerObs)
    (F : Nat) (hF : 60 < F) :
    Ev Config.settled (scenario_start (nfs_test_fattrcache_client b o) os (F + 1)) := by
  have hb := count_bounds b
  unfold scenario_start nfs_test_fattrcache_client
  obtain ⟨c, hc⟩ : ∃ c, 3 * NFS_CACHE_FLUSH_METHOD_COUNT b = c + 1 :=
    Nat.exists_eq_succ_of_ne_zero (by omega)
  obtain ⟨f, rfl⟩ : ∃ f, F = f + 1 := Nat.exists_eq_succ_of_ne_zero (by omega)
  rw [hc, fattrcache_client_loop, if_pos (by omega)]
  apply ev_c_out
  apply ev_c_send
  refine ev_s_read (by rfl) ?_
  simp only [find_F, commands, List.get?, nfs_test_fattrcache_server, fattrcache_server_loop]
  repeat (first
      | apply ev_c_send | apply ev_c_wait | apply ev_c_out | apply ev_c_read
      | (apply ev_c_fs; intro _) | apply ev_c_flush
      | refine ev_s_send (by rfl) ?_ | refine ev_s_wait (by rfl) ?_ | refine ev_s_out (by rfl) ?_
      | (apply ev_s_fs; intro _) | refine ev_s_flush (by rfl) ?_)
  by_cases hs : o.st1_mtime 0 = o.st2_mtime 0
  · rw [if_pos hs]
    repeat (first
        | apply ev_c_send | apply ev_c_wait | apply ev_c_out | apply ev_c_read
        | (apply ev_c_fs; intro _) | apply ev_c_flush
        | refine ev_s_send (by rfl) ?_ | refine ev_s_wait (by rfl) ?_ | refine ev_s_out (by rfl) ?_
        | (apply ev_s_fs; intro _) | refine ev_s_flush (by rfl) ?_)
    exact fattrcache_loop b o _ _ _ (by omega) _ _ _ _ _ _ _ _
      (by omega) (by omega) (by omega) (by omega)
  · rw [if_neg hs, if_neg (by omega)]
    exact fattrcache_loop b o _ _ _ (by omega) _ _ _ _ _ _ _ _
      (by omega) (by omega) (by omega) (by omega)


/-! ## The run of the system -/

theorem run_of_step_none {c : Config} (h : c.step = none) : ∀ n, Config.run n c = c := by
  intro n
  cases n with
  | zero => rfl
  | succ n => simp [Config.run, h]

theorem run_add (a b : Nat) : ∀ c : Config, Config.run (a + b) c = Config.run b (Config.run a c) := by
  induction a with
  | zero => intro c; simp [Config.run]
  | succ a ih =>
    intro c
    rw [Nat.add_right_comm]
    cases hs : c.step with
    | none => simp [Config.run, hs, run_of_step_none hs]
    | some c1 => simp [Config.run, hs, ih]

theorem aborted_step {c c1 : Config} (h : c.aborted) (hs : c.step = some c1) : c1.aborted := by
  obtain ⟨cl, sv, q1, q2, o1, o2⟩ := c
  simp only [Config.step] at hs
  rcases h with ⟨f, hf⟩ | ⟨f, hf⟩ | hf | hf <;> simp only at hf <;> subst hf
  · have h1 : (Proc.exit f).step q2 sv.gone = none := rfl
    rw [h1] at hs
    cases h2 : Proc.step sv q1 (Proc.exit f).gone with
    | none => rw [h2] at hs; cases hs
    | some r =>
      rw [h2] at hs
      obtain ⟨p, i, s, pr⟩ := r
      simp only [Option.some.injEq] at hs
      subst hs
      exact Or.inl ⟨f, rfl⟩
  · cases h1 : Proc.step cl q2 (Proc.exit f).gone with
    | none =>
      have h2 : (Proc.exit f).step q1 cl.gone = none := rfl
      rw [h1, h2] at hs
      cases hs
    | some r =>
      rw [h1] at hs
      obtain ⟨p, i, s, pr⟩ := r
      simp only [Option.some.injEq] at hs
      subst hs
      exact Or.inr (Or.inl ⟨f, rfl⟩)
  · have h1 : Proc.nofuel.step q2 sv.gone = none := rfl
    rw [h1] at hs
    cases h2 : Proc.step sv q1 Proc.nofuel.gone with
    | none => rw [h2] at hs; cases hs
    | some r =>
      rw [h2] at hs
      obtain ⟨p, i, s, pr⟩ := r
      simp only [Option.some.injEq] at hs
      subst hs
      exact Or.inr (Or.inr (Or.inl rfl))
  · cases h1 : Proc.step cl q2 Proc.nofuel.gone with
    | none =>
      have h2 : Proc.nofuel.step q1 cl.gone = none := rfl
      rw [h1, h2] at hs
      cases hs
    | some r =>
      rw [h1] at hs
      obtain ⟨p, i, s, pr⟩ := r
      simp only [Option.some.injEq] at hs
      subst hs
      exact Or.inr (Or.inr (Or.inr rfl))

theorem aborted_run : ∀ (n : Nat) (c : Config), c.aborted → (Config.run n c).aborted := by
  intro n
  induction n with
  | zero => intro c h; exact h
  | succ n ih =>
    intro c h
    cases hs : c.step with
    | none => simpa [Config.run, hs] using h
    | some c1 =>
      simp only [Config.run, hs]
      exact ih c1 (aborted_step h hs)

theorem in_sync_step {c : Config} (h : c.in_sync) : c.step = none := by
  obtain ⟨cl, sv, q1, q2, o1, o2⟩ := c
  obtain ⟨h1, h2, h3, o, f, h4⟩ := h
  simp only at h1 h2 h3 h4
  subst h1 h2 h3 h4
  rfl

theorem in_sync_not_aborted {c : Config} (h : c.in_sync) : ¬ c.aborted := by
  obtain ⟨cl, sv, q1, q2, o1, o2⟩ := c
  obtain ⟨h1, h2, h3, o, f, h4⟩ := h
  simp only at h1 h2 h3 h4
  subst h1 h2 h3 h4
  rintro (⟨f, hf⟩ | ⟨f, hf⟩ | hf | hf) <;> simp [server_dispatch, read_cmd] at hf

theorem never_aborted_of_in_sync {c : Config} {n : Nat} (h : (Config.run n c).in_sync) :
    ∀ m, ¬ (Config.run m c).aborted := by
  intro m hm
  rcases Nat.le_total m n with hle | hle
  · obtain ⟨d, rfl⟩ := Nat.exists_eq_add_of_le hle
    rw [run_add] at h
    exact in_sync_not_aborted h (aborted_run d _ hm)
  · obtain ⟨d, rfl⟩ := Nat.exists_eq_add_of_le hle
    rw [run_add, run_of_step_none (in_sync_step h)] at hm
    exact in_sync_not_aborted h hm

theorem fs_fatal_aborted {c : Config} (h : c.fs_fatal) : c.aborted := by
  rcases h with ⟨m, hm⟩ | ⟨m, hm⟩
  · exact Or.inl ⟨_, hm⟩
  · exact Or.inr (Or.inl ⟨_, hm⟩)

theorem settled_command (b : Build) (h : Bool) (cmd : command) (hc : cmd ∈ commands)
    (oc : ClientObs) (os : Nat → ServerObs) (fuel : Nat) (hfuel : 64 ≤ fuel)
    (hd : cmd.cmd = 'D' → oc.data_cache.initial_read_ok) :
    Ev Config.settled (scenario_start (cmd.client b h oc) os fuel) := by
  obtain ⟨F, rfl⟩ : ∃ F, fuel = F + 1 := Nat.exists_eq_succ_of_ne_zero (by omega)
  simp only [commands, List.mem_cons, List.mem_singleton, List.not_mem_nil, or_false] at hc
  rcases hc with rfl | rfl | rfl | rfl | rfl | rfl | rfl | rfl | rfl
  · exact settled_estale _ os F (by omega)
  · exact settled_oexcl _ os F (by omega)
  · exact settled_nsecs h _ os F (by omega)
  · exact settled_fattrcache b _ os F (by omega)
  · exact settled_data_cache b h _ os F (by omega) (hd rfl)
  · exact settled_write_flush b _ os F (by omega)
  · exact settled_write_partial _ os F (by omega)
  · exact settled_fhandlecache b _ os F (by omega)
  · exact settled_neg_fhandlecache b _ os F (by omega)

/-! ## The claims on the control protocol -/

/-- C1: for every entry of the `commands` table, every build and every
sequence of file observations (with a non-empty all-`a` initial read when the
entry is the data-cache one) under which no process ever calls `i_fatal` for a
file operation, the run of the entry's client procedure against the dispatch
loop of the server reaches a configuration in which the client procedure has
returned, both directions of the socket are empty and the server is at the top
of its dispatch loop; and at no point of the run has a process ended in an
abort (`Unexpected command`, `Connection lost`, ...) or a loop of the model
run out of its bound. -/
theorem C1_protocol_symmetry (b : Build) (h : Bool) (cmd : command) (hc : cmd ∈ commands)
    (oc : ClientObs) (os : Nat → ServerObs) (fuel : Nat) (hfuel : 64 ≤ fuel)
    (hd : cmd.cmd = 'D' → oc.data_cache.initial_read_ok)
    (hfs : ∀ n, ¬ (Config.run n (scenario_start (cmd.client b h oc) os fuel)).fs_fatal) :
    ∃ n, (Config.run n (scenario_start (cmd.client b h oc) os fuel)).in_sync ∧
      ∀ m, ¬ (Config.run m (scenario_start (cmd.client b h oc) os fuel)).aborted := by
  obtain ⟨n, hn⟩ := settled_command b h cmd hc oc os fuel hfuel hd
  rcases hn with hn | hn
  · exact absurd hn (hfs n)
  · exact ⟨n, hn, never_aborted_of_in_sync hn⟩

theorem oexcl_sample_in_sync :
    (Config.run 9 (scenario_start (entry_oexcl.client ⟨true, true⟩ true client_obs_ok)
      (fun _ => server_obs_ok) 64)).in_sync := by
  refine ⟨rfl, rfl, rfl, fun _ => server_obs_ok, 62, ?_⟩
  rfl

/-- Witness of C1: the exclusive-create scenario with observations in which
every call ends as the scenario expects. -/
theorem C1_protocol_symmetry_witness :
    ∃ n, (Config.run n (scenario_start (entry_oexcl.client ⟨true, true⟩ true client_obs_ok)
        (fun _ => server_obs_ok) 64)).in_sync ∧
      ∀ m, ¬ (Config.run m (scenario_start (entry_oexcl.client ⟨true, true⟩ true client_obs_ok)
        (fun _ => server_obs_ok) 64)).aborted :=
  C1_protocol_symmetry ⟨true, true⟩ true entry_oexcl
    (List.mem_cons_of_mem _ (List.mem_cons_self _ _)) client_obs_ok (fun _ => server_obs_ok) 64
    (by decide) (by decide)
    (fun n hn => never_aborted_of_in_sync oexcl_sample_in_sync n (fs_fatal_aborted hn))

/-- C2: `wait_cmd(fd, wanted)` is one `read` of one byte.  With a byte `c` at
the head of the inbox, the step of the process takes exactly that byte and
goes on with the caller when `c` is the wanted byte, and has ended the process
(`Unexpected command`) otherwise; when the `read` returns 0 the process has
ended (`Connection lost`), as for every result below 0 (`read(cmd) failed`);
a process that has ended makes no further step. -/
theorem C2_wait_cmd (wanted c : Char) (k : Proc) (inbox : List Char) (peer_gone : Bool) :
    (wait_cmd wanted k).step (c :: inbox) peer_gone
      = some (if c = wanted then k else Proc.exit (Fatal.unexpected c wanted), inbox, [], []) ∧
    (wait_cmd wanted k).step [] true = some (Proc.exit Fatal.connection_lost, [], [], []) ∧
    (wait_cmd wanted k).step [] false = none ∧
    (∃ f, wait_cmd wanted k = Proc.read f ∧
      ∀ (r : Int) (x : Char),
        (0 < r → x = wanted → f r x = k) ∧
        (0 < r → x ≠ wanted → f r x = Proc.exit (Fatal.unexpected x wanted)) ∧
        (r = 0 → f r x = Proc.exit Fatal.connection_lost) ∧
        (r < 0 → f r x = Proc.exit Fatal.read_failed)) ∧
    (∀ (f : Fatal) (q : List Char) (g : Bool), (Proc.exit f).step q g = none) := by
  refine ⟨?_, ?_, ?_, ⟨_, rfl, ?_⟩, ?_⟩
  · by_cases hcw : c = wanted
    · subst hcw; simp [wait_cmd, read_cmd, Proc.step]
    · have : ¬ wanted = c := fun h => hcw h.symm
      simp [wait_cmd, read_cmd, Proc.step, hcw, this]
  · simp [wait_cmd, read_cmd, Proc.step]
  · simp [wait_cmd, read_cmd, Proc.step]
  · intro r x
    refine ⟨?_, ?_, ?_, ?_⟩
    · intro hr hx; subst hx; simp [not_le.mpr hr]
    · intro hr hx
      have : ¬ wanted = x := fun h => hx h.symm
      simp [not_le.mpr hr, this]
    · intro hr; subst hr; simp
    · intro hr
      have h1 : r ≤ 0 := le_of_lt hr
      have h2 : r ≠ 0 := ne_of_lt hr
      simp [h1, h2]
  · intro f q g; rfl

/-- C10 fails on the code: when the initial `read` of the data-cache client
returns 0 bytes, the procedure returns to its caller and its last socket
action is the receipt of `1`, not of the terminator. -/
theorem C10_data_cache_returns_early :
    ((nfs_test_data_cache_client ⟨true, true⟩ true data_obs_empty_read Proc.ret).trace
        ['1', '3', '!']).1 = [Action.sent 'D', Action.received '1'] ∧
    ((nfs_test_data_cache_client ⟨true, true⟩ true data_obs_empty_read Proc.ret).trace
        ['1', '3', '!']).2.returned = true := by
  decide

/-! ## The command table -/

theorem trace_send_head (c : Char) (k : Proc) (inbox : List Char) :
    ((send_cmd c k).trace inbox).1.head? = some (Action.sent c) := by
  simp [send_cmd, Proc.trace]

/-- C11: for every entry of the `commands` table, whatever the observations and
whatever arrives on the socket, the first socket action of the entry's client
procedure is the sending of the entry's own byte; `command_find` maps that byte
to the same entry, so the dispatch loop of the server, on reading it, calls the
entry's server procedure (and sends the terminator after it). -/
theorem C11_client_sends_own_byte (cmd : command) (hc : cmd ∈ commands) (b : Build) (h : Bool)
    (o : ClientObs) (k : Proc) (inbox : List Char) (os : Nat → ServerObs) (ks : Proc)
    (fuel : Nat) :
    ((cmd.client b h o k).trace inbox).1.head? = some (Action.sent cmd.cmd) ∧
    command_find cmd.cmd = some cmd ∧
    ∃ f, server_dispatch os ks (fuel + 1) = read_cmd f ∧
      f cmd.cmd = cmd.server (os 0) fuel
        (send_cmd '!' (server_dispatch (fun j => os (j + 1)) ks fuel)) := by
  simp only [commands, List.mem_cons, List.mem_singleton, List.not_mem_nil, or_false] at hc
  rcases hc with rfl | rfl | rfl | rfl | rfl | rfl | rfl | rfl | rfl
  · exact ⟨trace_send_head _ _ _, rfl, _, rfl, rfl⟩
  · exact ⟨trace_send_head _ _ _, rfl, _, rfl, rfl⟩
  · exact ⟨trace_send_head _ _ _, rfl, _, rfl, rfl⟩
  · exact ⟨trace_send_head _ _ _, rfl, _, rfl, rfl⟩
  · exact ⟨trace_send_head _ _ _, rfl, _, rfl, rfl⟩
  · exact ⟨trace_send_head _ _ _, rfl, _, rfl, rfl⟩
  · exact ⟨trace_send_head _ _ _, rfl, _, rfl, rfl⟩
  · exact ⟨trace_send_head _ _ _, rfl, _, rfl, rfl⟩
  · exact ⟨trace_send_head _ _ _, rfl, _, rfl, rfl⟩

/-- Witness of C11: the entry `ENTRY('E', oexcl)`. -/
theorem C11_client_sends_own_byte_witness :
    ((entry_oexcl.client ⟨true, true⟩ true client_obs_ok Proc.ret).trace ['2', '!']).1.head?
      = some (Action.sent entry_oexcl.cmd) ∧
    command_find entry_oexcl.cmd = some entry_oexcl ∧
    ∃ f, server_dispatch (fun _ => server_obs_ok) Proc.ret (63 + 1) = read_cmd f ∧
      f entry_oexcl.cmd = entry_oexcl.server ((fun _ => server_obs_ok) 0) 63
        (send_cmd '!' (server_dispatch (fun j => (fun _ => server_obs_ok) (j + 1)) Proc.ret 63)) :=
  C11_client_sends_own_byte entry_oexcl (List.mem_cons_of_mem _ (List.mem_cons_self _ _))
    ⟨true, true⟩ true client_obs_ok Proc.ret ['2', '!'] (fun _ => server_obs_ok) Proc.ret 63

theorem command_find_none_of_not_mem (c : Char)
    (hc : c ∉ ['S', 'E', 'N', 'F', 'D', 'W', 'P', 'H', 'G']) : command_find c = none := by
  simp only [List.mem_cons, List.mem_singleton, List.not_mem_nil, or_false, not_or] at hc
  obtain ⟨h1, h2, h3, h4, h5, h6, h7, h8, h9⟩ := hc
  have e : ∀ x : Char, ¬ c = x → (x == c) = false := by
    intro x hx
    simp only [beq_eq_false_iff_ne, ne_eq]
    exact fun h => hx h.symm
  simp [command_find, commands, List.find?, e _ h1, e _ h2, e _ h3, e _ h4, e _ h5, e _ h6,
    e _ h7, e _ h8, e _ h9]

/-- C12: the identifying bytes of the table are `S E N F D W P H G`, pairwise
distinct; `command_find` returns the entry of a registered byte and `NULL` for
every other byte, among them the end-of-session byte `X` and the terminator
`!`; one pass of the dispatch loop reads one byte and, for a registered byte,
runs the entry's server procedure, sends one `!` and loops, while for any other
byte it leaves the loop. -/
theorem C12_command_find :
    commands.map (fun e => e.cmd) = ['S', 'E', 'N', 'F', 'D', 'W', 'P', 'H', 'G'] ∧
    (commands.map (fun e => e.cmd)).Nodup ∧
    (∀ e, e ∈ commands → command_find e.cmd = some e) ∧
    (∀ c, c ∉ commands.map (fun e => e.cmd) → command_find c = none) ∧
    command_find 'X' = none ∧ command_find '!' = none ∧
    (∀ (os : Nat → ServerObs) (ks : Proc) (fuel : Nat),
      ∃ f, server_dispatch os ks (fuel + 1) = read_cmd f ∧
        (∀ c e, command_find c = some e →
          f c = e.server (os 0) fuel
            (send_cmd '!' (server_dispatch (fun j => os (j + 1)) ks fuel))) ∧
        (∀ c, command_find c = none → f c = ks)) := by
  refine ⟨rfl, by decide, ?_, ?_, rfl, rfl, ?_⟩
  · intro e he
    simp only [commands, List.mem_cons, List.mem_singleton, List.not_mem_nil, or_false] at he
    rcases he with rfl | rfl | rfl | rfl | rfl | rfl | rfl | rfl | rfl <;> rfl
  · intro c hc
    exact command_find_none_of_not_mem c hc
  · intro os ks fuel
    refine ⟨_, rfl, ?_, ?_⟩
    · intro c e he
      simp only [he]
    · intro c he
      simp only [he]

/-! ## Scenario selection -/

theorem client_commands_filter (b : Build) (h : Bool) (o : ClientObs)
    (cmdstr : Option (List Char)) (k : Proc) (l : List command) :
    client_commands b h o cmdstr k l
      = (l.filter (fun c => selected cmdstr c.cmd)).foldr (fun c p => c.client b h o p) k := by
  induction l with
  | nil => rfl
  | cons c cs ih =>
    by_cases hs : selected cmdstr c.cmd = true
    · simp [client_commands, List.filter, hs, ih]
    · simp [client_commands, List.filter, hs, ih]

/-- C13: `nfs_test_client` runs the client procedures of the table entries that
are selected, each once, in table order: all nine (`S E N F D W P H G`) when no
letters are given, and with a letters string the entries whose byte occurs in
it.  Two strings in which the same registered bytes occur give the same run,
so order, repetition and unregistered letters in the string do not matter. -/
theorem C13_scenario_selection (b : Build) (h : Bool) (o : ClientObs) (k : Proc) :
    client_commands b h o none k commands
      = commands.foldr (fun c p => c.client b h o p) k ∧
    (∀ s : List Char, client_commands b h o (some s) k commands
      = (commands.filter (fun c => s.contains c.cmd)).foldr (fun c p => c.client b h o p) k) ∧
    (∀ s : List Char, (commands.filter (fun c => s.contains c.cmd)).map (fun c => c.cmd)
      = ['S', 'E', 'N', 'F', 'D', 'W', 'P', 'H', 'G'].filter (fun c => s.contains c)) ∧
    (∀ s1 s2 : List Char, (∀ e, e ∈ commands → (e.cmd ∈ s1 ↔ e.cmd ∈ s2)) →
      client_commands b h o (some s1) k commands
        = client_commands b h o (some s2) k commands) := by
  refine ⟨?_, ?_, ?_, ?_⟩
  · rw [client_commands_filter]
    simp [selected]
  · intro s
    rw [client_commands_filter]
    simp [selected]
  · intro s
    have hm : (commands.filter (fun c => s.contains c.cmd)).map (fun c => c.cmd)
        = (commands.map (fun c => c.cmd)).filter (fun c => s.contains c) := by
      rw [List.filter_map]
      rfl
    exact hm
  · intro s1 s2 hs
    rw [client_commands_filter, client_commands_filter]
    congr 1
    apply List.filter_congr
    intro e he
    have hse := hs e he
    simp [selected, hse]

/-! ## Bounded retry of `open` -/

theorem safe_open_loop_spec (open_call : Nat → OpenResult) :
    ∀ (n i : Nat) (last : OpenResult),
      (∀ j, j < i → (open_call j).stale) → (0 < i → last = open_call (i - 1)) → 0 < n + i →
      let res := safe_open_loop open_call n i last
      0 < res.2 ∧ res.2 ≤ n + i ∧ res.1 = open_call (res.2 - 1) ∧
      (∀ j, j < res.2 - 1 → (open_call j).stale) ∧
      (res.2 < n + i → ¬ res.1.stale) := by
  intro n
  induction n with
  | zero =>
    intro i last hst hl hpos
    simp only [safe_open_loop]
    refine ⟨by omega, by omega, hl (by omega), ?_, by omega⟩
    intro j hj
    exact hst j (by omega)
  | succ n ih =>
    intro i last hst hl hpos
    simp only [safe_open_loop]
    by_cases hb : (open_call i).fd ≠ -1 ∨ (open_call i).errno ≠ Errno.ESTALE
    · rw [if_pos hb]
      refine ⟨by simp, by simp; omega, by simp, ?_, ?_⟩
      · intro j hj
        exact hst j (by simpa using hj)
      · intro _ hs
        rcases hb with hb | hb
        · exact hb hs.1
        · exact hb hs.2
    · rw [if_neg hb]
      have hsi : (open_call i).stale := by
        simp only [not_or, not_not] at hb
        exact hb
      have := ih (i + 1) (open_call i)
        (fun j hj => by
          rcases Nat.lt_succ_iff_lt_or_eq.mp hj with h1 | h1
          · exact hst j h1
          · rw [h1]; exact hsi)
        (fun _ => by simp) (by omega)
      simp only at this
      obtain ⟨a1, a2, a3, a4, a5⟩ := this
      exact ⟨a1, by omega, a3, a4, fun hlt => a5 (by omega)⟩

/-- C15: for every sequence of outcomes of the underlying `open` call,
`nfs_safe_open` and `nfs_safe_create` make between 1 and 10 calls; every call
before the last failed with `ESTALE`; the result returned is that of the last
call; when fewer than 10 calls were made the last call did not fail with
`ESTALE`; hence a returned `ESTALE` failure means that exactly 10 calls were
made and all of them failed with `ESTALE`. -/
theorem C15_bounded_retry (open_call : Nat → OpenResult) :
    (1 ≤ (nfs_safe_open open_call).2 ∧ (nfs_safe_open open_call).2 ≤ 10 ∧
      (nfs_safe_open open_call).1 = open_call ((nfs_safe_open open_call).2 - 1) ∧
      (∀ j, j < (nfs_safe_open open_call).2 - 1 → (open_call j).stale) ∧
      ((nfs_safe_open open_call).2 < 10 → ¬ (nfs_safe_open open_call).1.stale) ∧
      ((nfs_safe_open open_call).1.stale →
        (nfs_safe_open open_call).2 = 10 ∧ ∀ j, j < 10 → (open_call j).stale)) ∧
    (1 ≤ (nfs_safe_create open_call).2 ∧ (nfs_safe_create open_call).2 ≤ 10 ∧
      (nfs_safe_create open_call).1 = open_call ((nfs_safe_create open_call).2 - 1) ∧
      (∀ j, j < (nfs_safe_create open_call).2 - 1 → (open_call j).stale) ∧
      ((nfs_safe_create open_call).2 < 10 → ¬ (nfs_safe_create open_call).1.stale) ∧
      ((nfs_safe_create open_call).1.stale →
        (nfs_safe_create open_call).2 = 10 ∧ ∀ j, j < 10 → (open_call j).stale)) := by
  have key := safe_open_loop_spec open_call 10 0 ⟨-1, Errno.other 0⟩
    (fun j hj => absurd hj (Nat.not_lt_zero j)) (fun h0 => absurd h0 (Nat.lt_irrefl 0))
    (by omega)
  simp only at key
  obtain ⟨a1, a2, a3, a4, a5⟩ := key
  have main : 1 ≤ (safe_open_loop open_call 10 0 ⟨-1, Errno.other 0⟩).2 ∧
      (safe_open_loop open_call 10 0 ⟨-1, Errno.other 0⟩).2 ≤ 10 ∧
      (safe_open_loop open_call 10 0 ⟨-1, Errno.other 0⟩).1
        = open_call ((safe_open_loop open_call 10 0 ⟨-1, Errno.other 0⟩).2 - 1) ∧
      (∀ j, j < (safe_open_loop open_call 10 0 ⟨-1, Errno.other 0⟩).2 - 1 →
        (open_call j).stale) ∧
      ((safe_open_loop open_call 10 0 ⟨-1, Errno.other 0⟩).2 < 10 →
        ¬ (safe_open_loop open_call 10 0 ⟨-1, Errno.other 0⟩).1.stale) ∧
      ((safe_open_loop open_call 10 0 ⟨-1, Errno.other 0⟩).1.stale →
        (safe_open_loop open_call 10 0 ⟨-1, Errno.other 0⟩).2 = 10 ∧
        ∀ j, j < 10 → (open_call j).stale) := by
    refine ⟨a1, by omega, a3, a4, fun h => a5 (by omega), ?_⟩
    intro hs
    have h10 : (safe_open_loop open_call 10 0 ⟨-1, Errno.other 0⟩).2 = 10 := by
      by_contra hne
      exact a5 (by omega) hs
    refine ⟨h10, ?_⟩
    intro j hj
    rcases Nat.lt_succ_iff_lt_or_eq.mp (show j < 9 + 1 from hj) with h1 | h1
    · exact a4 j (by omega)
    · rw [h1]
      have h9 : (safe_open_loop open_call 10 0 ⟨-1, Errno.other 0⟩).2 - 1 = 9 := by omega
      rw [← h9, ← a3]
      exact hs
  exact ⟨main, main⟩

/-! ## Socket actions and printed lines of the procedures -/

section exec_lemmas
variable (c : Char) (k : Proc) (rest inbox : List Char)

theorem trace_send : (send_cmd c k).trace inbox
    = (Action.sent c :: (k.trace inbox).1, (k.trace inbox).2) := by
  simp [send_cmd, Proc.trace]

theorem trace_wait : (wait_cmd c k).trace (c :: rest)
    = (Action.received c :: (k.trace rest).1, (k.trace rest).2) := by
  simp [wait_cmd, read_cmd, Proc.trace]

theorem trace_read (f : Char → Proc) : (read_cmd f).trace (c :: rest)
    = (Action.received c :: ((f c).trace rest).1, ((f c).trace rest).2) := by
  simp [read_cmd, Proc.trace]

theorem trace_out (ls : List String) : (Proc.out ls k).trace inbox = k.trace inbox := by
  simp [Proc.trace]

theorem trace_fs {cond : Prop} [Decidable cond] (msg : String) (hc : ¬ cond) :
    (fs_check cond msg k).trace inbox = k.trace inbox := by
  simp [fs_check, hc]

theorem trace_flush {f : FlushObs} (hf : f.fatal = false) :
    (flush f k).trace inbox = k.trace inbox := by
  simp [flush, hf, Proc.trace]

theorem printed_send : (send_cmd c k).printed inbox = k.printed inbox := by
  simp [send_cmd, Proc.printed]

theorem printed_wait : (wait_cmd c k).printed (c :: rest) = k.printed rest := by
  simp [wait_cmd, read_cmd, Proc.printed]

theorem printed_read (f : Char → Proc) : (read_cmd f).printed (c :: rest)
    = (f c).printed rest := by
  simp [read_cmd, Proc.printed]

theorem printed_out (ls : List String) :
    (Proc.out ls k).printed inbox = ls ++ k.printed inbox := by
  simp [Proc.printed]

theorem printed_fs {cond : Prop} [Decidable cond] (msg : String) (hc : ¬ cond) :
    (fs_check cond msg k).printed inbox = k.printed inbox := by
  simp [fs_check, hc]

theorem printed_flush {f : FlushObs} (hf : f.fatal = false) :
    (flush f k).printed inbox = f.lines ++ k.printed inbox := by
  simp [flush, hf, Proc.printed]

end exec_lemmas

/-! ## Timestamp resolution -/

/-- C17: when the `stat` of the client succeeds and the whole seconds read back
differ from 123456789, then whatever the sub-second field holds the client
procedure is: send `N`, wait `1`, report the mismatch, send `2`, wait `!`.  So
on every input it sends no `x` and prints no line but the report. -/
theorem C17_seconds_mismatch (h : Bool) (o : NsecsClientObs) (k : Proc)
    (hs : ¬ o.stat_ret 0 < 0) (hm : o.st_mtime ≠ 123456789) :
    nfs_test_nsecs_client h o k
      = send_cmd 'N' (wait_cmd '1'
          (Proc.out ["mtime test failed, timestamp %u != 123456789"]
            (send_cmd '2' (wait_cmd '!' k)))) ∧
    (nfs_test_nsecs_client h o Proc.ret).trace ['1', '!']
      = ([Action.sent 'N', Action.received '1', Action.sent '2', Action.received '!'],
         Proc.ret) ∧
    (nfs_test_nsecs_client h o Proc.ret).printed ['1', '!']
      = ["mtime test failed, timestamp %u != 123456789"] ∧
    (∀ inbox, Action.sent 'x' ∉ ((nfs_test_nsecs_client h o Proc.ret).trace inbox).1) ∧
    (∀ inbox l, l ∈ (nfs_test_nsecs_client h o Proc.ret).printed inbox →
      l = "mtime test failed, timestamp %u != 123456789") := by
  have e : ∀ k, nfs_test_nsecs_client h o k
      = send_cmd 'N' (wait_cmd '1'
          (Proc.out ["mtime test failed, timestamp %u != 123456789"]
            (send_cmd '2' (wait_cmd '!' k)))) := by
    intro k
    simp [nfs_test_nsecs_client, fs_check, hs, hm]
  refine ⟨e k, ?_, ?_, ?_, ?_⟩
  · rw [e]; rfl
  · rw [e]; rfl
  · intro inbox
    rw [e]
    cases inbox with
    | nil => simp [send_cmd, wait_cmd, read_cmd, Proc.trace]
    | cons a t =>
      by_cases ha : '1' = a
      · subst ha
        cases t with
        | nil => simp [send_cmd, wait_cmd, read_cmd, Proc.trace]
        | cons a2 t2 =>
          by_cases ha2 : '!' = a2
          · subst ha2
            simp [send_cmd, wait_cmd, read_cmd, Proc.trace]
          · simp [send_cmd, wait_cmd, read_cmd, Proc.trace, ha2]
      · simp [send_cmd, wait_cmd, read_cmd, Proc.trace, ha]
  · intro inbox l
    rw [e]
    cases inbox with
    | nil => simp [send_cmd, wait_cmd, read_cmd, Proc.printed]
    | cons a t =>
      by_cases ha : '1' = a
      · subst ha
        cases t with
        | nil => simp [send_cmd, wait_cmd, read_cmd, Proc.printed]
        | cons a2 t2 =>
          by_cases ha2 : '!' = a2
          · subst ha2
            simp [send_cmd, wait_cmd, read_cmd, Proc.printed]
          · simp [send_cmd, wait_cmd, read_cmd, Proc.printed, ha2]
      · simp [send_cmd, wait_cmd, read_cmd, Proc.printed, ha]

/-- Witness of C17: whole seconds 123456788, nanoseconds 5. -/
theorem C17_seconds_mismatch_witness :
    nfs_test_nsecs_client true ⟨fun _ => 0, 123456788, fun _ => 5⟩ Proc.ret
      = send_cmd 'N' (wait_cmd '1'
          (Proc.out ["mtime test failed, timestamp %u != 123456789"]
            (send_cmd '2' (wait_cmd '!' Proc.ret)))) ∧
    (nfs_test_nsecs_client true ⟨fun _ => 0, 123456788, fun _ => 5⟩ Proc.ret).trace ['1', '!']
      = ([Action.sent 'N', Action.received '1', Action.sent '2', Action.received '!'],
         Proc.ret) ∧
    (nfs_test_nsecs_client true ⟨fun _ => 0, 123456788, fun _ => 5⟩ Proc.ret).printed ['1', '!']
      = ["mtime test failed, timestamp %u != 123456789"] ∧
    (∀ inbox, Action.sent 'x' ∉
      ((nfs_test_nsecs_client true ⟨fun _ => 0, 123456788, fun _ => 5⟩ Proc.ret).trace inbox).1) ∧
    (∀ inbox l,
      l ∈ (nfs_test_nsecs_client true ⟨fun _ => 0, 123456788, fun _ => 5⟩ Proc.ret).printed inbox →
      l = "mtime test failed, timestamp %u != 123456789") :=
  C17_seconds_mismatch true ⟨fun _ => 0, 123456788, fun _ => 5⟩ Proc.ret (by decide) (by decide)

theorem exists_first_hit (p : Nat → Prop) [DecidablePred p] (n : Nat) :
    ∃ j, j ≤ n ∧ (∀ t, t < j → ¬ p t) ∧ (j < n → p j) := by
  induction n with
  | zero => exact ⟨0, le_refl 0, fun t ht => absurd ht (Nat.not_lt_zero t), fun h => absurd h (Nat.lt_irrefl 0)⟩
  | succ n ih =>
    obtain ⟨j, hj, h1, h2⟩ := ih
    by_cases hlt : j < n
    · exact ⟨j, by omega, h1, fun _ => h2 hlt⟩
    · have hjn : j = n := by omega
      subst hjn
      by_cases hp : p j
      · exact ⟨j, by omega, h1, fun _ => hp⟩
      · refine ⟨j + 1, le_refl _, ?_, fun h => absurd h (Nat.lt_irrefl _)⟩
        intro t ht
        rcases Nat.lt_succ_iff_lt_or_eq.mp ht with h3 | h3
        · exact h1 t h3
        · rw [h3]; exact hp

theorem nsecs_client_loop_exec (h : Bool) (o : NsecsClientObs) (k : Proc) (rest : List Char)
    (hs : ∀ i, ¬ o.stat_ret i < 0) :
    ∀ (j n i : Nat), j ≤ n →
      (∀ t, t < j → ST_NSECS h (o.st_nsec (i + t)) % 1000 = 0) →
      (j < n → ST_NSECS h (o.st_nsec (i + j)) % 1000 ≠ 0) →
      (nsecs_client_loop h o k n i).trace (List.replicate j '3' ++ rest)
        = ((List.replicate j [Action.sent 'x', Action.received '3']).flatten ++ (k.trace rest).1,
           (k.trace rest).2) ∧
      (nsecs_client_loop h o k n i).printed (List.replicate j '3' ++ rest)
        = (if ST_NSECS h (o.st_nsec (i + j)) % 1000 = 0
            then "timestamps resolution: microseconds\n"
            else "timestamps resolution: nanoseconds\n") :: k.printed rest := by
  intro j
  induction j with
  | zero =>
    intro n i hjn hz hnz
    cases n with
    | zero => simp [nsecs_client_loop, trace_out, printed_out]
    | succ n =>
      have h1 := hnz (Nat.succ_pos n)
      simp only [Nat.add_zero] at h1
      simp [nsecs_client_loop, h1, trace_out, printed_out]
  | succ j ih =>
    intro n i hjn hz hnz
    obtain ⟨m, rfl⟩ : ∃ m, n = m + 1 := Nat.exists_eq_succ_of_ne_zero (by omega)
    have h0 := hz 0 (Nat.succ_pos j)
    simp only [Nat.add_zero] at h0
    have ih1 := ih m (i + 1) (by omega)
      (fun t ht => by have := hz (t + 1) (by omega); rwa [Nat.add_assoc, Nat.add_comm 1 t])
      (fun hlt => by have := hnz (by omega); rwa [Nat.add_assoc, Nat.add_comm 1 j])
    obtain ⟨ih1a, ih1b⟩ := ih1
    have e3 : i + (j + 1) = i + 1 + j := by omega
    simp only [nsecs_client_loop, h0, if_true, List.replicate_succ, List.cons_append, trace_send,
      trace_wait, printed_send, printed_wait, trace_fs _ _ _ (hs (i + 1)),
      printed_fs _ _ _ (hs (i + 1)), ih1a, ih1b, List.flatten, e3]
    simp

/-- C16: when every `stat` succeeds, the whole seconds are 123456789 and the
microseconds of the first sample are 123456, there is a number `j` of at most
10 such that the client asks for exactly `j` further samples (one `x`, answered
by one `3`, each), the sub-microsecond part of the initial sample and of every
requested sample before the `j`-th is zero, the loop has stopped before 10
samples only because the `j`-th has a nonzero sub-microsecond part, and the
client prints `nanoseconds` when the initial or some requested sample has a
nonzero sub-microsecond part and `microseconds` when none has. -/
theorem C16_resolution (h : Bool) (o : NsecsClientObs)
    (hs : ∀ i, ¬ o.stat_ret i < 0) (hm : o.st_mtime = 123456789)
    (hu : ST_NSECS h (o.st_nsec 0) / 1000 = 123456) :
    ∃ j, j ≤ 10 ∧
      (∀ t, t < j → ST_NSECS h (o.st_nsec t) % 1000 = 0) ∧
      (j < 10 → ST_NSECS h (o.st_nsec j) % 1000 ≠ 0) ∧
      (nfs_test_nsecs_client h o Proc.ret).trace ('1' :: (List.replicate j '3' ++ ['!']))
        = ([Action.sent 'N', Action.received '1'] ++
            (List.replicate j [Action.sent 'x', Action.received '3']).flatten ++
            [Action.sent '2', Action.received '!'], Proc.ret) ∧
      ((∃ t, t ≤ j ∧ ST_NSECS h (o.st_nsec t) % 1000 ≠ 0) →
        (nfs_test_nsecs_client h o Proc.ret).printed ('1' :: (List.replicate j '3' ++ ['!']))
          = ["timestamps resolution: nanoseconds\n"]) ∧
      ((∀ t, t ≤ j → ST_NSECS h (o.st_nsec t) % 1000 = 0) →
        (nfs_test_nsecs_client h o Proc.ret).printed ('1' :: (List.replicate j '3' ++ ['!']))
          = ["timestamps resolution: microseconds\n"]) := by
  obtain ⟨j, hj, h1, h2⟩ :=
    exists_first_hit (fun t => ST_NSECS h (o.st_nsec t) % 1000 ≠ 0) 10
  have h1z : ∀ t, t < j → ST_NSECS h (o.st_nsec t) % 1000 = 0 := by
    intro t ht
    have := h1 t ht
    simpa using this
  obtain ⟨ea, eb⟩ := nsecs_client_loop_exec h o (send_cmd '2' (wait_cmd '!' Proc.ret)) ['!'] hs
    j 10 0 hj (fun t ht => by simpa using h1z t ht) (fun hlt => by simpa using h2 hlt)
  simp only [Nat.zero_add] at ea eb
  have hm2 : ¬ o.st_mtime ≠ 123456789 := by simp [hm]
  refine ⟨j, hj, h1z, h2, ?_, ?_, ?_⟩
  · simp only [nfs_test_nsecs_client, trace_send, trace_wait, trace_fs _ _ _ (hs 0), hm2, hu,
      if_true, if_false, ea]
    simp [trace_send, trace_wait, Proc.trace]
  · rintro ⟨t, ht, hnz⟩
    have hjnz : ST_NSECS h (o.st_nsec j) % 1000 ≠ 0 := by
      rcases Nat.lt_or_eq_of_le ht with hlt | heq
      · exact absurd (h1z t hlt) hnz
      · rw [← heq]; exact hnz
    simp only [nfs_test_nsecs_client, printed_send, printed_wait, printed_fs _ _ _ (hs 0), hm2,
      hu, if_true, if_false, eb, hjnz]
    simp [printed_send, printed_wait, Proc.printed]
  · intro hz
    have hjz := hz j (le_refl j)
    simp only [nfs_test_nsecs_client, printed_send, printed_wait, printed_fs _ _ _ (hs 0), hm2,
      hu, if_true, if_false, eb, hjz]
    simp [printed_send, printed_wait, Proc.printed]

/-- Witness of C16: nanoseconds 123456000 in every sample. -/
theorem C16_resolution_witness :
    ∃ j, j ≤ 10 ∧
      (∀ t, t < j → ST_NSECS true ((⟨fun _ => 0, 123456789, fun _ => 123456000⟩ :
        NsecsClientObs).st_nsec t) % 1000 = 0) ∧
      (j < 10 → ST_NSECS true ((⟨fun _ => 0, 123456789, fun _ => 123456000⟩ :
        NsecsClientObs).st_nsec j) % 1000 ≠ 0) ∧
      (nfs_test_nsecs_client true ⟨fun _ => 0, 123456789, fun _ => 123456000⟩ Proc.ret).trace
          ('1' :: (List.replicate j '3' ++ ['!']))
        = ([Action.sent 'N', Action.received '1'] ++
            (List.replicate j [Action.sent 'x', Action.received '3']).flatten ++
            [Action.sent '2', Action.received '!'], Proc.ret) ∧
      ((∃ t, t ≤ j ∧ ST_NSECS true ((⟨fun _ => 0, 123456789, fun _ => 123456000⟩ :
          NsecsClientObs).st_nsec t) % 1000 ≠ 0) →
        (nfs_test_nsecs_client true ⟨fun _ => 0, 123456789, fun _ => 123456000⟩ Proc.ret).printed
            ('1' :: (List.replicate j '3' ++ ['!']))
          = ["timestamps resolution: nanoseconds\n"]) ∧
      ((∀ t, t ≤ j → ST_NSECS true ((⟨fun _ => 0, 123456789, fun _ => 123456000⟩ :
          NsecsClientObs).st_nsec t) % 1000 = 0) →
        (nfs_test_nsecs_client true ⟨fun _ => 0, 123456789, fun _ => 123456000⟩ Proc.ret).printed
            ('1' :: (List.replicate j '3' ++ ['!']))
          = ["timestamps resolution: microseconds\n"]) :=
  C16_resolution true ⟨fun _ => 0, 123456789, fun _ => 123456000⟩ (by intro i; simp)
    (by decide) (by decide)

/-! ## Attribute cache -/

set_option maxRecDepth 100000 in
/-- C18 fails as stated: with the mtime unchanged before the flush in every
round (so also in the first three), the client is not ended early: it never
prints that the attribute cache seems to be disabled and goes through all 18
rounds of the build with 19 methods. -/
theorem C18_counterexample :
    client_obs_ok.fattrcache.st1_mtime 0 = client_obs_ok.fattrcache.st2_mtime 0 ∧
    client_obs_ok.fattrcache.st1_mtime 1 = client_obs_ok.fattrcache.st2_mtime 1 ∧
    client_obs_ok.fattrcache.st1_mtime 2 = client_obs_ok.fattrcache.st2_mtime 2 ∧
    "NFS attribute cache seems to be disabled\n" ∉
      (nfs_test_fattrcache_client ⟨true, true⟩ client_obs_ok.fattrcache Proc.ret).printed
        ('1' :: (List.replicate 18 '3' ++ ['!'])) ∧
    (((nfs_test_fattrcache_client ⟨true, true⟩ client_obs_ok.fattrcache Proc.ret).trace
        ('1' :: (List.replicate 18 '3' ++ ['!']))).1.count (Action.sent '2') = 18) ∧
    ((nfs_test_fattrcache_client ⟨true, true⟩ client_obs_ok.fattrcache Proc.ret).trace
        ('1' :: (List.replicate 18 '3' ++ ['!']))).2.returned = true := by
  decide

/-- C18 (amended): from a round that starts with no failure counted, three
consecutive rounds in which the mtime seen without flushing already differs
from the one before the remote change (`st1.st_mtime != st2.st_mtime`) end the
scenario early: after the third the client prints that the attribute cache
seems to be disabled and goes to the closing `4` and `!`.  A round in which the
two are equal applies the flush method, prints its result line and goes on with
the next method and the count back at 0. -/
theorem C18_early_abort (b : Build) (o : FattrClientObs) (k : Proc)
    (fuel method r : Nat) (hm : method < NFS_CACHE_FLUSH_METHOD_COUNT b) :
    ((∀ t, t < 3 → ¬ o.fstat1_ret (r + t) < 0 ∧ ¬ o.fstat2_ret (r + t) < 0 ∧
        o.st1_mtime (r + t) ≠ o.st2_mtime (r + t)) →
      fattrcache_client_loop b o k (fuel + 3) method 0 r
        = send_cmd '2' (wait_cmd '3' (send_cmd '2' (wait_cmd '3' (send_cmd '2' (wait_cmd '3'
            (Proc.out ["NFS attribute cache seems to be disabled\n"]
              (send_cmd '4' (wait_cmd '!' k))))))))) ∧
    (∀ fails, ¬ o.fstat1_ret r < 0 → ¬ o.fstat2_ret r < 0 → o.st1_mtime r = o.st2_mtime r →
      fattrcache_client_loop b o k (fuel + 1) method fails r
        = send_cmd '2' (wait_cmd '3' (flush (o.flush_before r)
            (fs_check (o.fstat3_ret r < 0) "fstat(%s) failed: %m" (flush (o.flush_after r)
              (Proc.out ["Attr cache flush " ++ method_name b method ++ ": " ++
                (if o.st1_mtime r = o.st3_mtime r then "failed" else "OK") ++ "\n"]
                (fattrcache_client_loop b o k fuel (method + 1) 0 (r + 1)))))))) := by
  refine ⟨?_, ?_⟩
  · intro h3
    obtain ⟨a0, b0, c0⟩ := h3 0 (by omega)
    obtain ⟨a1, b1, c1⟩ := h3 1 (by omega)
    obtain ⟨a2, b2, c2⟩ := h3 2 (by omega)
    simp only [Nat.add_zero] at a0 b0 c0
    have e2 : r + 1 + 1 = r + 2 := rfl
    simp [fattrcache_client_loop, fs_check, hm, a0, b0, c0, a1, b1, c1, a2, b2, c2, e2]
  · intro fails a0 b0 c0
    rw [fattrcache_client_loop]
    simp [fs_check, hm, a0, b0, c0]

/-- Witness of C18: three rounds in which the second `fstat` shows an mtime
one second later than the first. -/
theorem C18_early_abort_witness :
    fattrcache_client_loop ⟨true, true⟩ fattr_obs_changed Proc.ret (54 + 3) 1 0 0
      = send_cmd '2' (wait_cmd '3' (send_cmd '2' (wait_cmd '3' (send_cmd '2' (wait_cmd '3'
          (Proc.out ["NFS attribute cache seems to be disabled\n"]
            (send_cmd '4' (wait_cmd '!' Proc.ret)))))))) :=
  (C18_early_abort ⟨true, true⟩ fattr_obs_changed Proc.ret 54 1 0 (by decide)).1
    (by intro t _; simp [fattr_obs_changed])

/-! ## Iteration over the catalog -/

theorem fhandlecache_loop_printed (b : Build) (o : FhandleClientObs) (kf : Bool → Proc)
    (rest : List Char)
    (h1 : ∀ m, ¬ (o.stat_a_ret m < 0 ∨ o.stat_b_ret m < 0))
    (h2 : ∀ m, o.st1_ino m = o.ino1 ∨ o.st1_ino m = o.ino2)
    (h3 : ∀ m, ¬ o.stat2_ret m < 0)
    (h4 : ∀ m, (o.flush_before m).fatal = false) (h5 : ∀ m, (o.flush_after m).fatal = false) :
    ∀ (n m : Nat) (success : Bool), ∃ s1,
      (fhandlecache_client_loop b o kf n m success).printed (List.replicate n '3' ++ rest)
        = concat_from (fun m => (o.flush_before m).lines ++ (o.flush_after m).lines ++
            fhandlecache_lines b o m) n m ++ (kf s1).printed rest := by
  intro n
  induction n with
  | zero => intro m success; exact ⟨success, by simp [fhandlecache_client_loop, concat_from]⟩
  | succ n ih =>
    intro m success
    obtain ⟨s1, hs1⟩ := ih (m + 1) (if o.st1_ino m ≠ o.st2_ino m then true else success)
    refine ⟨s1, ?_⟩
    rw [fhandlecache_client_loop, printed_fs _ _ _ (h1 m)]
    rcases h2 m with hi | hi
    · rw [if_pos hi]
      simp only [List.replicate_succ, List.cons_append, printed_send, printed_wait,
        printed_flush _ _ (h4 m), printed_flush _ _ (h5 m), printed_fs _ _ _ (h3 m),
        printed_out, hs1, concat_from, List.append_assoc]
    · by_cases hi1 : o.st1_ino m = o.ino1
      · rw [if_pos hi1]
        simp only [List.replicate_succ, List.cons_append, printed_send, printed_wait,
          printed_flush _ _ (h4 m), printed_flush _ _ (h5 m), printed_fs _ _ _ (h3 m),
          printed_out, hs1, concat_from, List.append_assoc]
      · rw [if_neg hi1, if_pos hi]
        simp only [List.replicate_succ, List.cons_append, printed_send, printed_wait,
          printed_flush _ _ (h4 m), printed_flush _ _ (h5 m), printed_fs _ _ _ (h3 m),
          printed_out, hs1, concat_from, List.append_assoc]

theorem neg_fhandlecache_loop_printed (b : Build) (o : NegClientObs) (k : Proc)
    (rest : List Char)
    (h1 : ∀ m, ¬ (o.stat_a_ret m = 0 ∨ o.stat_b_ret m = 0 ∨ o.stat_c_ret m = 0))
    (h2 : ∀ m, ¬ (¬ o.stat_ret m = 0 ∧ o.stat_errno m ≠ Errno.ENOENT))
    (h3 : ∀ m, ¬ (o.unlink_round_ret m < 0 ∧ o.unlink_round_errno m ≠ Errno.ENOENT))
    (h4 : ∀ m, (o.flush_before m).fatal = false) (h5 : ∀ m, (o.flush_after m).fatal = false) :
    ∀ (n m : Nat),
      (neg_fhandlecache_client_loop b o k n m).printed
          (concat_from (fun _ => ['3', '5']) n m ++ rest)
        = concat_from (fun m => (o.flush_before m).lines ++ (o.flush_after m).lines ++
            (["Negative file handle cache flush " ++ method_name b m ++ ": " ++
              (if ¬ o.stat_ret m = 0 then "failed" else "OK") ++ "\n"] ++
             (if o.stat_ret m = 0 ∧ o.st_mtime m ≠ (m : Int) then
               [" - mtime is wrong though\n"] else []))) n m ++ k.printed rest := by
  intro n
  induction n with
  | zero => intro m; simp [neg_fhandlecache_client_loop, concat_from]
  | succ n ih =>
    intro m
    rw [neg_fhandlecache_client_loop, if_neg (h1 m)]
    simp only [concat_from, List.cons_append, List.nil_append, printed_send, printed_wait,
      printed_flush _ _ (h4 m), printed_flush _ _ (h5 m), printed_fs _ _ _ (h2 m),
      printed_fs _ _ _ (h3 m), printed_out, ih, List.append_assoc]

theorem write_flush_loop_printed (b : Build) (o : WriteFlushClientObs) (k : Proc)
    (rest : List Char) (reply : Nat → Char)
    (h4 : ∀ m, (o.flush_before m).fatal = false) (h5 : ∀ m, (o.flush_after m).fatal = false) :
    ∀ (n m : Nat),
      (write_flush_client_loop b o k n m).printed
          (concat_from (fun m => [reply m]) n m ++ rest)
        = concat_from (fun m => (o.flush_before m).lines ++
            (if o.write_ret m ≠ 1 then ["write(%s) failed, method=%s: %m"] else []) ++
            (o.flush_after m).lines ++
            ["Write flush " ++ method_name b m ++ ": " ++
              (if reply m = 'O' then "OK" else "failed") ++ "\n"]) n m ++ k.printed rest := by
  intro n
  induction n with
  | zero => intro m; simp [write_flush_client_loop, concat_from]
  | succ n ih =>
    intro m
    rw [write_flush_client_loop]
    simp only [concat_from, List.cons_append, List.nil_append, printed_send, printed_read,
      printed_flush _ _ (h4 m), printed_flush _ _ (h5 m), printed_out, ih, List.append_assoc]

theorem data_cache_round_printed (b : Build) (h : Bool) (o : DataClientObs) (k : Proc)
    (c m : Nat) (chr : Char) (tail : List Char)
    (h1 : ¬ o.fstat1_ret m < 0) (h2 : ¬ o.lseek1_ret m < 0)
    (h3 : ¬ o.lseek2_ret m < 0) (h6 : ¬ o.fstat2_ret m < 0)
    (h7 : ¬ o.buf m 511 ≠ 'a')
    (h4 : (o.flush_before m).fatal = false) (h5 : (o.flush_after m).fatal = false)
    (h8 : (o.flush_attr m).fatal = false) :
    (data_cache_client_loop b h o k (c + 1) m chr).printed ('3' :: chr :: tail)
      = data_round_lines b h o m chr ++
        (if m + 1 = NFS_CACHE_FLUSH_METHOD_COUNT b then k.printed tail
         else (data_cache_client_loop b h o k c (m + 1) (next_char chr)).printed tail) := by
  rw [data_cache_client_loop]
  by_cases hm : m + 1 = NFS_CACHE_FLUSH_METHOD_COUNT b
  · simp only [printed_send, printed_wait, printed_flush _ _ h4, printed_flush _ _ h5,
      printed_flush _ _ h8, printed_fs _ _ _ h1, printed_fs _ _ _ h2, printed_fs _ _ _ h3,
      printed_fs _ _ _ h6, printed_fs _ _ _ h7, printed_out, if_pos hm, data_round_lines,
      List.append_assoc]
  · simp only [printed_send, printed_wait, printed_flush _ _ h4, printed_flush _ _ h5,
      printed_flush _ _ h8, printed_fs _ _ _ h1, printed_fs _ _ _ h2, printed_fs _ _ _ h3,
      printed_fs _ _ _ h6, printed_fs _ _ _ h7, printed_out, if_neg hm, data_round_lines,
      List.append_assoc]

theorem data_cache_loop_printed (b : Build) (h : Bool) (o : DataClientObs) (k : Proc)
    (rest : List Char)
    (h1 : ∀ m, ¬ o.fstat1_ret m < 0) (h2 : ∀ m, ¬ o.lseek1_ret m < 0)
    (h3 : ∀ m, ¬ o.lseek2_ret m < 0) (h6 : ∀ m, ¬ o.fstat2_ret m < 0)
    (h7 : ∀ m, ¬ o.buf m 511 ≠ 'a')
    (h4 : ∀ m, (o.flush_before m).fatal = false) (h5 : ∀ m, (o.flush_after m).fatal = false)
    (h8 : ∀ m, (o.flush_attr m).fatal = false) :
    ∀ (c m : Nat), m + (c + 1) = NFS_CACHE_FLUSH_METHOD_COUNT b →
      (data_cache_client_loop b h o k (c + 1) m (Char.ofNat (98 + m))).printed
          (concat_from (fun m => ['3', Char.ofNat (98 + m)]) (c + 1) m ++ rest)
        = concat_from (fun m => data_round_lines b h o m (Char.ofNat (98 + m))) (c + 1) m
          ++ k.printed rest := by
  have hb := count_bounds b
  intro c
  induction c with
  | zero =>
    intro m hm
    rw [concat_from, concat_from, concat_from, concat_from]
    simp only [List.cons_append, List.nil_append, List.append_nil]
    rw [data_cache_round_printed b h o k 0 m _ _ (h1 m) (h2 m) (h3 m) (h6 m) (h7 m) (h4 m)
      (h5 m) (h8 m), if_pos hm]
  | succ c ih =>
    intro m hm
    obtain ⟨hn1, _⟩ := next_char_spec m (by omega)
    have hne : ¬ m + 1 = NFS_CACHE_FLUSH_METHOD_COUNT b := by omega
    have ih1 := ih (m + 1) (by omega)
    have e2 : concat_from (fun m => data_round_lines b h o m (Char.ofNat (98 + m))) (c + 1 + 1) m
        = data_round_lines b h o m (Char.ofNat (98 + m)) ++
          concat_from (fun m => data_round_lines b h o m (Char.ofNat (98 + m))) (c + 1) (m + 1) :=
      rfl
    rw [concat_from, e2]
    simp only [List.cons_append, List.nil_append]
    rw [data_cache_round_printed b h o k (c + 1) m _ _ (h1 m) (h2 m) (h3 m) (h6 m) (h7 m)
      (h4 m) (h5 m) (h8 m), if_neg hne, hn1, ih1, List.append_assoc]

theorem fattrcache_loop_printed (b : Build) (o : FattrClientObs) (k : Proc)
    (rest : List Char)
    (h1 : ∀ r, ¬ o.fstat1_ret r < 0) (h2 : ∀ r, ¬ o.fstat2_ret r < 0)
    (h3 : ∀ r, ¬ o.fstat3_ret r < 0) (hs : ∀ r, o.st1_mtime r = o.st2_mtime r)
    (h4 : ∀ r, (o.flush_before r).fatal = false) (h5 : ∀ r, (o.flush_after r).fatal = false) :
    ∀ (n r cf : Nat), (r + 1) + n = NFS_CACHE_FLUSH_METHOD_COUNT b → n < cf →
      (fattrcache_client_loop b o k cf (r + 1) 0 r).printed
          (List.replicate n '3' ++ ('!' :: rest))
        = concat_from (fun r => (o.flush_before r).lines ++ (o.flush_after r).lines ++
            ["Attr cache flush " ++ method_name b (r + 1) ++ ": " ++
              (if o.st1_mtime r = o.st3_mtime r then "failed" else "OK") ++ "\n"]) n r
          ++ k.printed rest := by
  intro n
  induction n with
  | zero =>
    intro r cf hm hcf
    obtain ⟨c, rfl⟩ : ∃ c, cf = c + 1 := Nat.exists_eq_succ_of_ne_zero (by omega)
    rw [fattrcache_client_loop, if_neg (by omega)]
    simp [concat_from, printed_send, printed_wait]
  | succ n ih =>
    intro r cf hm hcf
    obtain ⟨c, rfl⟩ : ∃ c, cf = c + 1 := Nat.exists_eq_succ_of_ne_zero (by omega)
    rw [fattrcache_client_loop, if_pos (by omega)]
    simp only [List.replicate_succ, List.cons_append, printed_send, printed_wait,
      printed_fs _ _ _ (h1 r), printed_fs _ _ _ (h2 r), printed_fs _ _ _ (h3 r), if_pos (hs r),
      printed_flush _ _ (h4 r), printed_flush _ _ (h5 r), printed_out,
      ih (r + 1) c (by omega) (by omega), concat_from, List.append_assoc]

theorem method_name_injective (b : Build) (m1 m2 : Nat)
    (h1 : m1 < NFS_CACHE_FLUSH_METHOD_COUNT b) (h2 : m2 < NFS_CACHE_FLUSH_METHOD_COUNT b)
    (he : method_name b m1 = method_name b m2) : m1 = m2 := by
  have hb := count_bounds b
  obtain ⟨f, d⟩ := b
  have h1' : m1 < 19 := by omega
  have h2' : m2 < 19 := by omega
  cases f <;> cases d <;> interval_cases m1 <;> interval_cases m2 <;>
    (first | rfl | (exfalso; revert he; decide) | (exfalso; revert h1; decide) | (exfalso; revert h2; decide))

set_option maxRecDepth 100000 in
/-- C19 fails as stated: in the build with 19 methods the attribute-cache
client, going through all its rounds, prints 18 result lines, the first of
them for ordinal 1 (`open+close`), and none for ordinal 0 (`no caching`). -/
theorem C19_counterexample :
    NFS_CACHE_FLUSH_METHOD_COUNT ⟨true, true⟩ = 19 ∧
    ((nfs_test_fattrcache_client ⟨true, true⟩ client_obs_ok.fattrcache Proc.ret).trace
        ('1' :: (List.replicate 18 '3' ++ ['!']))).2.returned = true ∧
    ((nfs_test_fattrcache_client ⟨true, true⟩ client_obs_ok.fattrcache Proc.ret).printed
        ('1' :: (List.replicate 18 '3' ++ ['!']))).length = 1 + 18 ∧
    ((nfs_test_fattrcache_client ⟨true, true⟩ client_obs_ok.fattrcache Proc.ret).printed
        ('1' :: (List.replicate 18 '3' ++ ['!']))).get? 1
      = some "Attr cache flush open+close: failed\n" ∧
    "Attr cache flush no caching: failed\n" ∉
      (nfs_test_fattrcache_client ⟨true, true⟩ client_obs_ok.fattrcache Proc.ret).printed
        ('1' :: (List.replicate 18 '3' ++ ['!'])) ∧
    "Attr cache flush no caching: OK\n" ∉
      (nfs_test_fattrcache_client ⟨true, true⟩ client_obs_ok.fattrcache Proc.ret).printed
        ('1' :: (List.replicate 18 '3' ++ ['!'])) := by
  decide

theorem fattrcache_loop_general (b : Build) (o : FattrClientObs) (k : Proc)
    (rest : List Char)
    (h1 : ∀ r, ¬ o.fstat1_ret r < 0) (h2 : ∀ r, ¬ o.fstat2_ret r < 0)
    (h3 : ∀ r, ¬ o.fstat3_ret r < 0)
    (h4 : ∀ r, (o.flush_before r).fatal = false) (h5 : ∀ r, (o.flush_after r).fatal = false) :
    ∀ (fuel method fails r : Nat), fails < 3 → fails ≤ r →
      (∀ t, t < fails → o.st1_mtime (r - fails + t) ≠ o.st2_mtime (r - fails + t)) →
      method ≤ NFS_CACHE_FLUSH_METHOD_COUNT b →
      3 * (NFS_CACHE_FLUSH_METHOD_COUNT b - method) - fails < fuel →
      ∃ (n : Nat) (rs : List Nat),
        n ≤ 3 * (NFS_CACHE_FLUSH_METHOD_COUNT b - method) - fails ∧
        (∀ x, x ∈ rs → r ≤ x ∧ x < r + n ∧ o.st1_mtime x = o.st2_mtime x) ∧
        rs.Pairwise (fun x y => x < y) ∧
        ((fattrcache_client_loop b o k fuel method fails r).trace
            (List.replicate n '3' ++ ('!' :: rest))).2 = (k.trace rest).2 ∧
        ((rs.length = NFS_CACHE_FLUSH_METHOD_COUNT b - method ∧
          (fattrcache_client_loop b o k fuel method fails r).printed
              (List.replicate n '3' ++ ('!' :: rest))
            = fattr_result_lines b o method rs ++ k.printed rest) ∨
         (rs.length < NFS_CACHE_FLUSH_METHOD_COUNT b - method ∧ 3 ≤ r + n ∧
          (∀ t, t < 3 → o.st1_mtime (r + n - 3 + t) ≠ o.st2_mtime (r + n - 3 + t)) ∧
          (fattrcache_client_loop b o k fuel method fails r).printed
              (List.replicate n '3' ++ ('!' :: rest))
            = fattr_result_lines b o method rs ++
              ["NFS attribute cache seems to be disabled\n"] ++ k.printed rest)) := by
  intro fuel
  induction fuel with
  | zero => intro method fails r _ _ _ _ hf; omega
  | succ fuel ih =>
    intro method fails r hf hfr hinv hmc hfuel
    rw [fattrcache_client_loop]
    by_cases hm : method < NFS_CACHE_FLUSH_METHOD_COUNT b
    · rw [if_pos hm]
      by_cases hs : o.st1_mtime r = o.st2_mtime r
      · obtain ⟨n, rs, hn, hmem, hpw, htr, hpr⟩ := ih (method + 1) 0 (r + 1) (by omega)
          (by omega) (fun t ht => by omega) (by omega) (by omega)
        refine ⟨n + 1, r :: rs, by omega, ?_, ?_, ?_, ?_⟩
        · intro x hx
          rcases List.mem_cons.mp hx with rfl | hx
          · exact ⟨Nat.le_refl _, by omega, hs⟩
          · obtain ⟨a1, a2, a3⟩ := hmem x hx
            exact ⟨by omega, by omega, a3⟩
        · exact List.pairwise_cons.mpr ⟨fun x hx => by have := (hmem x hx).1; omega, hpw⟩
        · simp only [List.replicate_succ, List.cons_append, trace_fs _ _ _ (h1 r), trace_send,
            trace_wait, trace_fs _ _ _ (h2 r), if_pos hs, trace_flush _ _ (h4 r),
            trace_fs _ _ _ (h3 r), trace_flush _ _ (h5 r), trace_out, htr]
        · have hp : (fattrcache_client_loop b o k (fuel + 1) method fails r).printed
                (List.replicate (n + 1) '3' ++ ('!' :: rest))
              = fattr_round_lines b o method r ++
                (fattrcache_client_loop b o k fuel (method + 1) 0 (r + 1)).printed
                  (List.replicate n '3' ++ ('!' :: rest)) := by
            rw [fattrcache_client_loop, if_pos hm]
            simp only [List.replicate_succ, List.cons_append, printed_fs _ _ _ (h1 r),
              printed_send, printed_wait, printed_fs _ _ _ (h2 r), if_pos hs,
              printed_flush _ _ (h4 r), printed_fs _ _ _ (h3 r), printed_flush _ _ (h5 r),
              printed_out, fattr_round_lines, List.append_assoc]
          rw [fattrcache_client_loop, if_pos hm] at hp
          rw [hp]
          rcases hpr with ⟨hl, he⟩ | ⟨hl, h3n, hd, he⟩
          · left
            refine ⟨by simp only [List.length_cons]; omega, ?_⟩
            rw [he, fattr_result_lines, List.append_assoc]
          · right
            refine ⟨by simp only [List.length_cons]; omega, by omega, ?_, ?_⟩
            · intro t ht
              have := hd t ht
              rw [show r + (n + 1) - 3 + t = r + 1 + n - 3 + t by omega]
              exact this
            · rw [he, fattr_result_lines]
              simp only [List.append_assoc]
      · by_cases hf3 : fails + 1 = 3
        · refine ⟨1, [], by omega, fun x hx => absurd hx (List.not_mem_nil x), List.Pairwise.nil, ?_, Or.inr ?_⟩
          · simp only [List.replicate_succ, List.replicate_zero, List.cons_append,
              List.nil_append, trace_fs _ _ _ (h1 r), trace_send,
              trace_wait, trace_fs _ _ _ (h2 r), if_neg hs, if_pos hf3, trace_out]
          · refine ⟨by simp only [List.length_nil]; omega, by omega, ?_, ?_⟩
            · intro t ht
              by_cases ht2 : t = 2
              · subst ht2
                rw [show r + 1 - 3 + 2 = r by omega]
                exact hs
              · have := hinv t (by omega)
                rw [show r + 1 - 3 + t = r - fails + t by omega]
                exact this
            · simp only [List.replicate_succ, List.replicate_zero, List.cons_append,
                List.nil_append, printed_fs _ _ _ (h1 r), printed_send,
                printed_wait, printed_fs _ _ _ (h2 r), if_neg hs, if_pos hf3, printed_out,
                fattr_result_lines, List.append_assoc]
        · obtain ⟨n, rs, hn, hmem, hpw, htr, hpr⟩ := ih method (fails + 1) (r + 1) (by omega)
            (by omega)
            (fun t ht => by
              by_cases htf : t = fails
              · subst htf
                rw [show r + 1 - (t + 1) + t = r by omega]
                exact hs
              · have := hinv t (by omega)
                rw [show r + 1 - (fails + 1) + t = r - fails + t by omega]
                exact this)
            hmc (by omega)
          refine ⟨n + 1, rs, by omega, ?_, hpw, ?_, ?_⟩
          · intro x hx
            obtain ⟨a1, a2, a3⟩ := hmem x hx
            exact ⟨by omega, by omega, a3⟩
          · simp only [List.replicate_succ, List.cons_append, trace_fs _ _ _ (h1 r),
              trace_send, trace_wait, trace_fs _ _ _ (h2 r), if_neg hs, if_neg hf3, htr]
          · have hp : (fattrcache_client_loop b o k (fuel + 1) method fails r).printed
                  (List.replicate (n + 1) '3' ++ ('!' :: rest))
                = (fattrcache_client_loop b o k fuel method (fails + 1) (r + 1)).printed
                    (List.replicate n '3' ++ ('!' :: rest)) := by
              rw [fattrcache_client_loop, if_pos hm]
              simp only [List.replicate_succ, List.cons_append, printed_fs _ _ _ (h1 r),
                printed_send, printed_wait, printed_fs _ _ _ (h2 r), if_neg hs, if_neg hf3]
            rw [fattrcache_client_loop, if_pos hm] at hp
            rw [hp]
            rcases hpr with ⟨hl, he⟩ | ⟨hl, h3n, hd, he⟩
            · exact Or.inl ⟨hl, he⟩
            · right
              refine ⟨hl, by omega, ?_, he⟩
              intro t ht
              have := hd t ht
              rw [show r + (n + 1) - 3 + t = r + 1 + n - 3 + t by omega]
              exact this
    · rw [if_neg hm]
      have hmeq : NFS_CACHE_FLUSH_METHOD_COUNT b - method = 0 := by omega
      refine ⟨0, [], by omega, fun x hx => absurd hx (List.not_mem_nil x), List.Pairwise.nil, ?_, Or.inl ⟨?_, ?_⟩⟩
      · simp only [List.replicate_zero, List.nil_append, trace_send, trace_wait]
      · simp only [List.length_nil]; omega
      · simp only [List.replicate_zero, List.nil_append, printed_send, printed_wait,
          fattr_result_lines, List.nil_append]

/-- C19 (amended): when no call ends in `i_fatal` and no loop is ended early,
the file-handle-cache, negative-handle-cache, data-cache and write-visibility
clients go through the ordinals 0, 1, ..., `NFS_CACHE_FLUSH_METHOD_COUNT - 1`
in increasing order and print the lines of one round, with one result line
naming the method, per ordinal; the attribute-cache client starts at 1 and
never tests `NONE`: whatever the mtimes it sees, it runs some number `n` of
rounds, at most `3 * (NFS_CACHE_FLUSH_METHOD_COUNT - 1)`, and returns, and
either it was not ended early and the rounds `rs` in which it applied a method
(the others print nothing) are `NFS_CACHE_FLUSH_METHOD_COUNT - 1` rounds that
tested the ordinals 1, ..., `NFS_CACHE_FLUSH_METHOD_COUNT - 1` in increasing
order, one result line each, or it was ended early after three rounds in a row
that saw the mtime changed, and then the rounds before tested the ordinals from
1 on in increasing order.  It is not ended early when no three rounds in a row
see the mtime changed.  The names of the methods of a build are pairwise
distinct, so a result line tells its ordinal. -/
theorem C19_catalog_iteration (b : Build) (h : Bool) (o : ClientObs) (reply : Nat → Char)
    (hF : o.fattrcache.no_fatal) (hH : o.fhandlecache.steady) (hG : o.neg_fhandlecache.steady)
    (hD : o.data_cache.steady) (hW : o.write_flush.steady) :
    (∃ (n : Nat) (rs : List Nat),
      n ≤ 3 * (NFS_CACHE_FLUSH_METHOD_COUNT b - 1) ∧
      rs.Pairwise (fun x y => x < y) ∧
      (∀ x, x ∈ rs → x < n ∧ o.fattrcache.st1_mtime x = o.fattrcache.st2_mtime x) ∧
      ((nfs_test_fattrcache_client b o.fattrcache Proc.ret).trace
        ('1' :: (List.replicate n '3' ++ ['!']))).2 = Proc.ret ∧
      ((rs.length = NFS_CACHE_FLUSH_METHOD_COUNT b - 1 ∧
        (nfs_test_fattrcache_client b o.fattrcache Proc.ret).printed
            ('1' :: (List.replicate n '3' ++ ['!']))
          = "\nTesting file attribute cache..\n" ::
            fattr_result_lines b o.fattrcache 1 rs) ∨
       (rs.length < NFS_CACHE_FLUSH_METHOD_COUNT b - 1 ∧ 3 ≤ n ∧
        (∀ t, t < 3 →
          o.fattrcache.st1_mtime (n - 3 + t) ≠ o.fattrcache.st2_mtime (n - 3 + t)) ∧
        (nfs_test_fattrcache_client b o.fattrcache Proc.ret).printed
            ('1' :: (List.replicate n '3' ++ ['!']))
          = "\nTesting file attribute cache..\n" ::
            (fattr_result_lines b o.fattrcache 1 rs ++
              ["NFS attribute cache seems to be disabled\n"]))) ∧
      ((∀ r, ¬ (o.fattrcache.st1_mtime r ≠ o.fattrcache.st2_mtime r ∧
          o.fattrcache.st1_mtime (r + 1) ≠ o.fattrcache.st2_mtime (r + 1) ∧
          o.fattrcache.st1_mtime (r + 2) ≠ o.fattrcache.st2_mtime (r + 2))) →
        rs.length = NFS_CACHE_FLUSH_METHOD_COUNT b - 1 ∧
        (nfs_test_fattrcache_client b o.fattrcache Proc.ret).printed
            ('1' :: (List.replicate n '3' ++ ['!']))
          = "\nTesting file attribute cache..\n" ::
            fattr_result_lines b o.fattrcache 1 rs)) ∧
    ((∀ r, o.fattrcache.st1_mtime r = o.fattrcache.st2_mtime r) →
      (nfs_test_fattrcache_client b o.fattrcache Proc.ret).printed
          ('1' :: (List.replicate (NFS_CACHE_FLUSH_METHOD_COUNT b - 1) '3' ++ ['!']))
        = "\nTesting file attribute cache..\n" ::
          concat_from (fun r => fattr_round_lines b o.fattrcache (r + 1) r)
            (NFS_CACHE_FLUSH_METHOD_COUNT b - 1) 0) ∧
    (∃ tail, (nfs_test_fhandlecache_client b o.fhandlecache Proc.ret).printed
        ('1' :: (List.replicate (NFS_CACHE_FLUSH_METHOD_COUNT b) '3' ++ ['!']))
      = "\nTesting file handle cache..\n" ::
        (((if o.fhandlecache.stat_temp1_ret < 0 then ["stat(%s) failed: %m"] else []) ++
          (if o.fhandlecache.stat_temp2_ret < 0 then ["stat(%s) failed: %m"] else []) ++
          (if o.fhandlecache.ino1 = o.fhandlecache.ino2
            then ["Temp files' inodes are the same.."] else [])) ++
        concat_from (fhandle_round_lines b o.fhandlecache) (NFS_CACHE_FLUSH_METHOD_COUNT b) 0 ++
        tail) ∧
      (tail = [] ∨
        tail = ["Looks like there's no way to flush directory's attribute cache\n"])) ∧
    (nfs_test_neg_fhandlecache_client b o.neg_fhandlecache Proc.ret).printed
        ('1' :: (concat_from (fun _ => ['3', '5']) (NFS_CACHE_FLUSH_METHOD_COUNT b) 0 ++ ['!']))
      = "\nTesting negative file handle cache..\n" ::
        concat_from (neg_round_lines b o.neg_fhandlecache) (NFS_CACHE_FLUSH_METHOD_COUNT b) 0 ∧
    (nfs_test_data_cache_client b h o.data_cache Proc.ret).printed
        ('1' :: (concat_from (fun m => ['3', Char.ofNat (98 + m)])
          (NFS_CACHE_FLUSH_METHOD_COUNT b) 0 ++ ['!']))
      = "\nTesting data cache..\n" :: (o.data_cache.flush_open.lines ++
        concat_from (fun m => data_round_lines b h o.data_cache m (Char.ofNat (98 + m)))
          (NFS_CACHE_FLUSH_METHOD_COUNT b) 0) ∧
    (nfs_test_write_flush_client b o.write_flush Proc.ret).printed
        (concat_from (fun m => [reply m]) (NFS_CACHE_FLUSH_METHOD_COUNT b) 0 ++ ['!'])
      = "\nTesting write flushing..\n" ::
        concat_from (fun m => write_flush_round_lines b o.write_flush m (reply m))
          (NFS_CACHE_FLUSH_METHOD_COUNT b) 0 ∧
    (∀ m1 m2, m1 < NFS_CACHE_FLUSH_METHOD_COUNT b → m2 < NFS_CACHE_FLUSH_METHOD_COUNT b →
      method_name b m1 = method_name b m2 → m1 = m2) := by
  have hb := count_bounds b
  obtain ⟨f1, f2, f3, f4, f6, f7⟩ := hF
  obtain ⟨g1, g2, g3, g4, g5, g6, g7⟩ := hH
  obtain ⟨n1, n2, n3, n4, n5, n6, n7⟩ := hG
  obtain ⟨d1, d2, d3, d4, d5, d6, d7, d8, d9, d10, d11, d12⟩ := hD
  obtain ⟨w1, w2, w3⟩ := hW
  refine ⟨?_, ?_, ?_, ?_, ?_, ?_, method_name_injective b⟩
  · obtain ⟨n, rs, hn, hmem, hpw, htr, hpr⟩ := fattrcache_loop_general b o.fattrcache Proc.ret []
      f2 f3 f4 f6 f7 (3 * NFS_CACHE_FLUSH_METHOD_COUNT b) 1 0 0 (by omega) (by omega)
      (fun t ht => by omega) (by omega) (by omega)
    have hT : ((nfs_test_fattrcache_client b o.fattrcache Proc.ret).trace
        ('1' :: (List.replicate n '3' ++ ['!']))).2 = Proc.ret := by
      simp only [nfs_test_fattrcache_client, trace_out, trace_send, trace_wait,
        trace_fs _ _ _ f1, htr]
      rfl
    have hP : (nfs_test_fattrcache_client b o.fattrcache Proc.ret).printed
          ('1' :: (List.replicate n '3' ++ ['!']))
        = "\nTesting file attribute cache..\n" ::
          (fattrcache_client_loop b o.fattrcache Proc.ret
            (3 * NFS_CACHE_FLUSH_METHOD_COUNT b) 1 0 0).printed
            (List.replicate n '3' ++ ['!']) := by
      simp only [nfs_test_fattrcache_client, printed_out, printed_send, printed_wait,
        printed_fs _ _ _ f1, List.singleton_append]
    have hdich : (rs.length = NFS_CACHE_FLUSH_METHOD_COUNT b - 1 ∧
        (nfs_test_fattrcache_client b o.fattrcache Proc.ret).printed
            ('1' :: (List.replicate n '3' ++ ['!']))
          = "\nTesting file attribute cache..\n" ::
            fattr_result_lines b o.fattrcache 1 rs) ∨
       (rs.length < NFS_CACHE_FLUSH_METHOD_COUNT b - 1 ∧ 3 ≤ n ∧
        (∀ t, t < 3 →
          o.fattrcache.st1_mtime (n - 3 + t) ≠ o.fattrcache.st2_mtime (n - 3 + t)) ∧
        (nfs_test_fattrcache_client b o.fattrcache Proc.ret).printed
            ('1' :: (List.replicate n '3' ++ ['!']))
          = "\nTesting file attribute cache..\n" ::
            (fattr_result_lines b o.fattrcache 1 rs ++
              ["NFS attribute cache seems to be disabled\n"])) := by
      rcases hpr with ⟨hl, he⟩ | ⟨hl, h3n, hd, he⟩
      · left
        refine ⟨hl, ?_⟩
        rw [hP, he]
        simp [Proc.printed]
      · right
        refine ⟨hl, by omega, ?_, ?_⟩
        · intro t ht
          have := hd t ht
          rw [show 0 + n - 3 + t = n - 3 + t by omega] at this
          exact this
        · rw [hP, he]
          simp [Proc.printed]
    refine ⟨n, rs, by omega, hpw, fun x hx => ⟨by have := (hmem x hx).2.1; omega,
      (hmem x hx).2.2⟩, hT, hdich, ?_⟩
    intro hno
    rcases hdich with hA | ⟨hl, h3n, hd, he⟩
    · exact hA
    · exfalso
      refine hno (n - 3) ⟨?_, ?_, ?_⟩
      · simpa using hd 0 (by omega)
      · exact hd 1 (by omega)
      · exact hd 2 (by omega)
  · intro f5
    have key := fattrcache_loop_printed b o.fattrcache Proc.ret [] f2 f3 f4 f5 f6 f7
      (NFS_CACHE_FLUSH_METHOD_COUNT b - 1) 0 (3 * NFS_CACHE_FLUSH_METHOD_COUNT b)
      (by omega) (by omega)
    simp only [nfs_test_fattrcache_client, printed_out, printed_send, printed_wait,
      printed_fs _ _ _ f1, List.singleton_append]
    rw [key]
    simp [Proc.printed, fattr_round_lines]
  · obtain ⟨s1, hs1⟩ := fhandlecache_loop_printed b o.fhandlecache
      (fun success =>
        send_cmd '4' <|
        Proc.out (if success then []
          else ["Looks like there's no way to flush directory's attribute cache\n"]) <|
        wait_cmd '!' Proc.ret) ['!'] g3 g4 g5 g6 g7 (NFS_CACHE_FLUSH_METHOD_COUNT b) 0 false
    refine ⟨if s1 then []
      else ["Looks like there's no way to flush directory's attribute cache\n"], ?_, ?_⟩
    · simp only [nfs_test_fhandlecache_client, printed_out, printed_send, printed_wait,
        printed_fs _ _ _ g1, printed_fs _ _ _ g2, List.singleton_append]
      rw [hs1]
      have e : fhandle_round_lines b o.fhandlecache = fun m =>
          (o.fhandlecache.flush_before m).lines ++ (o.fhandlecache.flush_after m).lines ++
            fhandlecache_lines b o.fhandlecache m := rfl
      rw [e]
      simp [printed_send, printed_out, printed_wait, Proc.printed]
    · cases s1 <;> simp
  · have key := neg_fhandlecache_loop_printed b o.neg_fhandlecache
      (send_cmd '6' (wait_cmd '!' Proc.ret)) ['!'] n3 n4 n5 n6 n7
      (NFS_CACHE_FLUSH_METHOD_COUNT b) 0
    simp only [nfs_test_neg_fhandlecache_client, printed_out, printed_send, printed_wait,
      printed_fs _ _ _ n1, printed_fs _ _ _ n2, List.singleton_append]
    rw [key]
    have e : neg_round_lines b o.neg_fhandlecache = fun m =>
        (o.neg_fhandlecache.flush_before m).lines ++ (o.neg_fhandlecache.flush_after m).lines ++
        (["Negative file handle cache flush " ++ method_name b m ++ ": " ++
          (if ¬ o.neg_fhandlecache.stat_ret m = 0 then "failed" else "OK") ++ "\n"] ++
         (if o.neg_fhandlecache.stat_ret m = 0 ∧ o.neg_fhandlecache.st_mtime m ≠ (m : Int) then
           [" - mtime is wrong though\n"] else [])) := rfl
    rw [e]
    simp [printed_send, printed_wait, Proc.printed]
  · obtain ⟨n, hN⟩ : ∃ n, NFS_CACHE_FLUSH_METHOD_COUNT b = n + 1 :=
      Nat.exists_eq_succ_of_ne_zero (by omega)
    have key := data_cache_loop_printed b h o.data_cache (send_cmd '5' (wait_cmd '!' Proc.ret))
      ['!'] d5 d6 d7 d8 d9 d10 d11 d12 n 0 (by omega)
    obtain ⟨i1, i2⟩ := d4
    have i3 : ¬ (List.range o.data_cache.read0_ret.toNat).all
        (fun i => o.data_cache.buf0 i == 'a') = false := by simp [i2]
    simp only [nfs_test_data_cache_client, printed_out, printed_send, printed_wait,
      printed_fs _ _ _ d1, printed_fs _ _ _ d3, printed_flush _ _ d2, List.singleton_append,
      if_neg i1, if_neg i3]
    rw [hN]
    have e98 : (Char.ofNat (98 + 0)) = 'b' := rfl
    rw [e98] at key
    rw [key]
    simp [printed_send, printed_wait, Proc.printed]
  · have key := write_flush_loop_printed b o.write_flush (send_cmd '3' (wait_cmd '!' Proc.ret))
      ['!'] reply w2 w3 (NFS_CACHE_FLUSH_METHOD_COUNT b) 0
    simp only [nfs_test_write_flush_client, printed_out, printed_send, printed_wait,
      printed_fs _ _ _ w1, List.singleton_append]
    rw [key]
    simp [printed_send, printed_wait, Proc.printed, write_flush_round_lines]

/-- C19 at sample observations, in the build with 19 methods: at the steady
observations the attribute-cache client prints the rounds of the ordinals 1 to
18 and the write-visibility client those of the ordinals 0 to 18; at the
retrying observations, where two rounds out of three see the mtime changed
before any flush, the attribute-cache client is not ended early and still
prints the result lines of 18 rounds, testing the ordinals 1 to 18 in
increasing order. -/
theorem C19_catalog_iteration_witness :
    client_obs_steady.fattrcache.no_fatal ∧ client_obs_steady.fhandlecache.steady ∧
    client_obs_steady.neg_fhandlecache.steady ∧ client_obs_steady.data_cache.steady ∧
    client_obs_steady.write_flush.steady ∧
    (nfs_test_fattrcache_client ⟨true, true⟩ client_obs_steady.fattrcache Proc.ret).printed
        ('1' :: (List.replicate (NFS_CACHE_FLUSH_METHOD_COUNT ⟨true, true⟩ - 1) '3' ++ ['!']))
      = "\nTesting file attribute cache..\n" ::
        concat_from (fun r => fattr_round_lines ⟨true, true⟩ client_obs_steady.fattrcache (r + 1) r)
          (NFS_CACHE_FLUSH_METHOD_COUNT ⟨true, true⟩ - 1) 0 ∧
    (nfs_test_write_flush_client ⟨true, true⟩ client_obs_steady.write_flush Proc.ret).printed
        (concat_from (fun m => [(fun _ => 'O') m])
          (NFS_CACHE_FLUSH_METHOD_COUNT ⟨true, true⟩) 0 ++ ['!'])
      = "\nTesting write flushing..\n" ::
        concat_from (fun m => write_flush_round_lines ⟨true, true⟩ client_obs_steady.write_flush m
            ((fun _ => 'O') m))
          (NFS_CACHE_FLUSH_METHOD_COUNT ⟨true, true⟩) 0 ∧
    client_obs_retry.fattrcache.no_fatal ∧
    (∃ (n : Nat) (rs : List Nat), n ≤ 54 ∧ rs.length = 18 ∧
      rs.Pairwise (fun x y => x < y) ∧
      ((nfs_test_fattrcache_client ⟨true, true⟩ client_obs_retry.fattrcache Proc.ret).trace
        ('1' :: (List.replicate n '3' ++ ['!']))).2 = Proc.ret ∧
      (nfs_test_fattrcache_client ⟨true, true⟩ client_obs_retry.fattrcache Proc.ret).printed
          ('1' :: (List.replicate n '3' ++ ['!']))
        = "\nTesting file attribute cache..\n" ::
          fattr_result_lines ⟨true, true⟩ client_obs_retry.fattrcache 1 rs) :=
  have hF : client_obs_steady.fattrcache.no_fatal := by
    simp [FattrClientObs.no_fatal, client_obs_steady, client_obs_ok, flush_quiet]
  have hH : client_obs_steady.fhandlecache.steady := by
    simp [FhandleClientObs.steady, client_obs_steady, client_obs_ok, flush_quiet]
  have hG : client_obs_steady.neg_fhandlecache.steady := by
    simp [NegClientObs.steady, client_obs_steady, client_obs_ok, flush_quiet]
  have hD : client_obs_steady.data_cache.steady := by
    simp [DataClientObs.steady, DataClientObs.initial_read_ok, client_obs_steady, data_obs_ok,
      data_obs_empty_read, flush_quiet]
  have hW : client_obs_steady.write_flush.steady := by
    simp [WriteFlushClientObs.steady, client_obs_steady, client_obs_ok, flush_quiet]
  have hE : ∀ r, client_obs_steady.fattrcache.st1_mtime r
      = client_obs_steady.fattrcache.st2_mtime r := by
    simp [client_obs_steady, client_obs_ok]
  have hR : client_obs_retry.fattrcache.no_fatal := by
    simp [FattrClientObs.no_fatal, client_obs_retry, fattr_obs_retry, flush_quiet]
  have hN : ∀ r, ¬ (client_obs_retry.fattrcache.st1_mtime r
        ≠ client_obs_retry.fattrcache.st2_mtime r ∧
      client_obs_retry.fattrcache.st1_mtime (r + 1)
        ≠ client_obs_retry.fattrcache.st2_mtime (r + 1) ∧
      client_obs_retry.fattrcache.st1_mtime (r + 2)
        ≠ client_obs_retry.fattrcache.st2_mtime (r + 2)) := by
    intro r
    simp only [client_obs_retry, fattr_obs_retry]
    split_ifs <;> omega
  ⟨hF, hH, hG, hD, hW,
    (C19_catalog_iteration ⟨true, true⟩ true client_obs_steady (fun _ => 'O')
      hF hH hG hD hW).2.1 hE,
    (C19_catalog_iteration ⟨true, true⟩ true client_obs_steady (fun _ => 'O')
      hF hH hG hD hW).2.2.2.2.2.1,
    hR,
    (C19_catalog_iteration ⟨true, true⟩ true client_obs_retry (fun _ => 'O')
      hR hH hG hD hW).1.elim (fun n hn => hn.elim (fun rs hrs =>
        ⟨n, rs, hrs.1, (hrs.2.2.2.2.2 hN).1, hrs.2.1, hrs.2.2.2.1, (hrs.2.2.2.2.2 hN).2⟩))⟩

section moves_ok
variable {P : Config → Prop} {s k : Proc} {q1 q2 : List Char} {o1 o2 : List String}

theorem ev_c_fs_ok {cond : Prop} [Decidable cond] {msg : String} (hc : ¬ cond)
    (h : Ev P ⟨k, s, q1, q2, o1, o2⟩) :
    Ev P ⟨fs_check cond msg k, s, q1, q2, o1, o2⟩ := by
  simpa [fs_check, hc] using h

theorem ev_c_flush_ok {f : FlushObs} (hf : f.fatal = false)
    (h : Ev P ⟨k, s, q1, q2, o1 ++ f.lines, o2⟩) :
    Ev P ⟨flush f k, s, q1, q2, o1, o2⟩ := by
  unfold flush
  apply ev_c_out
  simpa [hf] using h

theorem ev_s_fs_ok {cond : Prop} [Decidable cond] {msg : String} (hc : ¬ cond)
    (h : Ev P ⟨s, k, q1, q2, o1, o2⟩) :
    Ev P ⟨s, fs_check cond msg k, q1, q2, o1, o2⟩ := by
  simpa [fs_check, hc] using h

theorem ev_s_flush_ok {f : FlushObs} (hb : s.step q2 false = none) (hf : f.fatal = false)
    (h : Ev P ⟨s, k, q1, q2, o1, o2 ++ f.lines⟩) :
    Ev P ⟨s, flush f k, q1, q2, o1, o2⟩ := by
  unfold flush
  apply ev_s_out hb
  simpa [hf] using h

end moves_ok

theorem concat_from_congr {α : Type} (F G : Nat → List α) :
    ∀ (n m : Nat), (∀ i, m ≤ i → i < m + n → F i = G i) →
      concat_from F n m = concat_from G n m := by
  intro n
  induction n with
  | zero => intro m _; rfl
  | succ n ih =>
    intro m hFG
    simp only [concat_from]
    rw [hFG m (Nat.le_refl _) (by omega), ih (m + 1) (fun i h1 h2 => hFG i (by omega) (by omega))]

theorem write_flush_loop_out (b : Build) (o : WriteFlushClientObs) (so : WriteFlushServerObs)
    (os : Nat → ServerObs) (F : Nat) (hF : 0 < F)
    (hw2 : ∀ m, (o.flush_before m).fatal = false) (hw3 : ∀ m, (o.flush_after m).fatal = false)
    (hs2 : ∀ i, (so.flush i).fatal = false) (hs3 : ∀ i, ¬ so.fstat_ret i < 0) :
    ∀ (n method fuel : Nat) (o1 o2 L : List String), n < fuel →
      L = o1 ++ concat_from (fun m => write_flush_round_lines b o m
            (if so.st_size m = 1 + (m : Int) then 'O' else 'E')) n method →
      Ev (fun c => c.in_sync ∧ c.client_out = L)
        ⟨write_flush_client_loop b o (send_cmd '3' (wait_cmd '!' Proc.ret)) n method,
         write_flush_server_loop so (send_cmd '!' (server_dispatch os Proc.ret F)) fuel method,
         [], [], o1, o2⟩ := by
  intro n
  induction n with
  | zero =>
    intro method fuel o1 o2 L hf hL
    obtain ⟨f, rfl⟩ := Nat.exists_eq_succ_of_ne_zero (Nat.ne_of_gt hf)
    obtain ⟨F1, rfl⟩ := Nat.exists_eq_succ_of_ne_zero (Nat.ne_of_gt hF)
    simp only [write_flush_client_loop, write_flush_server_loop]
    apply ev_c_send
    refine ev_s_read (by rfl) ?_
    simp only [Char.reduceEq, ne_eq, not_true_eq_false, not_false_eq_true, reduceIte]
    refine ev_s_send (by rfl) ?_
    apply ev_c_wait
    refine ev_now ⟨⟨rfl, rfl, rfl, os, F1, rfl⟩, ?_⟩
    simp [hL, concat_from]
  | succ n ih =>
    intro method fuel o1 o2 L hf hL
    obtain ⟨f, rfl⟩ := Nat.exists_eq_succ_of_ne_zero
      (Nat.ne_of_gt (Nat.lt_of_le_of_lt (Nat.zero_le _) hf))
    simp only [write_flush_client_loop, write_flush_server_loop]
    refine ev_c_flush_ok (hw2 _) ?_
    apply ev_c_out
    refine ev_c_flush_ok (hw3 _) ?_
    apply ev_c_send
    refine ev_s_read (by rfl) ?_
    simp only [Char.reduceEq, ne_eq, not_true_eq_false, not_false_eq_true, reduceIte]
    refine ev_s_flush_ok (by rfl) (hs2 _) ?_
    refine ev_s_fs_ok (hs3 _) ?_
    refine ev_s_send (by rfl) ?_
    apply ev_c_read
    apply ev_c_out
    refine ih _ _ _ _ _ (by omega) ?_
    rw [hL]
    simp [concat_from, write_flush_round_lines, List.append_assoc]

/-- C20: the write-visibility scenario, run by the two processes with no call
ending in `i_fatal`, comes back in step with the client having printed the
header followed by the lines of exactly `NFS_CACHE_FLUSH_METHOD_COUNT` rounds
in ordinal order, starting with size 1 for method 0; in the round of method
`m` the server answers `O` if and only if the size it sees is `m + 1`, and the
result line of method `m` says `OK` if and only if the answer is `O`.  When
the size seen grows by one in every round, every result line says `OK`.  No
process aborts on the way. -/
theorem C20_write_flush_matrix (b : Build) (oc : WriteFlushClientObs) (os : Nat → ServerObs)
    (fuel : Nat) (hfuel : 21 ≤ fuel) (hc : oc.steady) (hs : (os 0).write_flush.steady) :
    ∃ n,
      (Config.run n (scenario_start (nfs_test_write_flush_client b oc) os fuel)).in_sync ∧
      (Config.run n (scenario_start (nfs_test_write_flush_client b oc) os fuel)).client_out
        = "\nTesting write flushing..\n" ::
          concat_from (fun m => write_flush_round_lines b oc m
              (if (os 0).write_flush.st_size m = 1 + (m : Int) then 'O' else 'E'))
            (NFS_CACHE_FLUSH_METHOD_COUNT b) 0 ∧
      ((∀ m, m < NFS_CACHE_FLUSH_METHOD_COUNT b → (os 0).write_flush.st_size m = 1 + (m : Int)) →
        (Config.run n (scenario_start (nfs_test_write_flush_client b oc) os fuel)).client_out
          = "\nTesting write flushing..\n" ::
            concat_from (fun m =>
                (oc.flush_before m).lines ++
                (if oc.write_ret m ≠ 1 then ["write(%s) failed, method=%s: %m"] else []) ++
                (oc.flush_after m).lines ++
                ["Write flush " ++ method_name b m ++ ": OK\n"])
              (NFS_CACHE_FLUSH_METHOD_COUNT b) 0) ∧
      (∀ m, ¬ (Config.run m
        (scenario_start (nfs_test_write_flush_client b oc) os fuel)).aborted) := by
  have hb := count_bounds b
  obtain ⟨w1, w2, w3⟩ := hc
  obtain ⟨s1, s2, s3⟩ := hs
  have key : Ev (fun c => c.in_sync ∧ c.client_out = "\nTesting write flushing..\n" ::
          concat_from (fun m => write_flush_round_lines b oc m
              (if (os 0).write_flush.st_size m = 1 + (m : Int) then 'O' else 'E'))
            (NFS_CACHE_FLUSH_METHOD_COUNT b) 0)
      (scenario_start (nfs_test_write_flush_client b oc) os fuel) := by
    obtain ⟨F, rfl⟩ : ∃ F, fuel = F + 1 := Nat.exists_eq_succ_of_ne_zero (by omega)
    unfold scenario_start nfs_test_write_flush_client
    obtain ⟨n, hN⟩ : ∃ n, NFS_CACHE_FLUSH_METHOD_COUNT b = n + 1 :=
      Nat.exists_eq_succ_of_ne_zero (by omega)
    obtain ⟨f, rfl⟩ : ∃ f, F = f + 1 := Nat.exists_eq_succ_of_ne_zero (by omega)
    rw [hN]
    simp only [write_flush_client_loop]
    apply ev_c_send
    apply ev_c_out
    refine ev_c_fs_ok w1 ?_
    apply ev_c_send
    refine ev_c_flush_ok (w2 _) ?_
    apply ev_c_out
    refine ev_c_flush_ok (w3 _) ?_
    apply ev_c_send
    refine ev_s_read (by rfl) ?_
    simp only [find_W, commands, List.get?, nfs_test_write_flush_server, write_flush_server_loop]
    refine ev_s_wait (by rfl) ?_
    refine ev_s_fs_ok s1 ?_
    refine ev_s_read (by rfl) ?_
    simp only [Char.reduceEq, ne_eq, not_true_eq_false, not_false_eq_true, reduceIte]
    refine ev_s_flush_ok (by rfl) (s2 _) ?_
    refine ev_s_fs_ok (s3 _) ?_
    refine ev_s_send (by rfl) ?_
    apply ev_c_read
    apply ev_c_out
    refine write_flush_loop_out b oc _ _ _ (by omega) w2 w3 s2 s3 _ _ _ _ _ _ ?_ ?_
    · omega
    · simp [concat_from, write_flush_round_lines, List.append_assoc]
  obtain ⟨n, hn1, hn2⟩ := key
  refine ⟨n, hn1, hn2, ?_, never_aborted_of_in_sync hn1⟩
  intro hall
  rw [hn2]
  congr 1
  apply concat_from_congr
  intro i _ hi
  have e : ": " ++ ("OK" ++ "\n") = ": OK\n" := by decide
  simp only [write_flush_round_lines, hall i (by omega), reduceIte]
  rw [String.append_assoc, String.append_assoc, e]

/-- C20 at sample observations in the build with 19 methods, where the server
sees the size grow by one in every round: the scenario comes back in step and
all 19 result lines say `OK`. -/
theorem C20_write_flush_matrix_witness :
    21 ≤ 64 ∧ client_obs_ok.write_flush.steady ∧ server_obs_ok.write_flush.steady ∧
    ∃ n,
      (Config.run n (scenario_start (nfs_test_write_flush_client ⟨true, true⟩
        client_obs_ok.write_flush) (fun _ => server_obs_ok) 64)).in_sync ∧
      (Config.run n (scenario_start (nfs_test_write_flush_client ⟨true, true⟩
        client_obs_ok.write_flush) (fun _ => server_obs_ok) 64)).client_out
        = "\nTesting write flushing..\n" ::
          concat_from (fun m =>
              (client_obs_ok.write_flush.flush_before m).lines ++
              (if client_obs_ok.write_flush.write_ret m ≠ 1
                then ["write(%s) failed, method=%s: %m"] else []) ++
              (client_obs_ok.write_flush.flush_after m).lines ++
              ["Write flush " ++ method_name ⟨true, true⟩ m ++ ": OK\n"])
            (NFS_CACHE_FLUSH_METHOD_COUNT ⟨true, true⟩) 0 := by
  have hc : client_obs_ok.write_flush.steady := by
    simp [WriteFlushClientObs.steady, client_obs_ok, flush_quiet]
  have hs : server_obs_ok.write_flush.steady := by
    simp [WriteFlushServerObs.steady, server_obs_ok, flush_quiet]
  obtain ⟨n, h1, _, h3, _⟩ := C20_write_flush_matrix ⟨true, true⟩ client_obs_ok.write_flush
    (fun _ => server_obs_ok) 64 (by decide) hc hs
  exact ⟨by decide, hc, hs, n, h1, h3 (fun _ _ => rfl)⟩

theorem ev_of_run {P : Config → Prop} {c : Config} (n : Nat) (h : Ev P (Config.run n c)) :
    Ev P c := by
  obtain ⟨m, hm⟩ := h
  exact ⟨n + m, by rw [run_add]; exact hm⟩

theorem client_runs_until_blocked (s : Proc) (o2 : List String) :
    ∀ (p : Proc) (q1 q2 : List Char) (o1 : List String),
      ∃ n p1 q3 sent lines,
        Config.run n ⟨p, s, q1, q2, o1, o2⟩ = ⟨p1, s, q1 ++ sent, q3, o1 ++ lines, o2⟩ ∧
        p1.step q3 s.gone = none := by
  intro p
  induction p with
  | write c k ih =>
    intro q1 q2 o1
    obtain ⟨n, p1, q3, sent, lines, h1, h2⟩ := ih 1 (q1 ++ [c]) q2 o1
    refine ⟨n + 1, p1, q3, c :: sent, lines, ?_, h2⟩
    have hs : Config.step ⟨Proc.write c k, s, q1, q2, o1, o2⟩
        = some ⟨k 1, s, q1 ++ [c], q2, o1, o2⟩ := by
      simp [Config.step, Proc.step]
    simp only [Config.run, hs]
    rw [h1]
    simp
  | read k ih =>
    intro q1 q2 o1
    cases q2 with
    | nil =>
      cases hg : s.gone with
      | false =>
        refine ⟨0, Proc.read k, [], [], [], ?_, ?_⟩
        · simp [Config.run]
        · simp [Proc.step]
      | true =>
        obtain ⟨n, p1, q3, sent, lines, h1, h2⟩ := ih 0 (Char.ofNat 0) q1 [] o1
        refine ⟨n + 1, p1, q3, sent, lines, ?_, by rw [← hg]; exact h2⟩
        have hs : Config.step ⟨Proc.read k, s, q1, [], o1, o2⟩
            = some ⟨k 0 (Char.ofNat 0), s, q1, [], o1, o2⟩ := by
          simp [Config.step, Proc.step, hg]
        simp only [Config.run, hs]
        exact h1
    | cons c rest =>
      obtain ⟨n, p1, q3, sent, lines, h1, h2⟩ := ih 1 c q1 rest o1
      refine ⟨n + 1, p1, q3, sent, lines, ?_, h2⟩
      have hs : Config.step ⟨Proc.read k, s, q1, c :: rest, o1, o2⟩
          = some ⟨k 1 c, s, q1, rest, o1, o2⟩ := by
        simp [Config.step, Proc.step]
      simp only [Config.run, hs]
      exact h1
  | out ls k ih =>
    intro q1 q2 o1
    obtain ⟨n, p1, q3, sent, lines, h1, h2⟩ := ih q1 q2 (o1 ++ ls)
    refine ⟨n + 1, p1, q3, sent, ls ++ lines, ?_, h2⟩
    have hs : Config.step ⟨Proc.out ls k, s, q1, q2, o1, o2⟩
        = some ⟨k, s, q1, q2, o1 ++ ls, o2⟩ := by
      simp [Config.step, Proc.step]
    simp only [Config.run, hs]
    rw [h1]
    simp
  | exit f =>
    intro q1 q2 o1
    exact ⟨0, Proc.exit f, q2, [], [], by simp [Config.run], rfl⟩
  | ret =>
    intro q1 q2 o1
    exact ⟨0, Proc.ret, q2, [], [], by simp [Config.run], rfl⟩
  | nofuel =>
    intro q1 q2 o1
    exact ⟨0, Proc.nofuel, q2, [], [], by simp [Config.run], rfl⟩

theorem ev_c_settle {P : Config → Prop} {p s : Proc} {q1 q2 : List Char} {o1 o2 : List String}
    (h : ∀ p1 q3 sent lines, p1.step q3 s.gone = none →
      Ev P ⟨p1, s, q1 ++ sent, q3, o1 ++ lines, o2⟩) :
    Ev P ⟨p, s, q1, q2, o1, o2⟩ := by
  obtain ⟨n, p1, q3, sent, lines, h1, h2⟩ := client_runs_until_blocked s o2 p q1 q2 o1
  apply ev_of_run n
  rw [h1]
  exact h p1 q3 sent lines h2

theorem dispatch_blocked (o : Nat → ServerObs) (k : Proc) (fuel : Nat) :
    (server_dispatch o k fuel).step [] false = none := by
  cases fuel <;> rfl

theorem out_mono_step {c c1 : Config} (hs : c.step = some c1) :
    (∀ x, x ∈ c.client_out → x ∈ c1.client_out) ∧
    (∀ x, x ∈ c.server_out → x ∈ c1.server_out) := by
  obtain ⟨cl, sv, q1, q2, o1, o2⟩ := c
  simp only [Config.step] at hs
  cases h1 : Proc.step cl q2 sv.gone with
  | some r =>
    rw [h1] at hs
    obtain ⟨p, inbox, sent, printed⟩ := r
    simp only [Option.some.injEq] at hs
    subst hs
    exact ⟨fun x hx => List.mem_append_left _ hx, fun x hx => hx⟩
  | none =>
    rw [h1] at hs
    cases h2 : Proc.step sv q1 cl.gone with
    | none => rw [h2] at hs; cases hs
    | some r =>
      rw [h2] at hs
      obtain ⟨p, inbox, sent, printed⟩ := r
      simp only [Option.some.injEq] at hs
      subst hs
      exact ⟨fun x hx => hx, fun x hx => List.mem_append_left _ hx⟩

theorem out_mono_run : ∀ (n : Nat) (c : Config),
    (∀ x, x ∈ c.client_out → x ∈ (Config.run n c).client_out) ∧
    (∀ x, x ∈ c.server_out → x ∈ (Config.run n c).server_out) := by
  intro n
  induction n with
  | zero => intro c; exact ⟨fun x hx => hx, fun x hx => hx⟩
  | succ n ih =>
    intro c
    cases hs : c.step with
    | none => simp only [Config.run, hs]; exact ⟨fun x hx => hx, fun x hx => hx⟩
    | some c1 =>
      simp only [Config.run, hs]
      obtain ⟨a1, a2⟩ := out_mono_step hs
      obtain ⟨b1, b2⟩ := ih c1
      exact ⟨fun x hx => b1 x (a1 x hx), fun x hx => b2 x (a2 x hx)⟩

theorem handshake_done_mono {c : Config} (n : Nat) (h : c.handshake_done) :
    (Config.run n c).handshake_done := by
  obtain ⟨a1, a2⟩ := out_mono_run n c
  obtain ⟨h1, h2⟩ := h
  exact ⟨h1.imp (a1 _) (a1 _), h2.imp (a2 _) (a2 _)⟩

theorem never_handshake_of_stuck {c : Config} (n : Nat) (hs : (Config.run n c).step = none)
    (hn : ¬ (Config.run n c).handshake_done) : ∀ m, ¬ (Config.run m c).handshake_done := by
  intro m hm
  have h1 := handshake_done_mono n hm
  rw [← run_add, Nat.add_comm, run_add, run_of_step_none hs] at h1
  exact hn h1

theorem session_roles (rl rc : Bool) (l : ListenObs) (cn : ConnectObs) (el ec : RoleEnv)
    (k : Proc) (hl : l.ok) (hcn : cn.ok) :
    nfs_listen rl l el k
      = Proc.out ["Listening for client on port %u..\n"]
          (if rl = false then nfs_test_server el.unlink_ret el.unlink_errno el.server_obs el.fuel k
           else nfs_test_client el.build el.have_st_nsecs el.unlink_ret el.unlink_errno
             el.client_obs el.cmdstr k) ∧
    nfs_connect rc cn ec k
      = (if rc = false then
           nfs_test_client ec.build ec.have_st_nsecs ec.unlink_ret ec.unlink_errno
             ec.client_obs ec.cmdstr k
         else nfs_test_server ec.unlink_ret ec.unlink_errno ec.server_obs ec.fuel k) := by
  obtain ⟨l1, l2, l3, l4⟩ := hl
  obtain ⟨c1, c2, c3⟩ := hcn
  constructor
  · cases rl <;> simp [nfs_listen, fs_check, l1, l2, l3, l4]
  · cases rc <;> simp [nfs_connect, fs_check, c1, c2, c3]

theorem role_wire (e : RoleEnv) (k : Proc) (hu : e.unlink_ok) :
    nfs_test_client e.build e.have_st_nsecs e.unlink_ret e.unlink_errno e.client_obs e.cmdstr k
      = send_cmd 'C' (wait_cmd 'S' (Proc.out ["Connected: Acting as test client\n"]
          (client_commands e.build e.have_st_nsecs e.client_obs e.cmdstr (send_cmd 'X' k)
            commands))) ∧
    nfs_test_server e.unlink_ret e.unlink_errno e.server_obs e.fuel k
      = send_cmd 'S' (wait_cmd 'C' (Proc.out ["Connected: Acting as test server\n"]
          (server_dispatch e.server_obs k e.fuel))) := by
  unfold RoleEnv.unlink_ok at hu
  constructor
  · simp only [nfs_test_client, fs_check, if_neg hu]
  · simp only [nfs_test_server, fs_check, if_neg hu]

theorem session_same_off (l : ListenObs) (cn : ConnectObs) (el ec : RoleEnv)
    (hl : l.ok) (hcn : cn.ok) (hul : el.unlink_ok) (huc : ec.unlink_ok) :
    Ev (fun c => "Connected: Acting as test client\n" ∈ c.client_out ∧
                 "Connected: Acting as test server\n" ∈ c.server_out)
      (session_start false false l cn el ec) := by
  unfold session_start
  rw [(session_roles false false l cn el ec Proc.ret hl hcn).1,
    (session_roles false false l cn el ec Proc.ret hl hcn).2]
  simp only [reduceIte]
  rw [(role_wire el Proc.ret hul).2, (role_wire ec Proc.ret huc).1]
  apply ev_c_send
  refine ev_s_out (by rfl) ?_
  refine ev_s_send (by rfl) ?_
  apply ev_c_wait
  apply ev_c_out
  apply ev_c_settle
  intro p1 q3 sent lines hblk
  refine ev_s_wait hblk ?_
  refine ev_s_out hblk ?_
  exact ev_now ⟨by simp, by simp⟩

theorem session_same_on (l : ListenObs) (cn : ConnectObs) (el ec : RoleEnv)
    (hl : l.ok) (hcn : cn.ok) (hul : el.unlink_ok) (huc : ec.unlink_ok) :
    Ev (fun c => "Connected: Acting as test server\n" ∈ c.client_out ∧
                 "Connected: Acting as test client\n" ∈ c.server_out)
      (session_start true true l cn el ec) := by
  unfold session_start
  rw [(session_roles true true l cn el ec Proc.ret hl hcn).1,
    (session_roles true true l cn el ec Proc.ret hl hcn).2]
  simp only [Bool.true_eq_false, reduceIte]
  rw [(role_wire el Proc.ret hul).1, (role_wire ec Proc.ret huc).2]
  apply ev_c_send
  refine ev_s_out (by rfl) ?_
  refine ev_s_send (by rfl) ?_
  apply ev_c_wait
  apply ev_c_out
  refine ev_s_wait (dispatch_blocked _ _ _) ?_
  refine ev_s_out (dispatch_blocked _ _ _) ?_
  exact ev_now ⟨by simp, by simp⟩

theorem session_both_servers (l : ListenObs) (cn : ConnectObs) (el ec : RoleEnv)
    (hl : l.ok) (hcn : cn.ok) (hul : el.unlink_ok) (huc : ec.unlink_ok) :
    Ev (fun c => c.client = Proc.exit (Fatal.unexpected 'S' 'C') ∧
                 c.server = Proc.exit (Fatal.unexpected 'S' 'C') ∧
                 c.client_out = [] ∧ c.server_out = ["Listening for client on port %u..\n"])
      (session_start false true l cn el ec) := by
  unfold session_start
  rw [(session_roles false true l cn el ec Proc.ret hl hcn).1,
    (session_roles false true l cn el ec Proc.ret hl hcn).2]
  simp only [Bool.true_eq_false, reduceIte]
  rw [(role_wire el Proc.ret hul).2, (role_wire ec Proc.ret huc).2]
  apply ev_c_send
  refine ev_s_out (by rfl) ?_
  refine ev_s_send (by rfl) ?_
  unfold wait_cmd
  apply ev_c_read
  simp only [Char.reduceEq, ne_eq, not_true_eq_false, not_false_eq_true, reduceIte]
  refine ev_s_read (by rfl) ?_
  simp only [Char.reduceEq, ne_eq, not_true_eq_false, not_false_eq_true, reduceIte]
  exact ev_now ⟨rfl, rfl, rfl, rfl⟩

theorem session_both_clients (l : ListenObs) (cn : ConnectObs) (el ec : RoleEnv)
    (hl : l.ok) (hcn : cn.ok) (hul : el.unlink_ok) (huc : ec.unlink_ok) :
    Ev (fun c => c.client = Proc.exit (Fatal.unexpected 'C' 'S') ∧
                 c.server = Proc.exit (Fatal.unexpected 'C' 'S') ∧
                 c.client_out = [] ∧ c.server_out = ["Listening for client on port %u..\n"])
      (session_start true false l cn el ec) := by
  unfold session_start
  rw [(session_roles true false l cn el ec Proc.ret hl hcn).1,
    (session_roles true false l cn el ec Proc.ret hl hcn).2]
  simp only [Bool.true_eq_false, reduceIte]
  rw [(role_wire el Proc.ret hul).1, (role_wire ec Proc.ret huc).1]
  apply ev_c_send
  refine ev_s_out (by rfl) ?_
  refine ev_s_send (by rfl) ?_
  unfold wait_cmd
  apply ev_c_read
  simp only [Char.reduceEq, ne_eq, not_true_eq_false, not_false_eq_true, reduceIte]
  refine ev_s_read (by rfl) ?_
  simp only [Char.reduceEq, ne_eq, not_true_eq_false, not_false_eq_true, reduceIte]
  exact ev_now ⟨rfl, rfl, rfl, rfl⟩

theorem server_ne_client (el : RoleEnv) (k : Proc) (hu : el.unlink_ok) :
    nfs_test_server el.unlink_ret el.unlink_errno el.server_obs el.fuel k
      ≠ nfs_test_client el.build el.have_st_nsecs el.unlink_ret el.unlink_errno
          el.client_obs el.cmdstr k := by
  rw [(role_wire el k hu).1, (role_wire el k hu).2]
  simp [send_cmd]

/-- C14: with the socket calls succeeding and no `unlink` ending in `i_fatal`,
the listening process runs `nfs_test_server` exactly when its `reverse` is off
and `nfs_test_client` exactly when it is on, and the connecting process the
other way round; `nfs_test_client` sends `C` and waits for `S`, and
`nfs_test_server` sends `S` and waits for `C`, whatever `reverse` is; both
processes get past the handshake if and only if their `reverse` settings are
equal; with both off the connecting process prints the client line and the
listening process the server line, with both on it is the other way round;
with different settings both processes end in the abort of `wait_cmd`. -/
theorem C14_roles_and_handshake (rl rc : Bool) (l : ListenObs) (cn : ConnectObs)
    (el ec : RoleEnv) (hl : l.ok) (hcn : cn.ok) (hul : el.unlink_ok) (huc : ec.unlink_ok) :
    (nfs_listen rl l el Proc.ret = Proc.out ["Listening for client on port %u..\n"]
        (nfs_test_server el.unlink_ret el.unlink_errno el.server_obs el.fuel Proc.ret)
      ↔ rl = false) ∧
    (nfs_listen rl l el Proc.ret = Proc.out ["Listening for client on port %u..\n"]
        (nfs_test_client el.build el.have_st_nsecs el.unlink_ret el.unlink_errno
          el.client_obs el.cmdstr Proc.ret)
      ↔ rl = true) ∧
    (nfs_connect rc cn ec Proc.ret
        = nfs_test_client ec.build ec.have_st_nsecs ec.unlink_ret ec.unlink_errno
            ec.client_obs ec.cmdstr Proc.ret
      ↔ rc = false) ∧
    (nfs_connect rc cn ec Proc.ret
        = nfs_test_server ec.unlink_ret ec.unlink_errno ec.server_obs ec.fuel Proc.ret
      ↔ rc = true) ∧
    (∀ (e : RoleEnv) (k : Proc), e.unlink_ok →
      nfs_test_client e.build e.have_st_nsecs e.unlink_ret e.unlink_errno e.client_obs
          e.cmdstr k
        = send_cmd 'C' (wait_cmd 'S' (Proc.out ["Connected: Acting as test client\n"]
            (client_commands e.build e.have_st_nsecs e.client_obs e.cmdstr (send_cmd 'X' k)
              commands))) ∧
      nfs_test_server e.unlink_ret e.unlink_errno e.server_obs e.fuel k
        = send_cmd 'S' (wait_cmd 'C' (Proc.out ["Connected: Acting as test server\n"]
            (server_dispatch e.server_obs k e.fuel)))) ∧
    ((∃ n, (Config.run n (session_start rl rc l cn el ec)).handshake_done) ↔ rl = rc) ∧
    (rl = false → rc = false → ∃ n,
      "Connected: Acting as test client\n"
        ∈ (Config.run n (session_start rl rc l cn el ec)).client_out ∧
      "Connected: Acting as test server\n"
        ∈ (Config.run n (session_start rl rc l cn el ec)).server_out) ∧
    (rl = true → rc = true → ∃ n,
      "Connected: Acting as test server\n"
        ∈ (Config.run n (session_start rl rc l cn el ec)).client_out ∧
      "Connected: Acting as test client\n"
        ∈ (Config.run n (session_start rl rc l cn el ec)).server_out) ∧
    (rl ≠ rc → ∃ n cmd wanted,
      (Config.run n (session_start rl rc l cn el ec)).client
        = Proc.exit (Fatal.unexpected cmd wanted) ∧
      (Config.run n (session_start rl rc l cn el ec)).server
        = Proc.exit (Fatal.unexpected cmd wanted)) := by
  have hne := server_ne_client el Proc.ret hul
  have hnc := server_ne_client ec Proc.ret huc
  refine ⟨?_, ?_, ?_, ?_, fun e k hu => role_wire e k hu, ?_, ?_, ?_, ?_⟩
  · rw [(session_roles rl rc l cn el ec Proc.ret hl hcn).1]
    cases rl
    · simp
    · simp only [Bool.true_eq_false, reduceIte, Proc.out.injEq, true_and, iff_false]
      exact fun h => hne h.symm
  · rw [(session_roles rl rc l cn el ec Proc.ret hl hcn).1]
    cases rl
    · simp only [reduceIte, Proc.out.injEq, true_and, Bool.false_eq_true, iff_false]
      exact hne
    · simp
  · rw [(session_roles rl rc l cn el ec Proc.ret hl hcn).2]
    cases rc
    · simp
    · simp only [Bool.true_eq_false, reduceIte, iff_false]
      exact hnc
  · rw [(session_roles rl rc l cn el ec Proc.ret hl hcn).2]
    cases rc
    · simp only [reduceIte, Bool.false_eq_true, iff_false]
      exact fun h => hnc h.symm
    · simp
  · cases rl <;> cases rc
    · obtain ⟨n, h1, h2⟩ := session_same_off l cn el ec hl hcn hul huc
      exact ⟨fun _ => rfl, fun _ => ⟨n, Or.inl h1, Or.inr h2⟩⟩
    · obtain ⟨n, h1, h2, h3, h4⟩ := session_both_servers l cn el ec hl hcn hul huc
      refine ⟨fun ⟨m, hm⟩ => ?_, fun h => by cases h⟩
      exfalso
      refine never_handshake_of_stuck n ?_ ?_ m hm
      · generalize Config.run n (session_start false true l cn el ec) = c at h1 h2
        obtain ⟨p, sv, q1, q2, o1, o2⟩ := c
        simp only at h1 h2
        subst h1 h2
        rfl
      · intro hd
        rw [Config.handshake_done, h3] at hd
        simp at hd
    · obtain ⟨n, h1, h2, h3, h4⟩ := session_both_clients l cn el ec hl hcn hul huc
      refine ⟨fun ⟨m, hm⟩ => ?_, fun h => by cases h⟩
      exfalso
      refine never_handshake_of_stuck n ?_ ?_ m hm
      · generalize Config.run n (session_start true false l cn el ec) = c at h1 h2
        obtain ⟨p, sv, q1, q2, o1, o2⟩ := c
        simp only at h1 h2
        subst h1 h2
        rfl
      · intro hd
        rw [Config.handshake_done, h3] at hd
        simp at hd
    · obtain ⟨n, h1, h2⟩ := session_same_on l cn el ec hl hcn hul huc
      exact ⟨fun _ => rfl, fun _ => ⟨n, Or.inr h1, Or.inl h2⟩⟩
  · intro h1 h2
    subst h1 h2
    exact session_same_off l cn el ec hl hcn hul huc
  · intro h1 h2
    subst h1 h2
    exact session_same_on l cn el ec hl hcn hul huc
  · intro hne2
    cases rl <;> cases rc
    · exact absurd rfl hne2
    · obtain ⟨n, h1, h2, _, _⟩ := session_both_servers l cn el ec hl hcn hul huc
      exact ⟨n, 'S', 'C', h1, h2⟩
    · obtain ⟨n, h1, h2, _, _⟩ := session_both_clients l cn el ec hl hcn hul huc
      exact ⟨n, 'C', 'S', h1, h2⟩
    · exact absurd rfl hne2

/-- C14 at sample processes with `reverse` on in both: the samples meet the
hypotheses and both processes get past the handshake. -/
theorem C14_roles_and_handshake_witness :
    listen_obs_ok.ok ∧ connect_obs_ok.ok ∧ role_env_ok.unlink_ok ∧
    ∃ n, (Config.run n
      (session_start true true listen_obs_ok connect_obs_ok role_env_ok
        role_env_ok)).handshake_done :=
  ⟨by decide, by decide, by decide,
    (C14_roles_and_handshake true true listen_obs_ok connect_obs_ok role_env_ok role_env_ok
      (by decide) (by decide) (by decide) (by decide)).2.2.2.2.2.1.mpr rfl⟩

/-! ## Packed numbers -/

theorem or_shift_eq_add (value d bits : Nat) (h : value < 2 ^ bits) :
    value ||| (d <<< bits) = value + d * 2 ^ bits := by
  rw [Nat.shiftLeft_eq, Nat.lor_comm, Nat.mul_comm d, ← Nat.mul_add_lt_is_or h, Nat.add_comm]

theorem and_7f (c : Nat) : c &&& 0x7f = c % 128 :=
  Nat.and_pow_two_sub_one_eq_mod c 7

theorem unpack_loop_digits (rest : List Nat) :
    ∀ (fuel v value bits n : Nat), v < fuel → value < 2 ^ bits →
      value + v * 2 ^ bits < 2 ^ 32 →
      ∃ value1 bits1 last m,
        unpack_loop (base128_digits fuel v ++ rest) value bits n
          = (value1, bits1, n + m, last :: rest) ∧
        (base128_digits fuel v).length = m + 1 ∧ last < 128 ∧ value1 < 2 ^ bits1 ∧
        value1 + last * 2 ^ bits1 = value + v * 2 ^ bits ∧ bits1 = bits + 7 * m ∧
        v < 2 ^ (7 * (m + 1)) ∧ (m = 0 ∨ 2 ^ (7 * m) ≤ v) := by
  intro fuel
  induction fuel with
  | zero => intro v value bits n hv; omega
  | succ fuel ih =>
    intro v value bits n hv hval hsum
    by_cases h128 : v < 128
    · refine ⟨value, bits, v, 0, ?_, ?_, h128, hval, rfl, rfl, by simpa using h128, Or.inl rfl⟩
      · simp [base128_digits, h128, unpack_loop, Nat.not_le.mpr h128]
      · simp [base128_digits, h128]
    · have hge : 128 ≤ v := Nat.le_of_not_lt h128
      have hpos : 0 < 2 ^ bits := Nat.two_pow_pos bits
      have hp7 : 2 ^ (bits + 7) = 2 ^ bits * 128 := by rw [Nat.pow_add]
      have hv2 : v * 2 ^ bits = (v % 128) * 2 ^ bits + (v / 128) * 2 ^ (bits + 7) := by
        rw [hp7]
        conv_lhs => rw [← Nat.mod_add_div v 128]
        ring
      have hlow : (v % 128) * 2 ^ bits < 128 * 2 ^ bits :=
        Nat.mul_lt_mul_of_pos_right (Nat.mod_lt _ (by decide)) hpos
      have hnew : value + (v % 128) * 2 ^ bits < 2 ^ (bits + 7) := by
        have hmod : v % 128 ≤ 127 := by omega
        have h127 : (v % 128) * 2 ^ bits ≤ 127 * 2 ^ bits := Nat.mul_le_mul_right _ hmod
        rw [hp7]; omega
      have hbits : bits + 7 < 32 := by
        have h1 : 2 ^ (bits + 7) ≤ v * 2 ^ bits := by
          rw [hp7, Nat.mul_comm]; exact Nat.mul_le_mul_right _ hge
        have h2 : 2 ^ (bits + 7) < 2 ^ 32 := by omega
        exact (Nat.pow_lt_pow_iff_right (by decide)).mp h2
      obtain ⟨value1, bits1, last, m, e1, e2, e3, e4, e5, e6, e7, e8⟩ :=
        ih (v / 128) (value + (v % 128) * 2 ^ bits) (bits + 7) (n + 1)
          (by omega) hnew (by omega)
      refine ⟨value1, bits1, last, m + 1, ?_, ?_, e3, e4, ?_, by omega, ?_, Or.inr ?_⟩
      · have hc : (v % 128 + 128) &&& 0x7f = v % 128 := by rw [and_7f]; omega
        have hm1 : (value + v % 128 * 2 ^ bits) % 2 ^ 32 = value + v % 128 * 2 ^ bits :=
          Nat.mod_eq_of_lt (by omega)
        have hm2 : (bits + 7) % 2 ^ 32 = bits + 7 := Nat.mod_eq_of_lt (by omega)
        have hcge : v % 128 + 128 ≥ 0x80 := by omega
        simp only [base128_digits, if_neg h128, List.cons_append, unpack_loop, if_pos hcge, hc,
          or_shift_eq_add _ _ _ hval, hm1, hm2]
        rw [e1, Nat.add_assoc, Nat.add_comm 1 m]
      · simp [base128_digits, h128, e2]
      · rw [e5]; omega
      · have : v / 128 < 2 ^ (7 * (m + 1)) := e7
        have hp : 2 ^ (7 * (m + 1 + 1)) = 2 ^ (7 * (m + 1)) * 128 := by
          rw [show 7 * (m + 1 + 1) = 7 * (m + 1) + 7 by ring, Nat.pow_add]
        rw [hp]
        omega
      · have hp : 2 ^ (7 * (m + 1)) = 2 ^ (7 * m) * 128 := by
          rw [show 7 * (m + 1) = 7 * m + 7 by ring, Nat.pow_add]
        rw [hp]
        rcases e8 with rfl | e8
        · simpa using hge
        · have := Nat.mul_le_mul_right 128 e8
          have h3 : v / 128 * 128 ≤ v := Nat.div_mul_le_self v 128
          omega

theorem unpack_loop_no_end :
    ∀ (input : List Nat) (value bits n : Nat), (∀ c, c ∈ input → 0x80 ≤ c) →
      (unpack_loop input value bits n).2.2.2 = [] := by
  intro input
  induction input with
  | nil => intro value bits n _; rfl
  | cons c rest ih =>
    intro value bits n h
    have hc : c ≥ 0x80 := h c (List.mem_cons_self _ _)
    simp only [unpack_loop, if_pos hc]
    exact ih _ _ _ (fun x hx => h x (List.mem_cons_of_mem _ hx))

set_option maxRecDepth 100000 in
/-- C26 at the failing input: the 32-bit value `2 ^ 28` has the minimal
encoding `80 80 80 80 01`, and `unpack_num` on it (followed by another byte)
returns 0 and leaves the cursor where it was, where `2 ^ 28` and a move by 5
bytes are due. -/
theorem C26_rejects_five_byte_encoding :
    2 ^ 28 < 2 ^ 32 ∧ base128_encoding (2 ^ 28) = [0x80, 0x80, 0x80, 0x80, 0x01] ∧
    unpack_num (base128_encoding (2 ^ 28) ++ [0x05]) = (0, 0) ∧
    unpack_num (base128_encoding (2 ^ 28) ++ [0x05])
      ≠ (2 ^ 28, (base128_encoding (2 ^ 28)).length) := by
  decide

/-- What `unpack_num` does on minimal encodings: for every value `v` below
`2 ^ 28` it returns `v` and moves the cursor by the length of the encoding,
whatever bytes follow; for a 32-bit value from `2 ^ 28` on, whose encoding has
five bytes, the test `bits > 32-7` makes it return 0 and leave the cursor as it
was; and on an input in which every byte has the high bit set (no terminating
byte before the end) it returns 0 and leaves the cursor as it was. -/
theorem unpack_num_spec (v : Nat) (rest : List Nat) :
    (v < 2 ^ 28 →
      unpack_num (base128_encoding v ++ rest) = (v, (base128_encoding v).length)) ∧
    (2 ^ 28 ≤ v → v < 2 ^ 32 →
      (base128_encoding v).length = 5 ∧ unpack_num (base128_encoding v ++ rest) = (0, 0)) ∧
    (∀ input : List Nat, (∀ c, c ∈ input → 0x80 ≤ c) → unpack_num input = (0, 0)) := by
  refine ⟨fun hv => ?_, fun hv1 hv2 => ?_, fun input h => ?_⟩
  · obtain ⟨value1, bits1, last, m, e1, e2, e3, e4, e5, e6, e7, e8⟩ :=
      unpack_loop_digits rest (v + 1) v 0 0 0 (by omega) (by simp) (by simp; omega)
    have hm : m ≤ 3 := by
      by_contra hcon
      rcases e8 with rfl | e8
      · omega
      · have : 2 ^ 28 ≤ 2 ^ (7 * m) := Nat.pow_le_pow_right (by decide) (by omega)
        omega
    have hb : ¬ bits1 > 32 - 7 := by omega
    have hl : last &&& 0x7f = last := by rw [and_7f]; omega
    simp only [Nat.zero_add, Nat.pow_zero, Nat.mul_one] at e1 e5
    unfold unpack_num base128_encoding
    rw [e1]
    simp only [if_neg hb, hl, or_shift_eq_add _ _ _ e4, e5, e2]
    rw [Nat.mod_eq_of_lt (by omega)]
  · obtain ⟨value1, bits1, last, m, e1, e2, e3, e4, e5, e6, e7, e8⟩ :=
      unpack_loop_digits rest (v + 1) v 0 0 0 (by omega) (by simp) (by simp; omega)
    have hm4 : 4 ≤ m := by
      by_contra hcon
      have : 2 ^ (7 * (m + 1)) ≤ 2 ^ 28 := Nat.pow_le_pow_right (by decide) (by omega)
      omega
    have hm5 : m ≤ 4 := by
      by_contra hcon
      rcases e8 with rfl | e8
      · omega
      · have : 2 ^ 35 ≤ 2 ^ (7 * m) := Nat.pow_le_pow_right (by decide) (by omega)
        omega
    have hb : bits1 > 32 - 7 := by omega
    simp only [Nat.zero_add] at e1
    unfold unpack_num base128_encoding
    refine ⟨by omega, ?_⟩
    rw [e1]
    simp only [if_pos hb]
  · have h0 := unpack_loop_no_end input 0 0 0 h
    unfold unpack_num
    generalize unpack_loop input 0 0 0 = r at h0
    obtain ⟨a, b, c, d⟩ := r
    simp only at h0
    subst h0
    rfl

/-! ## Directory of the target path -/

theorem strrchr_none (c : Char) : ∀ path : List Char, strrchr path c = none ↔ c ∉ path := by
  intro path
  induction path with
  | nil => simp [strrchr]
  | cons x xs ih =>
    simp only [strrchr]
    cases hs : strrchr xs c with
    | some i =>
      have : ¬ c ∉ xs := fun h => by rw [ih.mpr h] at hs; cases hs
      simp only [List.mem_cons, not_or]
      constructor
      · intro h; cases h
      · intro h; exact absurd h.2 this
    | none =>
      have hx : c ∉ xs := ih.mp hs
      by_cases hxc : x = c
      · simp [hxc]
      · simp only [if_neg hxc, List.mem_cons, not_or, true_iff]
        exact ⟨fun h => hxc h.symm, hx⟩

theorem strrchr_some (c : Char) : ∀ (path : List Char) (i : Nat), strrchr path c = some i →
    i < path.length ∧ path.get? i = some c ∧ c ∉ path.drop (i + 1) := by
  intro path
  induction path with
  | nil => intro i h; simp [strrchr] at h
  | cons x xs ih =>
    intro i h
    simp only [strrchr] at h
    cases hs : strrchr xs c with
    | some j =>
      rw [hs] at h
      simp only [Option.some.injEq] at h
      subst h
      obtain ⟨h1, h2, h3⟩ := ih j hs
      exact ⟨by simp; omega, by simpa using h2, by simpa using h3⟩
    | none =>
      rw [hs] at h
      by_cases hxc : x = c
      · simp only [if_pos hxc, Option.some.injEq] at h
        subst h
        exact ⟨by simp, by simp [hxc], by simpa using (strrchr_none c xs).mp hs⟩
      · simp [if_neg hxc] at h

/-- C25 fails as stated: for the path `/foo`, shorter than 1024 bytes and with
a slash, the derived directory is the empty string. -/
theorem C25_counterexample :
    ['/', 'f', 'o', 'o'].length < 1024 ∧ '/' ∈ ['/', 'f', 'o', 'o'] ∧
    parent_dir ['/', 'f', 'o', 'o'] = [] := by
  decide

/-- C25 (amended): for every target path shorter than 1024 bytes the derived
directory is `"."` when the path has no slash, and otherwise the bytes of the
path strictly before its last slash; so it is empty exactly when the last
slash of the path is its first byte, and not empty otherwise. -/
theorem C25_parent_dir (path : List Char) (hlen : path.length < 1024) :
    ('/' ∉ path → parent_dir path = ['.']) ∧
    ('/' ∈ path → ∃ i, i < path.length ∧ path.get? i = some '/' ∧
      '/' ∉ path.drop (i + 1) ∧ parent_dir path = path.take i ∧
      (parent_dir path).length = i ∧ (parent_dir path = [] ↔ i = 0)) ∧
    (parent_dir path).length < 1024 := by
  refine ⟨fun h => ?_, fun h => ?_, ?_⟩
  · simp [parent_dir, (strrchr_none '/' path).mpr h]
  · cases hs : strrchr path '/' with
    | none => exact absurd h ((strrchr_none '/' path).mp hs)
    | some i =>
      obtain ⟨h1, h2, h3⟩ := strrchr_some '/' path i hs
      have hl : (path.take i).length = i := by simp; omega
      refine ⟨i, h1, h2, h3, by simp [parent_dir, hs], by simp [parent_dir, hs]; omega, ?_⟩
      simp only [parent_dir, hs]
      constructor
      · intro he; rw [he] at hl; simpa using hl.symm
      · intro hi; subst hi; rfl
  · cases hs : strrchr path '/' with
    | none => simp [parent_dir, hs]
    | some i => simp [parent_dir, hs]; omega

/-- C25 at the path `a/b`: the derived directory is `a`. -/
theorem C25_parent_dir_witness :
    ['a', '/', 'b'].length < 1024 ∧ parent_dir ['a', '/', 'b'] = ['a'] := by
  refine ⟨by decide, ?_⟩
  obtain ⟨i, h1, h2, h3, h4, h5, h6⟩ := (C25_parent_dir ['a', '/', 'b'] (by decide)).2.1 (by decide)
  rw [h4]
  have hi : i = 1 := by
    have : i < 3 := h1
    interval_cases i
    · simp at h2
    · rfl
    · simp at h2
  subst hi
  rfl

/-! ## Termination of the attribute-cache loop -/

section rounds
variable {N : Nat} {k : Proc}

theorem rounds_ret : Proc.rounds_le N Proc.ret := by
  intro inbox; simp [Proc.trace]

theorem rounds_exit (f : Fatal) : Proc.rounds_le N (Proc.exit f) := by
  intro inbox; simp [Proc.trace]

theorem rounds_mono {M : Nat} (h : N ≤ M) (hk : Proc.rounds_le N k) : Proc.rounds_le M k :=
  fun inbox => ⟨Nat.le_trans (hk inbox).1 h, (hk inbox).2⟩

theorem rounds_send {c : Char} (hc : c ≠ '2') (hk : Proc.rounds_le N k) :
    Proc.rounds_le N (send_cmd c k) := by
  intro inbox
  have hne : ¬ (Action.sent c = Action.sent '2') := by simpa using hc
  rw [trace_send]
  simp only [List.count_cons, beq_iff_eq, if_neg hne, Nat.add_zero]
  exact hk inbox

theorem rounds_send_2 (hk : Proc.rounds_le N k) : Proc.rounds_le (N + 1) (send_cmd '2' k) := by
  intro inbox
  rw [trace_send]
  simp only [List.count_cons, beq_self_eq_true, if_true]
  exact ⟨Nat.add_le_add_right (hk inbox).1 1, (hk inbox).2⟩

theorem rounds_wait {c : Char} (hk : Proc.rounds_le N k) : Proc.rounds_le N (wait_cmd c k) := by
  intro inbox
  cases inbox with
  | nil => simp [wait_cmd, read_cmd, Proc.trace]
  | cons x rest =>
    by_cases hx : c = x
    · subst hx
      rw [trace_wait]
      simp only [List.count_cons, beq_iff_eq, reduceCtorEq, if_false, Nat.add_zero]
      exact hk rest
    · simp [wait_cmd, read_cmd, Proc.trace, hx]

theorem rounds_out {ls : List String} (hk : Proc.rounds_le N k) :
    Proc.rounds_le N (Proc.out ls k) := by
  intro inbox
  rw [trace_out]
  exact hk inbox

theorem rounds_fs {cond : Prop} [Decidable cond] {msg : String} (hk : Proc.rounds_le N k) :
    Proc.rounds_le N (fs_check cond msg k) := by
  unfold fs_check
  split
  · exact rounds_exit _
  · exact hk

theorem rounds_flush {f : FlushObs} (hk : Proc.rounds_le N k) :
    Proc.rounds_le N (flush f k) := by
  unfold flush
  apply rounds_out
  split
  · exact rounds_exit _
  · exact hk

end rounds

theorem fattrcache_loop_rounds (b : Build) (o : FattrClientObs) :
    ∀ (fuel method fails r : Nat), fails < 3 →
      3 * (NFS_CACHE_FLUSH_METHOD_COUNT b - method) - fails < fuel →
      Proc.rounds_le (3 * (NFS_CACHE_FLUSH_METHOD_COUNT b - method) - fails)
        (fattrcache_client_loop b o Proc.ret fuel method fails r) := by
  intro fuel
  induction fuel with
  | zero => intro method fails r _ h; omega
  | succ fuel ih =>
    intro method fails r hf hfuel
    rw [fattrcache_client_loop]
    by_cases hm : method < NFS_CACHE_FLUSH_METHOD_COUNT b
    · rw [if_pos hm]
      apply rounds_fs
      obtain ⟨M, hM⟩ : ∃ M, 3 * (NFS_CACHE_FLUSH_METHOD_COUNT b - method) - fails = M + 1 :=
        Nat.exists_eq_succ_of_ne_zero (by omega)
      rw [hM]
      apply rounds_send_2
      apply rounds_wait
      apply rounds_fs
      split
      · apply rounds_flush
        apply rounds_fs
        apply rounds_flush
        apply rounds_out
        refine rounds_mono ?_ (ih (method + 1) 0 (r + 1) (by omega) (by omega))
        omega
      · split
        · apply rounds_out
          apply rounds_send (by decide)
          apply rounds_wait
          exact rounds_ret
        · refine rounds_mono ?_ (ih method (fails + 1) (r + 1) (by omega) (by omega))
          omega
    · rw [if_neg hm]
      apply rounds_send (by decide)
      apply rounds_wait
      exact rounds_ret

theorem fattrcache_loop_fuel (b : Build) (o : FattrClientObs) (k : Proc) :
    ∀ (f1 f2 method fails r : Nat), fails < 3 →
      3 * (NFS_CACHE_FLUSH_METHOD_COUNT b - method) - fails < f1 →
      3 * (NFS_CACHE_FLUSH_METHOD_COUNT b - method) - fails < f2 →
      fattrcache_client_loop b o k f1 method fails r
        = fattrcache_client_loop b o k f2 method fails r := by
  intro f1
  induction f1 with
  | zero => intro f2 method fails r _ h; omega
  | succ f1 ih =>
    intro f2 method fails r hf h1 h2
    obtain ⟨g, rfl⟩ : ∃ g, f2 = g + 1 := Nat.exists_eq_succ_of_ne_zero (by omega)
    rw [fattrcache_client_loop, fattrcache_client_loop]
    by_cases hm : method < NFS_CACHE_FLUSH_METHOD_COUNT b
    · have e1 := ih g (method + 1) 0 (r + 1) (by omega) (by omega) (by omega)
      by_cases h3 : fails + 1 = 3
      · simp only [if_pos hm, if_pos h3, e1]
      · have e2 := ih g method (fails + 1) (r + 1) (by omega) (by omega) (by omega)
        simp only [if_pos hm, if_neg h3, e1, e2]
    · simp only [if_neg hm]

/-- C23: for every sequence of observations and whatever arrives on the
socket, the attribute-cache client sends at most `3 * (NFS_CACHE_FLUSH_METHOD_COUNT
- 1)` bytes `2`, one per round of its loop, and its loop comes to its end: the
bound of the model is never used up, and unrolling the loop further than `3 *
(NFS_CACHE_FLUSH_METHOD_COUNT - 1)` rounds and the final test changes nothing.
A round either moves to the next method with `fails` back at 0, or adds one to
`fails`, and the loop is left when `fails` reaches 3 or `method` reaches
`NFS_CACHE_FLUSH_METHOD_COUNT`. -/
theorem C23_fattrcache_terminates (b : Build) (o : FattrClientObs) (inbox : List Char) :
    ((nfs_test_fattrcache_client b o Proc.ret).trace inbox).1.count (Action.sent '2')
      ≤ 3 * (NFS_CACHE_FLUSH_METHOD_COUNT b - 1) ∧
    ((nfs_test_fattrcache_client b o Proc.ret).trace inbox).2 ≠ Proc.nofuel ∧
    (∀ (k : Proc) (fuel : Nat), 3 * (NFS_CACHE_FLUSH_METHOD_COUNT b - 1) < fuel →
      fattrcache_client_loop b o k fuel 1 0 0
        = fattrcache_client_loop b o k (3 * (NFS_CACHE_FLUSH_METHOD_COUNT b - 1) + 1) 1 0 0) ∧
    (∀ (k : Proc) (fuel method fails r : Nat), method < NFS_CACHE_FLUSH_METHOD_COUNT b →
      ¬ o.fstat1_ret r < 0 → ¬ o.fstat2_ret r < 0 →
      (o.st1_mtime r = o.st2_mtime r →
        fattrcache_client_loop b o k (fuel + 1) method fails r
          = send_cmd '2' (wait_cmd '3' (flush (o.flush_before r)
              (fs_check (o.fstat3_ret r < 0) "fstat(%s) failed: %m" (flush (o.flush_after r)
                (Proc.out ["Attr cache flush " ++ method_name b method ++ ": " ++
                  (if o.st1_mtime r = o.st3_mtime r then "failed" else "OK") ++ "\n"]
                  (fattrcache_client_loop b o k fuel (method + 1) 0 (r + 1)))))))) ∧
      (o.st1_mtime r ≠ o.st2_mtime r → fails + 1 ≠ 3 →
        fattrcache_client_loop b o k (fuel + 1) method fails r
          = send_cmd '2' (wait_cmd '3'
              (fattrcache_client_loop b o k fuel method (fails + 1) (r + 1)))) ∧
      (o.st1_mtime r ≠ o.st2_mtime r → fails + 1 = 3 →
        fattrcache_client_loop b o k (fuel + 1) method fails r
          = send_cmd '2' (wait_cmd '3'
              (Proc.out ["NFS attribute cache seems to be disabled\n"]
                (send_cmd '4' (wait_cmd '!' k)))))) ∧
    (∀ (k : Proc) (fuel fails r : Nat),
      fattrcache_client_loop b o k (fuel + 1) (NFS_CACHE_FLUSH_METHOD_COUNT b) fails r
        = send_cmd '4' (wait_cmd '!' k)) := by
  have hb := count_bounds b
  have key : Proc.rounds_le (3 * (NFS_CACHE_FLUSH_METHOD_COUNT b - 1))
      (nfs_test_fattrcache_client b o Proc.ret) := by
    unfold nfs_test_fattrcache_client
    apply rounds_out
    apply rounds_send (by decide)
    apply rounds_wait
    apply rounds_fs
    exact fattrcache_loop_rounds b o _ 1 0 0 (by omega) (by omega)
  refine ⟨(key inbox).1, (key inbox).2, ?_, ?_, ?_⟩
  · intro k fuel hfuel
    exact fattrcache_loop_fuel b o k _ _ 1 0 0 (by omega) (by omega) (by omega)
  · intro k fuel method fails r hm h1 h2
    refine ⟨fun hs => ?_, fun hs h3 => ?_, fun hs h3 => ?_⟩
    · simp only [fattrcache_client_loop, fs_check, if_pos hm, if_neg h1, if_neg h2, if_pos hs]
    · simp only [fattrcache_client_loop, fs_check, if_pos hm, if_neg h1, if_neg h2, if_neg hs,
        if_neg h3]
    · simp only [fattrcache_client_loop, fs_check, if_pos hm, if_neg h1, if_neg h2, if_neg hs,
        if_pos h3]
  · intro k fuel fails r
    rw [fattrcache_client_loop, if_neg (by omega)]

/-! ## Ranges of the partial writes -/

theorem file_writes_not_covered : ∀ (ws : List FileWrite) (f : FileContent) (j : Nat),
    (∀ w, w ∈ ws → ¬ w.covers j) → (file_writes f ws).byte j = f.byte j := by
  intro ws
  induction ws with
  | nil => intro f j _; rfl
  | cons a rest ih =>
    intro f j h
    have ha : ¬ a.covers j := h a (List.mem_cons_self _ _)
    have hr := ih (file_write f a) j (fun w hw => h w (List.mem_cons_of_mem _ hw))
    simp only [file_writes, List.foldl_cons] at hr ⊢
    rw [hr]
    simp [file_write, ha]

theorem file_writes_covered : ∀ (ws : List FileWrite) (f : FileContent) (j : Nat) (c : Char),
    (∃ w, w ∈ ws ∧ w.covers j) →
    (∀ w, w ∈ ws → w.covers j → w.data.getD (j - w.offset) (Char.ofNat 0) = c) →
    (file_writes f ws).byte j = c := by
  intro ws
  induction ws with
  | nil => intro f j c h; obtain ⟨w, hw, _⟩ := h; cases hw
  | cons a rest ih =>
    intro f j c hex hall
    by_cases hr : ∃ w, w ∈ rest ∧ w.covers j
    · have := ih (file_write f a) j c hr (fun w hw => hall w (List.mem_cons_of_mem _ hw))
      simpa [file_writes] using this
    · have hnone : ∀ w, w ∈ rest → ¬ w.covers j := fun w hw hc => hr ⟨w, hw, hc⟩
      have ha : a.covers j := by
        obtain ⟨w, hw, hc⟩ := hex
        rcases List.mem_cons.mp hw with rfl | hw
        · exact hc
        · exact absurd hc (hnone w hw)
      have h1 := file_writes_not_covered rest (file_write f a) j hnone
      simp only [file_writes, List.foldl_cons] at h1 ⊢
      rw [h1]
      simp only [file_write, if_pos ha]
      exact hall a (List.mem_cons_self _ _) ha

theorem file_writes_size_le (M : Nat) : ∀ (ws : List FileWrite) (f : FileContent),
    f.size ≤ M → (∀ w, w ∈ ws → w.offset + w.data.length ≤ M) → (file_writes f ws).size ≤ M := by
  intro ws
  induction ws with
  | nil => intro f h _; exact h
  | cons a rest ih =>
    intro f hf h
    have := ih (file_write f a)
      (by simp only [file_write]; exact Nat.max_le.mpr ⟨hf, h a (List.mem_cons_self _ _)⟩)
      (fun w hw => h w (List.mem_cons_of_mem _ hw))
    simpa [file_writes] using this

theorem file_writes_size_ge : ∀ (ws : List FileWrite) (f : FileContent),
    f.size ≤ (file_writes f ws).size ∧
    ∀ w, w ∈ ws → w.offset + w.data.length ≤ (file_writes f ws).size := by
  intro ws
  induction ws with
  | nil => intro f; exact ⟨Nat.le_refl _, fun w hw => by cases hw⟩
  | cons a rest ih =>
    intro f
    obtain ⟨h1, h2⟩ := ih (file_write f a)
    have e : file_writes f (a :: rest) = file_writes (file_write f a) rest := rfl
    rw [e]
    have hs : (file_write f a).size = max f.size (a.offset + a.data.length) := rfl
    refine ⟨by omega, fun w hw => ?_⟩
    rcases List.mem_cons.mp hw with rfl | hw
    · omega
    · exact h2 w hw

theorem mem_partial_server_writes (w : FileWrite) :
    w ∈ partial_server_writes ↔ ∃ i, i < 1024 ∧ w = ⟨i * 16, List.replicate 8 'S'⟩ := by
  simp only [partial_server_writes, List.mem_map, List.mem_range]
  constructor
  · rintro ⟨i, hi, rfl⟩; exact ⟨i, hi, rfl⟩
  · rintro ⟨i, hi, rfl⟩; exact ⟨i, hi, rfl⟩

theorem mem_partial_client_writes (w : FileWrite) :
    w ∈ partial_client_writes ↔ ∃ i, i < 1024 ∧ w = ⟨i * 16 + 8, List.replicate 8 'C'⟩ := by
  simp only [partial_client_writes, List.mem_map, List.mem_range]
  constructor
  · rintro ⟨i, hi, rfl⟩; exact ⟨i, hi, rfl⟩
  · rintro ⟨i, hi, rfl⟩; exact ⟨i, hi, rfl⟩

theorem getD_replicate_lt (c z : Char) (n m : Nat) (h : m < n) :
    (List.replicate n c).getD m z = c := by
  simp [List.getD_eq_getElem?_getD, List.getElem?_replicate, h]

theorem partial_writes_byte (w : FileWrite)
    (hw : w ∈ partial_server_writes ++ partial_client_writes) (j : Nat) (hc : w.covers j) :
    j < 16384 ∧
    w.data.getD (j - w.offset) (Char.ofNat 0) = (if j % 16 < 8 then 'S' else 'C') := by
  rcases List.mem_append.mp hw with h | h
  · obtain ⟨i, hi, rfl⟩ := (mem_partial_server_writes w).mp h
    simp only [FileWrite.covers, List.length_replicate] at hc
    have hm : j % 16 < 8 := by omega
    rw [if_pos hm]
    exact ⟨by omega, getD_replicate_lt _ _ _ _ (by simp only; omega)⟩
  · obtain ⟨i, hi, rfl⟩ := (mem_partial_client_writes w).mp h
    simp only [FileWrite.covers, List.length_replicate] at hc
    have hm : ¬ j % 16 < 8 := by omega
    rw [if_neg hm]
    exact ⟨by omega, getD_replicate_lt _ _ _ _ (by simp only; omega)⟩

theorem partial_writes_cover (j : Nat) (hj : j < 16384) :
    ∃ w, w ∈ partial_server_writes ++ partial_client_writes ∧ w.covers j := by
  by_cases hm : j % 16 < 8
  · refine ⟨⟨(j / 16) * 16, List.replicate 8 'S'⟩, List.mem_append_left _ ?_, ?_⟩
    · exact (mem_partial_server_writes _).mpr ⟨j / 16, by omega, rfl⟩
    · simp only [FileWrite.covers, List.length_replicate]; omega
  · refine ⟨⟨(j / 16) * 16 + 8, List.replicate 8 'C'⟩, List.mem_append_right _ ?_, ?_⟩
    · exact (mem_partial_client_writes _).mpr ⟨j / 16, by omega, rfl⟩
    · simp only [FileWrite.covers, List.length_replicate]; omega

theorem alternating_perm {α : Type} (f g : Nat → α) : ∀ l : List Nat,
    ((l.map (fun i => [f i, g i])).flatten).Perm (l.map f ++ l.map g) := by
  intro l
  induction l with
  | nil => exact List.Perm.refl _
  | cons a rest ih =>
    simp only [List.map_cons, List.flatten_cons, List.cons_append, List.nil_append]
    exact List.Perm.cons _ ((List.Perm.cons _ ih).trans List.perm_middle.symm)

/-- C21: the writes of the server cover exactly the ranges `[16i, 16i+8)` and
those of the client exactly the ranges `[16i+8, 16i+16)` for `i` below 1024;
no server range meets a client range; together the ranges cover exactly `[0,
16384)`; and the 2048 writes, applied to a file in any order, leave in its
first 16384 bytes 1024 blocks of 8 bytes `S` followed by 8 bytes `C`; the file
that `O_TRUNC` has emptied ends up with exactly these 16384 bytes. -/
theorem C21_partial_write_ranges (ws : List FileWrite) (f : FileContent)
    (hp : ws.Perm (partial_server_writes ++ partial_client_writes)) :
    (∀ j, (∃ w, w ∈ partial_server_writes ∧ w.covers j)
      ↔ ∃ i, i < 1024 ∧ 16 * i ≤ j ∧ j < 16 * i + 8) ∧
    (∀ j, (∃ w, w ∈ partial_client_writes ∧ w.covers j)
      ↔ ∃ i, i < 1024 ∧ 16 * i + 8 ≤ j ∧ j < 16 * i + 16) ∧
    (∀ w1 w2 j, w1 ∈ partial_server_writes → w2 ∈ partial_client_writes →
      ¬ (w1.covers j ∧ w2.covers j)) ∧
    (∀ j, (∃ w, w ∈ partial_server_writes ++ partial_client_writes ∧ w.covers j)
      ↔ j < 16384) ∧
    partial_server_writes.length = 1024 ∧ partial_client_writes.length = 1024 ∧
    ws.length = 2048 ∧
    (file_writes f ws).size = max f.size 16384 ∧
    (file_writes empty_file ws).size = 16384 ∧
    (∀ j, j < 16384 →
      (file_writes f ws).byte j = (if j % 16 < 8 then 'S' else 'C')) ∧
    (∀ k, k < 1024 → block_ok (file_writes f ws).byte k) := by
  have hsize : ∀ g : FileContent, (file_writes g ws).size = max g.size 16384 := by
    intro g
    apply Nat.le_antisymm
    · apply file_writes_size_le
      · exact Nat.le_max_left _ _
      · intro w hw
        refine Nat.le_trans ?_ (Nat.le_max_right _ _)
        rcases List.mem_append.mp (hp.mem_iff.mp hw) with h | h
        · obtain ⟨i, hi, rfl⟩ := (mem_partial_server_writes w).mp h
          simp only [List.length_replicate]; omega
        · obtain ⟨i, hi, rfl⟩ := (mem_partial_client_writes w).mp h
          simp only [List.length_replicate]; omega
    · have hmem : (⟨1023 * 16 + 8, List.replicate 8 'C'⟩ : FileWrite) ∈ ws :=
        hp.mem_iff.mpr (List.mem_append_right _
          ((mem_partial_client_writes _).mpr ⟨1023, by omega, rfl⟩))
      have h2 := (file_writes_size_ge ws g).2 _ hmem
      have h1 := (file_writes_size_ge ws g).1
      simp only [List.length_replicate] at h2
      exact Nat.max_le.mpr ⟨h1, by omega⟩
  have hbyte : ∀ j, j < 16384 →
      (file_writes f ws).byte j = (if j % 16 < 8 then 'S' else 'C') := by
    intro j hj
    apply file_writes_covered
    · obtain ⟨w, hw, hc⟩ := partial_writes_cover j hj
      exact ⟨w, hp.mem_iff.mpr hw, hc⟩
    · intro w hw hc
      exact (partial_writes_byte w (hp.mem_iff.mp hw) j hc).2
  have hls : partial_server_writes.length = 1024 := by
    simp [partial_server_writes, PARTIAL_TOTSIZE, PARTIAL_BLOCKIZE]
  have hlc : partial_client_writes.length = 1024 := by
    simp [partial_client_writes, PARTIAL_TOTSIZE, PARTIAL_BLOCKIZE]
  refine ⟨fun j => ?_, fun j => ?_, ?_, fun j => ?_, hls, hlc, ?_, hsize f, ?_, hbyte, ?_⟩
  · constructor
    · rintro ⟨w, hw, hc⟩
      obtain ⟨i, hi, rfl⟩ := (mem_partial_server_writes w).mp hw
      simp only [FileWrite.covers, List.length_replicate] at hc
      exact ⟨i, hi, by omega, by omega⟩
    · rintro ⟨i, hi, h1, h2⟩
      refine ⟨⟨i * 16, List.replicate 8 'S'⟩, (mem_partial_server_writes _).mpr ⟨i, hi, rfl⟩, ?_⟩
      simp only [FileWrite.covers, List.length_replicate]; omega
  · constructor
    · rintro ⟨w, hw, hc⟩
      obtain ⟨i, hi, rfl⟩ := (mem_partial_client_writes w).mp hw
      simp only [FileWrite.covers, List.length_replicate] at hc
      exact ⟨i, hi, by omega, by omega⟩
    · rintro ⟨i, hi, h1, h2⟩
      refine ⟨⟨i * 16 + 8, List.replicate 8 'C'⟩,
        (mem_partial_client_writes _).mpr ⟨i, hi, rfl⟩, ?_⟩
      simp only [FileWrite.covers, List.length_replicate]; omega
  · intro w1 w2 j h1 h2 hc
    obtain ⟨i1, _, rfl⟩ := (mem_partial_server_writes w1).mp h1
    obtain ⟨i2, _, rfl⟩ := (mem_partial_client_writes w2).mp h2
    simp only [FileWrite.covers, List.length_replicate] at hc
    omega
  · constructor
    · rintro ⟨w, hw, hc⟩
      exact (partial_writes_byte w hw j hc).1
    · exact partial_writes_cover j
  · rw [hp.length_eq, List.length_append, hls, hlc]
  · rw [hsize empty_file]; rfl
  · intro k hk
    refine ⟨fun j hj => ?_, fun j hj => ?_⟩
    · rw [hbyte _ (by omega), if_pos (by omega)]
    · rw [hbyte _ (by omega), if_neg (by omega)]

/-- C21 at the order in which server and client take turns, block by block:
it is an order of the 2048 writes, and it leaves the 16384 bytes of the
pattern. -/
theorem C21_partial_write_ranges_witness :
    partial_alternating_writes.Perm (partial_server_writes ++ partial_client_writes) ∧
    (file_writes empty_file partial_alternating_writes).size = 16384 ∧
    (∀ k, k < 1024 → block_ok (file_writes empty_file partial_alternating_writes).byte k) :=
  ⟨alternating_perm _ _ _,
   (C21_partial_write_ranges partial_alternating_writes empty_file
     (alternating_perm _ _ _)).2.2.2.2.2.2.2.2.1,
   (C21_partial_write_ranges partial_alternating_writes empty_file
     (alternating_perm _ _ _)).2.2.2.2.2.2.2.2.2.2⟩

/-! ## Relinking in the file-handle-cache scenario -/

theorem fhandlecache_loop_trace (b : Build) (o : FhandleClientObs) (kf : Bool → Proc)
    (rest : List Char)
    (h1 : ∀ m, ¬ (o.stat_a_ret m < 0 ∨ o.stat_b_ret m < 0))
    (h2 : ∀ m, o.st1_ino m = o.ino1 ∨ o.st1_ino m = o.ino2)
    (h3 : ∀ m, ¬ o.stat2_ret m < 0)
    (h4 : ∀ m, (o.flush_before m).fatal = false) (h5 : ∀ m, (o.flush_after m).fatal = false) :
    ∀ (n m : Nat) (success : Bool), ∃ s1,
      ((fhandlecache_client_loop b o kf n m success).trace (List.replicate n '3' ++ rest)).1
        = concat_from (fun m => [Action.sent (if o.st1_ino m = o.ino1 then 'a' else 'b'),
            Action.received '3']) n m ++ ((kf s1).trace rest).1 ∧
      ((fhandlecache_client_loop b o kf n m success).trace (List.replicate n '3' ++ rest)).2
        = ((kf s1).trace rest).2 := by
  intro n
  induction n with
  | zero => intro m success; exact ⟨success, by simp [fhandlecache_client_loop, concat_from]⟩
  | succ n ih =>
    intro m success
    obtain ⟨s1, hs1, hs2⟩ := ih (m + 1) (if o.st1_ino m ≠ o.st2_ino m then true else success)
    refine ⟨s1, ?_⟩
    rw [fhandlecache_client_loop, trace_fs _ _ _ (h1 m)]
    by_cases hi1 : o.st1_ino m = o.ino1
    · rw [if_pos hi1]
      simp only [List.replicate_succ, List.cons_append, trace_send, trace_wait,
        trace_flush _ _ (h4 m), trace_flush _ _ (h5 m), trace_fs _ _ _ (h3 m),
        trace_out, hs1, hs2, concat_from, if_pos hi1, List.nil_append, and_self]
    · have hi : o.st1_ino m = o.ino2 := (h2 m).resolve_left hi1
      rw [if_neg hi1, if_pos hi]
      simp only [List.replicate_succ, List.cons_append, trace_send, trace_wait,
        trace_flush _ _ (h4 m), trace_flush _ _ (h5 m), trace_fs _ _ _ (h3 m),
        trace_out, hs1, hs2, concat_from, if_neg hi1, List.nil_append, and_self]

theorem fhandlecache_round_step {P : Config → Prop} (b : Build) (o : FhandleClientObs)
    (so : FhandleServerObs) (kf : Bool → Proc) (ks : Proc) (hs : o.steady)
    (n method fuel : Nat) (success : Bool) (o1 o2 : List String)
    (hr : fhandlecache_round_ok o so method)
    (hnext : ∀ s3 o3 o4, Ev P
      ⟨fhandlecache_client_loop b o kf n (method + 1) s3,
       fhandlecache_server_loop so ks fuel (method + 1), [], [], o3, o4⟩) :
    Ev P
      ⟨fhandlecache_client_loop b o kf (n + 1) method success,
       fhandlecache_server_loop so ks (fuel + 1) method, [], [], o1, o2⟩ := by
  obtain ⟨g1, g2, g3, g4, g5, g6, g7⟩ := hs
  obtain ⟨hl, hu1, hu2⟩ := hr
  rw [fhandlecache_client_loop, fhandlecache_server_loop]
  refine ev_c_fs_ok (g3 method) ?_
  by_cases hi1 : o.st1_ino method = o.ino1
  · have hl2 := hl TempFile.temp1 (by simp [fhandlecache_client_seen, hi1])
    have e : fhandlecache_server_link (fhandlecache_client_cmd TempFile.temp1)
        = TempFile.temp2 := by
      decide
    rw [e] at hl2
    rw [if_pos hi1]
    apply ev_c_send
    refine ev_s_read (by rfl) ?_
    simp only [Char.reduceEq, ne_eq, not_true_eq_false, not_false_eq_true, reduceIte]
    refine ev_s_fs_ok hl2 ?_
    refine ev_s_fs_ok hu1 ?_
    refine ev_s_fs_ok hu2 ?_
    refine ev_s_send (by rfl) ?_
    apply ev_c_wait
    refine ev_c_flush_ok (g6 method) ?_
    refine ev_c_fs_ok (g5 method) ?_
    refine ev_c_flush_ok (g7 method) ?_
    apply ev_c_out
    exact hnext _ _ _
  · have hi : o.st1_ino method = o.ino2 := (g4 method).resolve_left hi1
    have hl1 := hl TempFile.temp2 (by rw [fhandlecache_client_seen, if_neg hi1, if_pos hi])
    have e : fhandlecache_server_link (fhandlecache_client_cmd TempFile.temp2)
        = TempFile.temp1 := by
      decide
    rw [e] at hl1
    rw [if_neg hi1, if_pos hi]
    apply ev_c_send
    refine ev_s_read (by rfl) ?_
    simp only [Char.reduceEq, ne_eq, not_true_eq_false, not_false_eq_true, reduceIte]
    refine ev_s_fs_ok hl1 ?_
    refine ev_s_fs_ok hu1 ?_
    refine ev_s_fs_ok hu2 ?_
    refine ev_s_send (by rfl) ?_
    apply ev_c_wait
    refine ev_c_flush_ok (g6 method) ?_
    refine ev_c_fs_ok (g5 method) ?_
    refine ev_c_flush_ok (g7 method) ?_
    apply ev_c_out
    exact hnext _ _ _

theorem fhandlecache_rounds {P : Config → Prop} (b : Build) (o : FhandleClientObs)
    (so : FhandleServerObs) (kf : Bool → Proc) (ks : Proc) (hs : o.steady) (r fuel : Nat) :
    ∀ (n method : Nat) (success : Bool) (o1 o2 : List String),
      (∀ m, method ≤ m → m < method + n → fhandlecache_round_ok o so m) →
      (∀ s3 o3 o4, Ev P
        ⟨fhandlecache_client_loop b o kf r (method + n) s3,
         fhandlecache_server_loop so ks fuel (method + n), [], [], o3, o4⟩) →
      Ev P
        ⟨fhandlecache_client_loop b o kf (r + n) method success,
         fhandlecache_server_loop so ks (fuel + n) method, [], [], o1, o2⟩ := by
  intro n
  induction n with
  | zero => intro method success o1 o2 _ hnext; exact hnext _ _ _
  | succ n ih =>
    intro method success o1 o2 hok hnext
    have e : method + (n + 1) = method + 1 + n := by omega
    rw [e] at hnext
    exact fhandlecache_round_step b o so kf ks hs (r + n) method (fuel + n) success o1 o2
      (hok method (Nat.le_refl _) (by omega))
      (fun s3 o3 o4 => ih (method + 1) s3 o3 o4
        (fun m h1 h2 => hok m (by omega) (by omega)) hnext)

theorem fhandlecache_start {P : Config → Prop} (b : Build) (o : FhandleClientObs)
    (os : Nat → ServerObs) (F : Nat) (hs : o.steady) (hu : (os 0).fhandlecache.setup_ok)
    (hnext : ∀ o3 o4, Ev P
      ⟨fhandlecache_client_loop b o
        (fun success =>
          send_cmd '4' <|
          Proc.out (if success then []
            else ["Looks like there's no way to flush directory's attribute cache\n"]) <|
          wait_cmd '!' Proc.ret) (NFS_CACHE_FLUSH_METHOD_COUNT b) 0 false,
       fhandlecache_server_loop (os 0).fhandlecache
         (send_cmd '!' (server_dispatch (fun j => os (j + 1)) Proc.ret F)) F 0,
       [], [], o3, o4⟩) :
    Ev P (scenario_start (nfs_test_fhandlecache_client b o) os (F + 1)) := by
  obtain ⟨g1, g2, g3, g4, g5, g6, g7⟩ := hs
  obtain ⟨u1, u2, u3, u4, u5, u6⟩ := hu
  unfold scenario_start nfs_test_fhandlecache_client
  apply ev_c_out
  apply ev_c_send
  refine ev_s_read (by rfl) ?_
  simp only [find_H, commands, List.get?, nfs_test_fhandlecache_server]
  refine ev_s_fs_ok u1 ?_
  refine ev_s_fs_ok u2 ?_
  refine ev_s_fs_ok u3 ?_
  refine ev_s_fs_ok u4 ?_
  refine ev_s_fs_ok u5 ?_
  refine ev_s_fs_ok u6 ?_
  refine ev_s_send (by rfl) ?_
  apply ev_c_wait
  refine ev_c_fs_ok g1 ?_
  apply ev_c_out
  refine ev_c_fs_ok g2 ?_
  exact hnext _ _

/-- C22: with two temp files of different inodes and no client call ending in
`i_fatal`, the client sends in the round of every method `a` when the inode it
finds at the path is the first temp file's and `b` when it is the second
one's, each answered by one `3`.  The server, in a round in which it has read
a byte other than `4`, calls `link` for the temp file `fhandlecache_server_link`
of that byte (the first on `b`, the second on every other byte): when that call
fails the server ends in `i_fatal` for `link` without an answer, and when it
and the two `utimes` calls succeed the server answers `3` and goes on to the
next round, whatever a `link` of the other temp file would give.  The temp file
so linked is never the one whose inode the client has found at the start of the
round, whatever was linked before.  In the run of the two processes: when in
every round the `link` of the temp file other than the one the client has found
succeeds (and the `utimes` calls do), the scenario ends with both processes in
step; and when in some round, the earlier ones being so, that `link` fails, the
server ends in `i_fatal` for `link`. -/
theorem C22_fhandlecache_relink (b : Build) (o : FhandleClientObs)
    (hs : o.steady) (hd : o.ino1 ≠ o.ino2) :
    (nfs_test_fhandlecache_client b o Proc.ret).trace
        ('1' :: (List.replicate (NFS_CACHE_FLUSH_METHOD_COUNT b) '3' ++ ['!']))
      = ([Action.sent 'H', Action.received '1'] ++
          concat_from (fun m => [Action.sent (if o.st1_ino m = o.ino1 then 'a' else 'b'),
            Action.received '3']) (NFS_CACHE_FLUSH_METHOD_COUNT b) 0 ++
          [Action.sent '4', Action.received '!'], Proc.ret) ∧
    (∀ m, ∃ t, fhandlecache_client_seen o m = some t ∧
      (if o.st1_ino m = o.ino1 then 'a' else 'b') = fhandlecache_client_cmd t ∧
      o.st1_ino m = o.ino t ∧
      fhandlecache_server_link (fhandlecache_client_cmd t) ≠ t ∧
      o.ino (fhandlecache_server_link (fhandlecache_client_cmd t)) ≠ o.st1_ino m) ∧
    (fhandlecache_server_link 'b' = TempFile.temp1 ∧
      ∀ cmd, cmd ≠ 'b' → fhandlecache_server_link cmd = TempFile.temp2) ∧
    (∀ (so : FhandleServerObs) (k : Proc) (fuel i : Nat) (cmd : Char) (rest : List Char),
      cmd ≠ '4' →
      (so.link_round i (fhandlecache_server_link cmd) < 0 →
        (fhandlecache_server_loop so k (fuel + 1) i).trace (cmd :: rest)
          = ([Action.received cmd], Proc.exit (Fatal.fs "link(%s, %s) failed: %m"))) ∧
      (¬ so.link_round i (fhandlecache_server_link cmd) < 0 →
        ¬ so.utimes_path_round i < 0 → ¬ so.utimes_dir_round i < 0 →
        (fhandlecache_server_loop so k (fuel + 1) i).trace (cmd :: rest)
          = (Action.received cmd :: Action.sent '3' ::
              ((fhandlecache_server_loop so k fuel (i + 1)).trace rest).1,
             ((fhandlecache_server_loop so k fuel (i + 1)).trace rest).2))) ∧
    (∀ (os : Nat → ServerObs) (F : Nat), 19 < F → (os 0).fhandlecache.setup_ok →
      (∀ m, m < NFS_CACHE_FLUSH_METHOD_COUNT b →
        fhandlecache_round_ok o (os 0).fhandlecache m) →
      Ev Config.in_sync (scenario_start (nfs_test_fhandlecache_client b o) os (F + 1))) ∧
    (∀ (os : Nat → ServerObs) (F m : Nat), 19 < F → (os 0).fhandlecache.setup_ok →
      m < NFS_CACHE_FLUSH_METHOD_COUNT b →
      (∀ j, j < m → fhandlecache_round_ok o (os 0).fhandlecache j) →
      (∀ t, fhandlecache_client_seen o m = some t →
        (os 0).fhandlecache.link_round m
          (fhandlecache_server_link (fhandlecache_client_cmd t)) < 0) →
      Ev (fun c => c.server = Proc.exit (Fatal.fs "link(%s, %s) failed: %m") ∧
          c.client ≠ Proc.ret)
        (scenario_start (nfs_test_fhandlecache_client b o) os (F + 1))) := by
  have hb := count_bounds b
  have hs0 := hs
  obtain ⟨g1, g2, g3, g4, g5, g6, g7⟩ := hs
  refine ⟨?_, fun m => ?_, ⟨rfl, fun cmd hc => by simp [fhandlecache_server_link, hc]⟩,
    ?_, ?_, ?_⟩
  · obtain ⟨s1, hs1, hs2⟩ := fhandlecache_loop_trace b o
      (fun success =>
        send_cmd '4' <|
        Proc.out (if success then []
          else ["Looks like there's no way to flush directory's attribute cache\n"]) <|
        wait_cmd '!' Proc.ret) ['!'] g3 g4 g5 g6 g7 (NFS_CACHE_FLUSH_METHOD_COUNT b) 0 false
    have e : ∀ p : List Action × Proc, p = (p.1, p.2) := fun p => rfl
    rw [e ((nfs_test_fhandlecache_client b o Proc.ret).trace _)]
    simp only [nfs_test_fhandlecache_client, trace_out, trace_send, trace_wait,
      trace_fs _ _ _ g1, trace_fs _ _ _ g2, hs1, hs2]
    simp [Proc.trace]
  · by_cases hi1 : o.st1_ino m = o.ino1
    · refine ⟨TempFile.temp1, by simp [fhandlecache_client_seen, hi1],
        by simp [hi1, fhandlecache_client_cmd], hi1, by decide, ?_⟩
      have : fhandlecache_server_link (fhandlecache_client_cmd TempFile.temp1)
          = TempFile.temp2 := by
        decide
      rw [this, hi1]
      exact fun h => hd h.symm
    · have hi : o.st1_ino m = o.ino2 := (g4 m).resolve_left hi1
      refine ⟨TempFile.temp2, by rw [fhandlecache_client_seen, if_neg hi1, if_pos hi],
        by simp [hi1, fhandlecache_client_cmd], hi, by decide, ?_⟩
      have : fhandlecache_server_link (fhandlecache_client_cmd TempFile.temp2)
          = TempFile.temp1 := by
        decide
      rw [this]
      exact fun h => hi1 h.symm
  · intro so k fuel i cmd rest hc
    by_cases hb1 : cmd = 'b'
    · subst hb1
      have e : fhandlecache_server_link 'b' = TempFile.temp1 := rfl
      rw [e]
      refine ⟨fun l1 => ?_, fun l1 l2 l3 => ?_⟩
      · rw [fhandlecache_server_loop, trace_read]
        simp [fs_check, l1, Proc.trace]
      · rw [fhandlecache_server_loop, trace_read]
        simp only [Char.reduceEq, ne_eq, not_true_eq_false, not_false_eq_true, reduceIte,
          trace_fs _ _ _ l1, trace_fs _ _ _ l2, trace_fs _ _ _ l3, trace_send]
    · have e : fhandlecache_server_link cmd = TempFile.temp2 := by
        simp [fhandlecache_server_link, hb1]
      rw [e]
      refine ⟨fun l1 => ?_, fun l1 l2 l3 => ?_⟩
      · rw [fhandlecache_server_loop, trace_read]
        simp [fs_check, l1, hc, hb1, Proc.trace]
      · rw [fhandlecache_server_loop, trace_read]
        simp only [hc, hb1, ne_eq, not_false_eq_true, if_true, if_false, reduceIte,
          trace_fs _ _ _ l1, trace_fs _ _ _ l2, trace_fs _ _ _ l3, trace_send]
  · intro os F hF hu hok
    obtain ⟨f, rfl⟩ : ∃ f, F = f + 1 + NFS_CACHE_FLUSH_METHOD_COUNT b :=
      ⟨F - NFS_CACHE_FLUSH_METHOD_COUNT b - 1, by omega⟩
    refine fhandlecache_start b o os _ hs0 hu (fun o3 o4 => ?_)
    obtain ⟨N, hN⟩ : ∃ N, N = NFS_CACHE_FLUSH_METHOD_COUNT b := ⟨_, rfl⟩
    rw [← hN] at hok ⊢
    have key := @fhandlecache_rounds Config.in_sync b o (os 0).fhandlecache
      (fun success =>
        send_cmd '4' <|
        Proc.out (if success then []
          else ["Looks like there's no way to flush directory's attribute cache\n"]) <|
        wait_cmd '!' Proc.ret)
      (send_cmd '!' (server_dispatch (fun j => os (j + 1)) Proc.ret (f + 1 + N))) hs0 0 (f + 1)
      N 0 false o3 o4 (fun m _ h2 => hok m (by omega))
    rw [Nat.zero_add] at key
    refine key (fun s3 o5 o6 => ?_)
    simp only [fhandlecache_client_loop, fhandlecache_server_loop]
    apply ev_c_send
    apply ev_c_out
    refine ev_s_read (by rfl) ?_
    simp only [Char.reduceEq, ne_eq, not_true_eq_false, not_false_eq_true, reduceIte]
    refine ev_s_send (by rfl) ?_
    apply ev_c_wait
    exact ev_now ⟨rfl, rfl, rfl, _, f + N, by
      have e : f + 1 + N = f + N + 1 := by omega
      rw [e]⟩
  · intro os F m hF hu hm hok hfail
    obtain ⟨f, rfl⟩ : ∃ f, F = f + 1 + m := ⟨F - m - 1, by omega⟩
    refine fhandlecache_start b o os _ hs0 hu (fun o3 o4 => ?_)
    obtain ⟨r, hr⟩ : ∃ r, NFS_CACHE_FLUSH_METHOD_COUNT b = r + 1 + m :=
      ⟨NFS_CACHE_FLUSH_METHOD_COUNT b - m - 1, by omega⟩
    rw [hr]
    refine fhandlecache_rounds b o (os 0).fhandlecache _ _ hs0 (r + 1) (f + 1)
      m 0 false o3 o4 (fun j _ h2 => hok j (by omega)) (fun s3 o5 o6 => ?_)
    rw [Nat.zero_add]
    rw [fhandlecache_client_loop, fhandlecache_server_loop]
    refine ev_c_fs_ok (g3 m) ?_
    by_cases hi1 : o.st1_ino m = o.ino1
    · have hl2 := hfail TempFile.temp1 (by simp [fhandlecache_client_seen, hi1])
      have e : fhandlecache_server_link (fhandlecache_client_cmd TempFile.temp1)
          = TempFile.temp2 := by
        decide
      rw [e] at hl2
      rw [if_pos hi1]
      apply ev_c_send
      refine ev_s_read (by rfl) ?_
      simp only [Char.reduceEq, ne_eq, not_true_eq_false, not_false_eq_true, reduceIte]
      exact ev_now ⟨by simp [fs_check, hl2], by simp [wait_cmd, read_cmd]⟩
    · have hi : o.st1_ino m = o.ino2 := (g4 m).resolve_left hi1
      have hl1 := hfail TempFile.temp2 (by rw [fhandlecache_client_seen, if_neg hi1, if_pos hi])
      have e : fhandlecache_server_link (fhandlecache_client_cmd TempFile.temp2)
          = TempFile.temp1 := by
        decide
      rw [e] at hl1
      rw [if_neg hi1, if_pos hi]
      apply ev_c_send
      refine ev_s_read (by rfl) ?_
      simp only [Char.reduceEq, ne_eq, not_true_eq_false, not_false_eq_true, reduceIte]
      exact ev_now ⟨by simp [fs_check, hl1], by simp [wait_cmd, read_cmd]⟩

/-- C22 at the sample observations, where the two temp files have the inodes 1
and 2 and the client finds inode 1 in every round: it sends `a` and the server
links the second temp file.  Against a server that can only link the second
temp file the scenario ends with both processes in step; against a server that
can only link the first one, the file that the client has found, the server
ends in `i_fatal` for `link` in the first round. -/
theorem C22_fhandlecache_relink_witness :
    client_obs_ok.fhandlecache.steady ∧
    client_obs_ok.fhandlecache.ino1 ≠ client_obs_ok.fhandlecache.ino2 ∧
    (∃ t, fhandlecache_client_seen client_obs_ok.fhandlecache 0 = some t ∧
      fhandlecache_server_link (fhandlecache_client_cmd t) ≠ t) ∧
    Ev Config.in_sync
      (scenario_start (nfs_test_fhandlecache_client ⟨true, true⟩ client_obs_ok.fhandlecache)
        (fun _ => server_obs_link2_only) 21) ∧
    Ev (fun c => c.server = Proc.exit (Fatal.fs "link(%s, %s) failed: %m") ∧
        c.client ≠ Proc.ret)
      (scenario_start (nfs_test_fhandlecache_client ⟨true, true⟩ client_obs_ok.fhandlecache)
        (fun _ => server_obs_link1_only) 21) := by
  have hs : client_obs_ok.fhandlecache.steady := by
    simp [FhandleClientObs.steady, client_obs_ok, flush_quiet]
  have hd : client_obs_ok.fhandlecache.ino1 ≠ client_obs_ok.fhandlecache.ino2 := by decide
  have hu2 : server_obs_link2_only.fhandlecache.setup_ok := by
    simp [FhandleServerObs.setup_ok, server_obs_link2_only]
  have hu1 : server_obs_link1_only.fhandlecache.setup_ok := by
    simp [FhandleServerObs.setup_ok, server_obs_link1_only]
  have hok : ∀ m, m < NFS_CACHE_FLUSH_METHOD_COUNT ⟨true, true⟩ →
      fhandlecache_round_ok client_obs_ok.fhandlecache server_obs_link2_only.fhandlecache m := by
    intro m _
    refine ⟨fun t ht => ?_, by simp [server_obs_link2_only], by simp [server_obs_link2_only]⟩
    have e : t = TempFile.temp1 := by
      simpa [fhandlecache_client_seen, client_obs_ok] using ht.symm
    subst e
    have e2 : fhandlecache_server_link (fhandlecache_client_cmd TempFile.temp1)
        = TempFile.temp2 := by
      decide
    rw [e2]
    simp [server_obs_link2_only]
  have hfail : ∀ t, fhandlecache_client_seen client_obs_ok.fhandlecache 0 = some t →
      server_obs_link1_only.fhandlecache.link_round 0
        (fhandlecache_server_link (fhandlecache_client_cmd t)) < 0 := by
    intro t ht
    have e : t = TempFile.temp1 := by
      simpa [fhandlecache_client_seen, client_obs_ok] using ht.symm
    subst e
    decide
  obtain ⟨t, h1, _, _, h4, _⟩ :=
    (C22_fhandlecache_relink ⟨true, true⟩ client_obs_ok.fhandlecache hs hd).2.1 0
  exact ⟨hs, hd, ⟨t, h1, h4⟩,
    (C22_fhandlecache_relink ⟨true, true⟩ client_obs_ok.fhandlecache hs hd).2.2.2.2.1
      (fun _ => server_obs_link2_only) 20 (by decide) hu2 hok,
    (C22_fhandlecache_relink ⟨true, true⟩ client_obs_ok.fhandlecache hs hd).2.2.2.2.2
      (fun _ => server_obs_link1_only) 20 0 (by decide) hu1 (by decide)
      (fun j hj => absurd hj (Nat.not_lt_zero j)) hfail⟩

/-! ## Selector bytes of the data-cache scenario -/

theorem ev_trans {P Q : Config → Prop} {c : Config} (h : Ev P c)
    (hpq : ∀ c1, P c1 → Ev Q c1) : Ev Q c := by
  obtain ⟨n, hn⟩ := h
  exact ev_of_run n (hpq _ hn)

theorem data_cache_round_step {P : Config → Prop} (b : Build) (h : Bool) (o : DataClientObs)
    (so : DataServerObs) (K K1 : Proc) (hc : o.steady) (hs : so.steady)
    (fc fs method : Nat) (hm : method + 1 < NFS_CACHE_FLUSH_METHOD_COUNT b)
    (o1 o2 : List String)
    (hnext : ∀ o3 o4, Ev P
      ⟨data_cache_client_loop b h o K (fc + 1) (method + 1) (Char.ofNat (98 + (method + 1))),
       data_cache_server_loop so K1 fs (method + 1) (Char.ofNat (98 + (method + 1))),
       [], [], o3, o4⟩) :
    Ev P
      ⟨data_cache_client_loop b h o K (fc + 1 + 1) method (Char.ofNat (98 + method)),
       data_cache_server_loop so K1 (fs + 1) method (Char.ofNat (98 + method)),
       [], [], o1, o2⟩ := by
  have hb := count_bounds b
  obtain ⟨d1, d2, d3, d4, d5, d6, d7, d8, d9, d10, d11, d12⟩ := hc
  obtain ⟨s1, s2, s3, s4, s5, s6, s7, s8⟩ := hs
  obtain ⟨hn1, hn2⟩ := next_char_spec method (by omega)
  rw [data_cache_client_loop, data_cache_server_loop]
  refine ev_s_fs_ok (s4 _) ?_
  refine ev_s_send (by rfl) ?_
  apply ev_c_wait
  refine ev_c_flush_ok (d12 _) ?_
  refine ev_c_fs_ok (d5 _) ?_
  refine ev_c_fs_ok (d6 _) ?_
  apply ev_c_out
  apply ev_c_send
  refine ev_s_wait (by rfl) ?_
  refine ev_s_fs_ok (s5 _) ?_
  refine ev_s_fs_ok (s6 _) ?_
  refine ev_s_flush_ok (by rfl) (s7 _) ?_
  refine ev_s_fs_ok (s8 _) ?_
  refine ev_s_send (by rfl) ?_
  apply ev_c_wait
  refine ev_c_flush_ok (d10 _) ?_
  refine ev_c_fs_ok (d7 _) ?_
  apply ev_c_out
  refine ev_c_fs_ok (d8 _) ?_
  refine ev_c_flush_ok (d11 _) ?_
  refine ev_c_fs_ok (d9 _) ?_
  apply ev_c_out
  rw [if_neg (by omega), hn1]
  apply ev_c_send
  refine ev_s_read (by rfl) ?_
  simp only [hn2, ne_eq, not_true_eq_false, not_false_eq_true, reduceIte]
  exact hnext _ _

theorem data_cache_round_last {P : Config → Prop} (b : Build) (h : Bool) (o : DataClientObs)
    (so : DataServerObs) (S : Proc) (hc : o.steady) (hs : so.steady)
    (fc fs method : Nat) (hm : method + 1 = NFS_CACHE_FLUSH_METHOD_COUNT b)
    (o1 o2 : List String)
    (hnext : ∀ o3 o4, P ⟨Proc.ret, S, [], [], o3, o4⟩) :
    Ev P
      ⟨data_cache_client_loop b h o (send_cmd '5' (wait_cmd '!' Proc.ret)) (fc + 1) method
        (Char.ofNat (98 + method)),
       data_cache_server_loop so (send_cmd '!' S) (fs + 1) method (Char.ofNat (98 + method)),
       [], [], o1, o2⟩ := by
  obtain ⟨d1, d2, d3, d4, d5, d6, d7, d8, d9, d10, d11, d12⟩ := hc
  obtain ⟨s1, s2, s3, s4, s5, s6, s7, s8⟩ := hs
  rw [data_cache_client_loop, data_cache_server_loop]
  refine ev_s_fs_ok (s4 _) ?_
  refine ev_s_send (by rfl) ?_
  apply ev_c_wait
  refine ev_c_flush_ok (d12 _) ?_
  refine ev_c_fs_ok (d5 _) ?_
  refine ev_c_fs_ok (d6 _) ?_
  apply ev_c_out
  apply ev_c_send
  refine ev_s_wait (by rfl) ?_
  refine ev_s_fs_ok (s5 _) ?_
  refine ev_s_fs_ok (s6 _) ?_
  refine ev_s_flush_ok (by rfl) (s7 _) ?_
  refine ev_s_fs_ok (s8 _) ?_
  refine ev_s_send (by rfl) ?_
  apply ev_c_wait
  refine ev_c_flush_ok (d10 _) ?_
  refine ev_c_fs_ok (d7 _) ?_
  apply ev_c_out
  refine ev_c_fs_ok (d8 _) ?_
  refine ev_c_flush_ok (d11 _) ?_
  refine ev_c_fs_ok (d9 _) ?_
  apply ev_c_out
  rw [if_pos hm]
  apply ev_c_send
  refine ev_s_read (by rfl) ?_
  simp only [Char.reduceEq, ne_eq, not_true_eq_false, not_false_eq_true, reduceIte]
  refine ev_s_send (by rfl) ?_
  apply ev_c_wait
  exact ev_now (hnext _ _)

theorem data_cache_start {P : Config → Prop} (b : Build) (h : Bool) (oc : DataClientObs)
    (os : Nat → ServerObs) (F : Nat) (hc : oc.steady) (hs : (os 0).data_cache.steady)
    (hnext : ∀ o1 o2, Ev P (data_cache_round b h oc os F 0 o1 o2)) :
    Ev P (scenario_start (nfs_test_data_cache_client b h oc) os (F + 1)) := by
  have hb := count_bounds b
  obtain ⟨d1, d2, d3, d4, d5, d6, d7, d8, d9, d10, d11, d12⟩ := hc
  obtain ⟨s1, s2, s3, s4, s5, s6, s7, s8⟩ := hs
  obtain ⟨i1, i2⟩ := d4
  have i3 : ¬ (List.range oc.read0_ret.toNat).all (fun i => oc.buf0 i == 'a') = false := by
    simp [i2]
  unfold scenario_start nfs_test_data_cache_client
  obtain ⟨n, hN⟩ : ∃ n, NFS_CACHE_FLUSH_METHOD_COUNT b = n + 1 :=
    Nat.exists_eq_succ_of_ne_zero (by omega)
  have hnext0 := hnext
  unfold data_cache_round at hnext0
  rw [hN] at hnext0 ⊢
  rw [if_neg i1, if_neg i3]
  apply ev_c_out
  apply ev_c_send
  refine ev_s_read (by rfl) ?_
  simp only [find_D, commands, List.get?, nfs_test_data_cache_server]
  refine ev_s_fs_ok s1 ?_
  refine ev_s_fs_ok s2 ?_
  refine ev_s_flush_ok (by rfl) s3 ?_
  refine ev_s_send (by rfl) ?_
  apply ev_c_wait
  refine ev_c_fs_ok d1 ?_
  refine ev_c_flush_ok d2 ?_
  refine ev_c_fs_ok d3 ?_
  apply ev_c_send
  refine ev_s_wait (by rfl) ?_
  exact hnext0 _ _

theorem data_cache_reaches_round (b : Build) (h : Bool) (oc : DataClientObs)
    (os : Nat → ServerObs) (F : Nat) (hF : 19 ≤ F) (hc : oc.steady)
    (hs : (os 0).data_cache.steady) :
    ∀ k, k < NFS_CACHE_FLUSH_METHOD_COUNT b →
      Ev (fun c => ∃ o1 o2, c = data_cache_round b h oc os F k o1 o2)
        (scenario_start (nfs_test_data_cache_client b h oc) os (F + 1)) := by
  have hb := count_bounds b
  intro k
  induction k with
  | zero =>
    intro _
    exact data_cache_start b h oc os F hc hs (fun o1 o2 => ev_now ⟨o1, o2, rfl⟩)
  | succ k ih =>
    intro hk
    refine ev_trans (ih (by omega)) ?_
    rintro c1 ⟨o1, o2, rfl⟩
    obtain ⟨fc, e1⟩ : ∃ fc, NFS_CACHE_FLUSH_METHOD_COUNT b - k = fc + 1 + 1 :=
      ⟨NFS_CACHE_FLUSH_METHOD_COUNT b - k - 2, by omega⟩
    obtain ⟨fs, e3⟩ : ∃ fs, F - k = fs + 1 := ⟨F - k - 1, by omega⟩
    have e2 : NFS_CACHE_FLUSH_METHOD_COUNT b - (k + 1) = fc + 1 := by omega
    have e4 : F - (k + 1) = fs := by omega
    unfold data_cache_round
    rw [e1, e3]
    refine data_cache_round_step b h oc _ _ _ hc hs fc fs k hk o1 o2 (fun o3 o4 => ?_)
    refine ev_now ⟨o3, o4, ?_⟩
    rw [e2, e4]

/-- C24: with no call of either side ending in `i_fatal`, the two processes of
the data-cache scenario come, for every `k` below
`NFS_CACHE_FLUSH_METHOD_COUNT`, to the start of round `k` with the server's
`cmd` and the client's `chr` both being `'b' + k`; in a round the server
sends its `cmd` (the byte it has written at offset 512) and the client waits
for its `chr` and compares `buf[512]` with it; `'b' + k` is never the end
marker `5`; and the run ends with the client returned and the server back in
its dispatch loop, with no abort on the way: the server has left its loop
exactly at the `5` that follows the last round of the client. -/
theorem C24_data_cache_selectors (b : Build) (h : Bool) (oc : DataClientObs)
    (os : Nat → ServerObs) (F : Nat) (hF : 19 ≤ F) (hc : oc.steady)
    (hs : (os 0).data_cache.steady) :
    (∀ k, k < NFS_CACHE_FLUSH_METHOD_COUNT b → ∃ n o1 o2,
      Config.run n (scenario_start (nfs_test_data_cache_client b h oc) os (F + 1))
        = data_cache_round b h oc os F k o1 o2) ∧
    (∀ k, k < NFS_CACHE_FLUSH_METHOD_COUNT b →
      (Char.ofNat (98 + k)).toNat = 'b'.toNat + k ∧ Char.ofNat (98 + k) ≠ '5') ∧
    (∀ (so : DataServerObs) (K : Proc) (fuel i : Nat) (cmd : Char),
      data_cache_server_loop so K (fuel + 1) i cmd
        = fs_check (so.utimes1_ret i < 0) "utimes(%s) failed: %m"
            (send_cmd '3' (wait_cmd '4'
              (fs_check (so.lseek_ret i < 0) "lseek() failed: %m"
                (fs_check (so.write_round_ret i ≠ 1) "write(%s) failed: %m"
                  (flush (so.flush i)
                    (fs_check (so.utimes2_ret i < 0) "utimes(%s) failed: %m"
                      (send_cmd cmd (read_cmd (fun c =>
                        if c ≠ '5' then data_cache_server_loop so K fuel (i + 1) c
                        else K)))))))))) ∧
    (∀ (K : Proc) (fuel method : Nat) (chr : Char) (rest : List Char),
      (∀ m, ¬ oc.fstat1_ret m < 0) → (∀ m, ¬ oc.lseek1_ret m < 0) →
      (∀ m, (oc.flush_attr m).fatal = false) →
      ((data_cache_client_loop b h oc K (fuel + 1) method chr).trace ('3' :: rest)).1.take 3
        = [Action.received '3', Action.sent '4'] ++
          (match rest with
           | [] => []
           | c :: _ => [Action.received c]) ∧
      (∀ c tail, rest = c :: tail → c ≠ chr →
        ((data_cache_client_loop b h oc K (fuel + 1) method chr).trace ('3' :: rest)).2
          = Proc.exit (Fatal.unexpected c chr))) ∧
    (∀ (K : Proc) (fuel k : Nat) (tail : List Char),
      ("Data cache flush " ++ method_name b k ++ ": " ++
          (if oc.buf k 512 = Char.ofNat (98 + k) then "OK" else "failed") ++ "\n")
        ∈ (data_cache_client_loop b h oc K (fuel + 1) k (Char.ofNat (98 + k))).printed
            ('3' :: Char.ofNat (98 + k) :: tail)) ∧
    (∃ n, (Config.run n
      (scenario_start (nfs_test_data_cache_client b h oc) os (F + 1))).in_sync) ∧
    (∀ m, ¬ (Config.run m
      (scenario_start (nfs_test_data_cache_client b h oc) os (F + 1))).aborted) := by
  have hb := count_bounds b
  have hsync : Ev Config.in_sync
      (scenario_start (nfs_test_data_cache_client b h oc) os (F + 1)) := by
    refine ev_trans (data_cache_reaches_round b h oc os F hF hc hs
      (NFS_CACHE_FLUSH_METHOD_COUNT b - 1) (by omega)) ?_
    rintro c1 ⟨o1, o2, rfl⟩
    obtain ⟨fs, e3⟩ : ∃ fs, F - (NFS_CACHE_FLUSH_METHOD_COUNT b - 1) = fs + 1 :=
      ⟨F - (NFS_CACHE_FLUSH_METHOD_COUNT b - 1) - 1, by omega⟩
    have e1 : NFS_CACHE_FLUSH_METHOD_COUNT b - (NFS_CACHE_FLUSH_METHOD_COUNT b - 1) = 0 + 1 := by
      omega
    obtain ⟨f, rfl⟩ : ∃ f, F = f + 1 := ⟨F - 1, by omega⟩
    unfold data_cache_round
    rw [e1, e3]
    exact data_cache_round_last b h oc _ _ hc hs 0 fs _ (by omega) o1 o2
      (fun o3 o4 => ⟨rfl, rfl, rfl, fun j => os (j + 1), f, rfl⟩)
  refine ⟨fun k hk => ?_, fun k hk => ?_, fun so K fuel i cmd => rfl, ?_, ?_, hsync, ?_⟩
  · obtain ⟨n, o1, o2, e⟩ := data_cache_reaches_round b h oc os F hF hc hs k hk
    exact ⟨n, o1, o2, e⟩
  · have hk19 : k < 19 := by omega
    interval_cases k <;> decide
  · intro K fuel method chr rest h1 h2 h3
    rw [data_cache_client_loop]
    simp only [trace_wait, trace_flush _ _ (h3 method), trace_fs _ _ _ (h1 method),
      trace_fs _ _ _ (h2 method), trace_out, trace_send]
    cases rest with
    | nil => exact ⟨by simp [wait_cmd, read_cmd, Proc.trace], fun c tail e => by cases e⟩
    | cons c tail =>
      refine ⟨by simp [wait_cmd, read_cmd, Proc.trace], fun c1 tail1 e hne => ?_⟩
      simp only [List.cons.injEq] at e
      obtain ⟨rfl, rfl⟩ := e
      have hne1 : ¬ chr = c := fun hx => hne hx.symm
      simp [wait_cmd, read_cmd, Proc.trace, hne1]
  · intro K fuel k tail
    obtain ⟨d1, d2, d3, d4, d5, d6, d7, d8, d9, d10, d11, d12⟩ := hc
    rw [data_cache_round_printed b h oc K fuel k _ tail (d5 k) (d6 k) (d7 k) (d8 k) (d9 k)
      (d10 k) (d11 k) (d12 k)]
    simp [data_round_lines]
  · obtain ⟨n, hn⟩ := hsync
    exact never_aborted_of_in_sync hn

/-- C24 at sample observations in the build with 19 methods: the samples meet
the hypotheses and the two processes come to the start of round 18, the last,
with the selector `'b' + 18`. -/
theorem C24_data_cache_selectors_witness :
    19 ≤ 63 ∧ data_obs_ok.steady ∧ server_obs_ok.data_cache.steady ∧
    ∃ n o1 o2,
      Config.run n (scenario_start (nfs_test_data_cache_client ⟨true, true⟩ true data_obs_ok)
        (fun _ => server_obs_ok) (63 + 1))
        = data_cache_round ⟨true, true⟩ true data_obs_ok (fun _ => server_obs_ok) 63 18 o1 o2 := by
  have hc : data_obs_ok.steady := by
    simp [DataClientObs.steady, DataClientObs.initial_read_ok, data_obs_ok,
      data_obs_empty_read, flush_quiet]
  have hs : server_obs_ok.data_cache.steady := by
    simp [DataServerObs.steady, server_obs_ok, flush_quiet]
  exact ⟨by decide, hc, hs,
    (C24_data_cache_selectors ⟨true, true⟩ true data_obs_ok (fun _ => server_obs_ok) 63
      (by decide) hc hs).1 18 (by decide)⟩

end NfsTest
